import Mathlib

/-!
# PyTaiko audio engine: buffer registry, ring protocol and mixer

Shallow embedding of `libs/audio/audio.c`.

* Samples (`float`) are elements of a field `α`; `sqrtf` is a parameter of the
  mixer.  Rounding is not modelled.  The pan setter, whose comparisons tell
  NaN from a number, is modelled over `cfloat`: NaN, or a number.
* `unsigned int` fields are natural numbers, reduced modulo `2 ^ 32` where the
  C arithmetic can wrap.  `unsigned long` quantities (`framesPerBuffer`,
  `framesToMix`, loop indices) are exact in `mixFrame`, `mixLoop` and
  `port_audio_callback`, as they are where `unsigned long` has 64 bits;
  `mixFrameW` and `mixLoopW` are the frame loop and the segment loop for an
  `unsigned long` of any width.
* A pointer to a `struct audio_buffer` is `Option Nat` (`none` is `NULL`); the
  structs themselves live in `AudioData.mem`, indexed by address.
* Undefined behaviour (division by zero, a read or write outside `data`, a
  `NULL` dereference) is an explicit `Fault`.
* Times, sample rates held in a `double` and `src_ratio` are rationals; the
  conversion of a `double` to `unsigned int` is `toUInt`.
* The file decoder (`sf_readf_float`, `sf_seek`) and the resampler are
  parameters: functions giving what the library call returns and stores.
  Allocation results are parameters as well.
* `update_music_stream` is modelled with no mix cycle running between its
  steps.
-/

namespace Audio

/-- Number of values of a 32-bit `unsigned int`. -/
def UINT_RANGE : Nat := 2 ^ 32

/-- Device output channels: stereo (`#define AUDIO_DEVICE_CHANNELS 2`). -/
def AUDIO_DEVICE_CHANNELS : Nat := 2

/-- Ways in which the C code can leave defined behaviour, plus exhaustion of
the traversal bound used by the model. -/
inductive Fault where
  | divByZero
  | outOfBounds
  | nullDeref
  | outOfFuel
  deriving DecidableEq

/-- The C `struct audio_buffer`.  `data` is `none` for a `NULL` pointer and
otherwise the allocated `float` array. -/
structure audio_buffer (α : Type) where
  volume : α
  pitch : α
  pan : α
  playing : Bool
  paused : Bool
  isStreaming : Bool
  isSubBufferProcessed : Bool × Bool
  sizeInFrames : Nat
  frameCursorPos : Nat
  framesProcessed : Nat
  data : Option (List α)
  next : Option Nat
  prev : Option Nat
  deriving DecidableEq

/-- The global `AUDIO`: master volume, the list head and tail, and the memory
holding every `struct audio_buffer`. -/
structure AudioData (α : Type) where
  masterVolume : α
  first : Option Nat
  last : Option Nat
  mem : Nat → audio_buffer α

section Defs

variable {α : Type} [Field α]

/-- Reads `isSubBufferProcessed[i]` for `i` in `{0, 1}`. -/
def audio_buffer.flag (b : audio_buffer α) (i : Nat) : Bool :=
  if i = 0 then b.isSubBufferProcessed.1 else b.isSubBufferProcessed.2

/-- Writes `isSubBufferProcessed[i] = v` for `i` in `{0, 1}`. -/
def audio_buffer.setFlag (b : audio_buffer α) (i : Nat) (v : Bool) : audio_buffer α :=
  if i = 0 then { b with isSubBufferProcessed := (v, b.isSubBufferProcessed.2) }
  else { b with isSubBufferProcessed := (b.isSubBufferProcessed.1, v) }

/-- The assignment `b->next = v`. -/
def audio_buffer.setNext (b : audio_buffer α) (v : Option Nat) : audio_buffer α :=
  { b with next := v }

/-- The assignment `b->prev = v`. -/
def audio_buffer.setPrev (b : audio_buffer α) (v : Option Nat) : audio_buffer α :=
  { b with prev := v }

/-- The struct `b` with its list links replaced by `pv` and `nx`. -/
def audio_buffer.relink (b : audio_buffer α) (pv nx : Option Nat) : audio_buffer α :=
  (b.setPrev pv).setNext nx

/-- The struct `b` with both list links set to `NULL`: everything the mixer
and the playback controls look at. -/
def audio_buffer.clearLinks (b : audio_buffer α) : audio_buffer α :=
  (b.setPrev none).setNext none

/-- A struct as returned by `calloc(1, sizeof(struct audio_buffer))`. -/
def zeroed_buffer : audio_buffer α :=
  { volume := 0, pitch := 0, pan := 0, playing := false, paused := false,
    isStreaming := false, isSubBufferProcessed := (false, false), sizeInFrames := 0,
    frameCursorPos := 0, framesProcessed := 0, data := none, next := none, prev := none }

/-! ## Mixing (`port_audio_callback`) -/

/-- One iteration `i` of the frame loop (audio.c lines 236-245): both channels
of one frame are read from `buffer_data` and added into `out`.  The loop is
only entered with `sizeInFrames / 2` non-zero, so `% sizeInFrames` has a
non-zero divisor here. -/
def mixFrame (sqrtf : α → α) (b : audio_buffer α) (buffer_data : List α)
    (framesPerBuffer framesToMix i : Nat) (out : Nat → α) : Except Fault (Nat → α) :=
  let left_gain := sqrtf (1 - b.pan)
  let right_gain := sqrtf b.pan
  let buffer_pos := ((b.frameCursorPos + i) % b.sizeInFrames) * AUDIO_DEVICE_CHANNELS
  let output_pos := (framesPerBuffer - framesToMix + i) * AUDIO_DEVICE_CHANNELS
  match buffer_data[buffer_pos]?, buffer_data[buffer_pos + 1]? with
  | some s0, some s1 =>
    let out1 := Function.update out output_pos (out output_pos + s0 * b.volume * left_gain)
    Except.ok (Function.update out1 (output_pos + 1)
      (out1 (output_pos + 1) + s1 * b.volume * right_gain))
  | _, _ => Except.error Fault.outOfBounds

/-- The frame loop `for (i = 0; i < framesThisPass; i++)`: iterations
`0 .. k-1` in increasing order. -/
def mixFrames (sqrtf : α → α) (b : audio_buffer α) (buffer_data : List α)
    (framesPerBuffer framesToMix : Nat) : Nat → (Nat → α) → Except Fault (Nat → α)
  | 0, out => Except.ok out
  | k + 1, out =>
    match mixFrames sqrtf b buffer_data framesPerBuffer framesToMix k out with
    | Except.ok out1 => mixFrame sqrtf b buffer_data framesPerBuffer framesToMix k out1
    | Except.error e => Except.error e

/-- The segment loop `while (framesToMix > 0)` (audio.c lines 223-261).  The
first argument bounds the number of iterations. -/
def mixLoop (sqrtf : α → α) (framesPerBuffer : Nat) (buffer_data : List α) :
    Nat → audio_buffer α → Nat → (Nat → α) → Except Fault (audio_buffer α × (Nat → α))
  | _, b, 0, out => Except.ok (b, out)
  | 0, _, _ + 1, _ => Except.error Fault.outOfFuel
  | fuel + 1, b, framesToMix + 1, out =>
    let subBufferSizeFrames := b.sizeInFrames / 2
    if subBufferSizeFrames = 0 then Except.error Fault.divByZero
    else
      let currentSubBufferIndex := (b.frameCursorPos / subBufferSizeFrames) % 2
      let frameOffsetInSubBuffer := b.frameCursorPos % subBufferSizeFrames
      let framesLeftInSubBuffer := subBufferSizeFrames - frameOffsetInSubBuffer
      let framesThisPass :=
        if framesToMix + 1 < framesLeftInSubBuffer then framesToMix + 1 else framesLeftInSubBuffer
      let mixed :=
        if b.flag currentSubBufferIndex then Except.ok out
        else mixFrames sqrtf b buffer_data framesPerBuffer (framesToMix + 1) framesThisPass out
      match mixed with
      | Except.error e => Except.error e
      | Except.ok out1 =>
        let b1 := { b with
          frameCursorPos := (b.frameCursorPos + framesThisPass) % UINT_RANGE,
          framesProcessed := (b.framesProcessed + framesThisPass) % UINT_RANGE }
        let newSubBufferIndex := (b1.frameCursorPos / subBufferSizeFrames) % 2
        let b2 :=
          if newSubBufferIndex ≠ currentSubBufferIndex then b1.setFlag currentSubBufferIndex true
          else b1
        if !b2.isStreaming && decide (b2.frameCursorPos ≥ b2.sizeInFrames) then
          Except.ok ({ b2 with playing := false }, out1)
        else mixLoop sqrtf framesPerBuffer buffer_data fuel b2 (framesToMix + 1 - framesThisPass) out1

/-- Body of the registry loop for one buffer (audio.c lines 218-262).  Every
segment consumes at least one frame, so `framesPerBuffer` iterations bound the
segment loop. -/
def mixBuffer (sqrtf : α → α) (framesPerBuffer : Nat) (b : audio_buffer α)
    (out : Nat → α) : Except Fault (audio_buffer α × (Nat → α)) :=
  match b.data with
  | none => Except.ok (b, out)
  | some buffer_data =>
    if b.playing && !b.paused then
      mixLoop sqrtf framesPerBuffer buffer_data framesPerBuffer b framesPerBuffer out
    else Except.ok (b, out)

/-- The registry loop `while (audio_buffer != NULL)` (audio.c lines 216-264),
visiting at most `fuel` nodes. -/
def mixAll (sqrtf : α → α) (framesPerBuffer : Nat) :
    Nat → Option Nat → (Nat → audio_buffer α) → (Nat → α) →
      Except Fault ((Nat → audio_buffer α) × (Nat → α))
  | _, none, mem, out => Except.ok (mem, out)
  | 0, some _, _, _ => Except.error Fault.outOfFuel
  | fuel + 1, some p, mem, out =>
    match mixBuffer sqrtf framesPerBuffer (mem p) out with
    | Except.error e => Except.error e
    | Except.ok (b1, out1) =>
      mixAll sqrtf framesPerBuffer fuel b1.next (Function.update mem p b1) out1

/-- The registry loop run over an explicit sequence of addresses: what
`mixAll` does when the `next` links starting at `first` spell out `l`. -/
def mixList (sqrtf : α → α) (framesPerBuffer : Nat) :
    List Nat → (Nat → audio_buffer α) → (Nat → α) →
      Except Fault ((Nat → audio_buffer α) × (Nat → α))
  | [], mem, out => Except.ok (mem, out)
  | p :: l, mem, out =>
    match mixBuffer sqrtf framesPerBuffer (mem p) out with
    | Except.error e => Except.error e
    | Except.ok (b1, out1) => mixList sqrtf framesPerBuffer l (Function.update mem p b1) out1

/-- One mix cycle.  `outputBuffer` is the block handed in by the backend; only
its first `framesPerBuffer * AUDIO_DEVICE_CHANNELS` entries belong to it. -/
def port_audio_callback (sqrtf : α → α) (fuel : Nat) (A : AudioData α)
    (outputBuffer : Nat → α) (framesPerBuffer : Nat) :
    Except Fault (AudioData α × (Nat → α)) :=
  let out0 : Nat → α := fun i =>
    if i < framesPerBuffer * AUDIO_DEVICE_CHANNELS then 0 else outputBuffer i
  match mixAll sqrtf framesPerBuffer fuel A.first A.mem out0 with
  | Except.error e => Except.error e
  | Except.ok (mem1, out1) =>
    Except.ok ({ A with mem := mem1 },
      fun i => if i < framesPerBuffer * AUDIO_DEVICE_CHANNELS then out1 i * A.masterVolume
        else out1 i)

/-! ## Registry -/

/-- Appends `buffer` to the list (`track_audio_buffer`). -/
def track_audio_buffer (A : AudioData α) (buffer : Option Nat) : Except Fault (AudioData α) :=
  match buffer with
  | none => Except.ok A
  | some b =>
    match A.first with
    | none => Except.ok { A with first := some b, last := some b }
    | some _ =>
      match A.last with
      | none => Except.error Fault.nullDeref
      | some l =>
        let mem1 := Function.update A.mem l ((A.mem l).setNext (some b))
        let mem2 := Function.update mem1 b ((mem1 b).setPrev (some l))
        Except.ok { A with mem := mem2, last := some b }

/-- Unlinks `buffer` from the list (`untrack_audio_buffer`). -/
def untrack_audio_buffer (A : AudioData α) (buffer : Option Nat) : AudioData α :=
  match buffer with
  | none => A
  | some b =>
    let A1 : AudioData α :=
      match (A.mem b).prev with
      | none => { A with first := (A.mem b).next }
      | some q => { A with mem := Function.update A.mem q ((A.mem q).setNext (A.mem b).next) }
    let A2 : AudioData α :=
      match (A1.mem b).next with
      | none => { A1 with last := (A1.mem b).prev }
      | some n => { A1 with mem := Function.update A1.mem n ((A1.mem n).setPrev (A1.mem b).prev) }
    { A2 with mem := Function.update A2.mem b (((A2.mem b).setPrev none).setNext none) }

/-! ## Buffer life cycle -/

/-- The struct `load_audio_buffer` builds before registering it (audio.c lines
489-519): a zeroed struct whose `data` is the zeroed array of
`size_in_frames*channels*sizeof(float)` bytes, the product
`size_in_frames*channels` being formed in `uint32_t`. -/
def new_audio_buffer (channels size_in_frames : Nat) (usage : Int) : audio_buffer α :=
  { (zeroed_buffer : audio_buffer α) with
    data := some (List.replicate ((size_in_frames * channels) % UINT_RANGE) 0),
    volume := 1, pitch := 1, pan := 1 / 2,
    playing := false, paused := false,
    frameCursorPos := 0, framesProcessed := 0,
    sizeInFrames := size_in_frames,
    isSubBufferProcessed := if usage = 0 then (false, false) else (true, true),
    isStreaming := decide (usage = 1) }

/-- Creates and registers a buffer (`load_audio_buffer`).  `bufferAlloc` is the
address returned by the first `calloc` (`none` on failure) and `dataAlloc`
tells whether the second one succeeds. -/
def load_audio_buffer (A : AudioData α) (bufferAlloc : Option Nat) (dataAlloc : Bool)
    (channels size_in_frames : Nat) (usage : Int) :
    Except Fault (AudioData α × Option Nat) :=
  match bufferAlloc with
  | none => Except.ok (A, none)
  | some buffer =>
    if !dataAlloc then Except.ok (A, none)
    else
      let mem1 := Function.update A.mem buffer (new_audio_buffer channels size_in_frames usage)
      match track_audio_buffer { A with mem := mem1 } (some buffer) with
      | Except.error e => Except.error e
      | Except.ok A1 => Except.ok (A1, some buffer)

/-- Applies `f` to the struct `buffer` points to; a `NULL` pointer is ignored
(`if (buffer == NULL) return;`). -/
def onBuffer (A : AudioData α) (buffer : Option Nat) (f : audio_buffer α → audio_buffer α) :
    AudioData α :=
  match buffer with
  | none => A
  | some b => { A with mem := Function.update A.mem b (f (A.mem b)) }

/-- Starts playback from the top (`play_audio_buffer`). -/
def play_audio_buffer (A : AudioData α) (buffer : Option Nat) : AudioData α :=
  onBuffer A buffer fun b =>
    let b1 := { b with playing := true, paused := false, frameCursorPos := 0, framesProcessed := 0 }
    if !b1.isStreaming then { b1 with isSubBufferProcessed := (false, false) } else b1

/-- Stops playback (`stop_audio_buffer`). -/
def stop_audio_buffer (A : AudioData α) (buffer : Option Nat) : AudioData α :=
  onBuffer A buffer fun b =>
    { b with playing := false, paused := false, frameCursorPos := 0, framesProcessed := 0,
             isSubBufferProcessed := (true, true) }

/-- Pauses playback (`pause_audio_buffer`). -/
def pause_audio_buffer (A : AudioData α) (buffer : Option Nat) : AudioData α :=
  onBuffer A buffer fun b => { b with paused := true }

/-- Resumes playback (`resume_audio_buffer`). -/
def resume_audio_buffer (A : AudioData α) (buffer : Option Nat) : AudioData α :=
  onBuffer A buffer fun b => { b with paused := false }

/-! ## Well-formed registries -/

/-- Following `link` from `cur` visits exactly the addresses of `l`, in order,
and then arrives at `e`. -/
def Seg (link : Nat → Option Nat) : Option Nat → List Nat → Option Nat → Prop
  | cur, [], e => cur = e
  | cur, p :: l, e => cur = some p ∧ Seg link (link p) l e

instance Seg.decidable (link : Nat → Option Nat) :
    ∀ (cur : Option Nat) (l : List Nat) (e : Option Nat), Decidable (Seg link cur l e)
  | cur, [], e => inferInstanceAs (Decidable (cur = e))
  | cur, p :: l, e =>
    @instDecidableAnd (cur = some p) (Seg link (link p) l e) _ (Seg.decidable link (link p) l e)

/-- The registry of `A` is a well-formed doubly-linked list holding the
distinct addresses `l` in order: `next` leads from `first` through `l` to
`NULL`, and `prev` leads from `last` back through `l` to `NULL`. -/
def WellFormed (A : AudioData α) (l : List Nat) : Prop :=
  l.Nodup ∧ Seg (fun p => (A.mem p).next) A.first l none ∧
    Seg (fun p => (A.mem p).prev) A.last l.reverse none

instance WellFormed.decidable (A : AudioData α) (l : List Nat) : Decidable (WellFormed A l) := by
  unfold WellFormed; infer_instance

/-- Successive mix cycles, one per entry of `cycles`, each with its own
traversal bound and block size; the output blocks are discarded. -/
def mixCycles (sqrtf : α → α) (outputBuffer : Nat → α) :
    List (Nat × Nat) → AudioData α → Except Fault (AudioData α)
  | [], A => Except.ok A
  | (fuel, framesPerBuffer) :: cycles, A =>
    match port_audio_callback sqrtf fuel A outputBuffer framesPerBuffer with
    | Except.error e => Except.error e
    | Except.ok (A1, _) => mixCycles sqrtf outputBuffer cycles A1

/-- The fields a mix cycle never writes are the same in `b` and `b1`. -/
def SameConfig (b b1 : audio_buffer α) : Prop :=
  b1.volume = b.volume ∧ b1.pitch = b.pitch ∧ b1.pan = b.pan ∧ b1.paused = b.paused ∧
    b1.isStreaming = b.isStreaming ∧ b1.sizeInFrames = b.sizeInFrames ∧ b1.data = b.data ∧
    b1.next = b.next ∧ b1.prev = b.prev

/-- The `currentSubBufferIndex` of a segment (audio.c line 224). -/
def subIndex (b : audio_buffer α) : Nat :=
  (b.frameCursorPos / (b.sizeInFrames / 2)) % 2

/-- The `framesThisPass` of a segment (audio.c lines 225-227). -/
def passLength (b : audio_buffer α) (framesToMix : Nat) : Nat :=
  if framesToMix < b.sizeInFrames / 2 - b.frameCursorPos % (b.sizeInFrames / 2) then framesToMix
  else b.sizeInFrames / 2 - b.frameCursorPos % (b.sizeInFrames / 2)

/-- The buffer after a segment of `n` frames (audio.c lines 248-255): cursor
and counter advanced, the sub-buffer just left marked as processed. -/
def afterPass (b : audio_buffer α) (n : Nat) : audio_buffer α :=
  if ((b.frameCursorPos + n) % UINT_RANGE / (b.sizeInFrames / 2)) % 2 ≠ subIndex b then
    audio_buffer.setFlag
      { b with frameCursorPos := (b.frameCursorPos + n) % UINT_RANGE,
               framesProcessed := (b.framesProcessed + n) % UINT_RANGE } (subIndex b) true
  else
    { b with frameCursorPos := (b.frameCursorPos + n) % UINT_RANGE,
             framesProcessed := (b.framesProcessed + n) % UINT_RANGE }

/-- States of the session reachable after the buffer at address `p` has been
created by `load_audio_buffer(channels, size_in_frames, usage)` (both
allocations succeeding), by any sequence of `play_audio_buffer`,
`stop_audio_buffer`, `pause_audio_buffer`, `resume_audio_buffer` on that buffer
and completed mix cycles of any block size. -/
inductive Reachable (sqrtf : α → α) (p channels size_in_frames : Nat) (usage : Int) :
    AudioData α → Prop where
  | load (A0 A1 : AudioData α) :
      load_audio_buffer A0 (some p) true channels size_in_frames usage = Except.ok (A1, some p) →
      Reachable sqrtf p channels size_in_frames usage A1
  | play (A : AudioData α) :
      Reachable sqrtf p channels size_in_frames usage A →
      Reachable sqrtf p channels size_in_frames usage (play_audio_buffer A (some p))
  | stop (A : AudioData α) :
      Reachable sqrtf p channels size_in_frames usage A →
      Reachable sqrtf p channels size_in_frames usage (stop_audio_buffer A (some p))
  | pause (A : AudioData α) :
      Reachable sqrtf p channels size_in_frames usage A →
      Reachable sqrtf p channels size_in_frames usage (pause_audio_buffer A (some p))
  | resume (A : AudioData α) :
      Reachable sqrtf p channels size_in_frames usage A →
      Reachable sqrtf p channels size_in_frames usage (resume_audio_buffer A (some p))
  | mix (A A1 : AudioData α) (fuel framesPerBuffer : Nat) (outputBuffer out1 : Nat → α) :
      Reachable sqrtf p channels size_in_frames usage A →
      port_audio_callback sqrtf fuel A outputBuffer framesPerBuffer = Except.ok (A1, out1) →
      Reachable sqrtf p channels size_in_frames usage A1

/-- What holds of the cursor of a buffer of `N` frames: it is a 32-bit value,
and for a static buffer it is at most `N`, and below `N` while playing. -/
def CursorInv (N : Nat) (streaming : Bool) (b : audio_buffer α) : Prop :=
  b.sizeInFrames = N ∧ b.isStreaming = streaming ∧ b.frameCursorPos < UINT_RANGE ∧
    (b.isStreaming = false →
      b.frameCursorPos ≤ b.sizeInFrames ∧
        (b.playing = true → b.frameCursorPos < b.sizeInFrames))

/-- The session before any buffer has been created. -/
def emptySession : AudioData ℚ :=
  { masterVolume := 1, first := none, last := none, mem := fun _ => zeroed_buffer }

/-- A registry of three buffers at addresses 1, 2 and 3; address 9 holds an
unlinked buffer. -/
def exampleMem : Nat → audio_buffer ℚ := fun p =>
  if p = 1 then { (zeroed_buffer : audio_buffer ℚ) with next := some 2 }
  else if p = 2 then { (zeroed_buffer : audio_buffer ℚ) with prev := some 1, next := some 3 }
  else if p = 3 then { (zeroed_buffer : audio_buffer ℚ) with prev := some 2 }
  else zeroed_buffer

/-- The registry `1 <-> 2 <-> 3` over `exampleMem`. -/
def exampleRegistry : AudioData ℚ :=
  { masterVolume := 1, first := some 1, last := some 3, mem := exampleMem }

/-- The static buffer of the specification scenario: four stereo frames
`(1,1),(2,2),(3,3),(4,4)`, volume 1, pan 0.5, playing from the start. -/
def exampleStatic : audio_buffer ℚ :=
  { (zeroed_buffer : audio_buffer ℚ) with
    volume := 1, pitch := 1, pan := 1 / 2, playing := true, sizeInFrames := 4,
    data := some [1, 1, 2, 2, 3, 3, 4, 4] }

/-- A session whose registry holds `exampleStatic` alone, at address 5. -/
def exampleSession : AudioData ℚ :=
  { masterVolume := 1, first := some 5, last := some 5, mem := fun _ => exampleStatic }

/-- A streaming buffer of four frames whose two sub-buffers are both stale,
playing; its data is arbitrary. -/
def exampleStale : audio_buffer ℚ :=
  { (zeroed_buffer : audio_buffer ℚ) with
    volume := 1, pitch := 1, pan := 1 / 2, playing := true, isStreaming := true,
    isSubBufferProcessed := (true, true), sizeInFrames := 4,
    data := some [7, 7, 7, 7, 7, 7, 7, 7] }

/-- A session whose registry is `5 <-> 6`: the static `exampleStatic` at
address 5 and the stale streaming `exampleStale` at address 6. -/
def exampleMix : AudioData ℚ :=
  { masterVolume := 1, first := some 5, last := some 6,
    mem := fun p =>
      if p = 5 then exampleStatic.setNext (some 6)
      else if p = 6 then exampleStale.setPrev (some 5)
      else zeroed_buffer }

/-- Two outcomes agree when both are faults or both are the same result. -/
def SameOutcome {β : Type} (r1 r2 : Except Fault β) : Prop :=
  match r1, r2 with
  | Except.ok a, Except.ok b => a = b
  | Except.error _, Except.error _ => True
  | _, _ => False

/-- The buffers of `exampleMix` registered in the opposite order, `6 <-> 5`. -/
def exampleMixRev : AudioData ℚ :=
  { masterVolume := 1, first := some 6, last := some 5,
    mem := fun p =>
      if p = 5 then exampleStatic.setPrev (some 6)
      else if p = 6 then exampleStale.setNext (some 5)
      else zeroed_buffer }

/-! ## Pan and volume controls -/

/-- The gain of the left channel, `sqrtf(1.0f - audio_buffer->pan)` (audio.c
line 232). -/
def left_gain (sqrtf : α → α) (b : audio_buffer α) : α :=
  sqrtf (1 - b.pan)

/-- The gain of the right channel, `sqrtf(audio_buffer->pan)` (audio.c line
233). -/
def right_gain (sqrtf : α → α) (b : audio_buffer α) : α :=
  sqrtf b.pan

/-- A C `float` as the comparisons of the pan setter see it: NaN, or a number
of an ordered field. -/
inductive cfloat (β : Type) where
  | nan
  | num (x : β)
  deriving DecidableEq

/-- The C comparison `a < b` of two floats: false when either side is NaN. -/
def cfloat.lt {β : Type} [LinearOrderedField β] (a b : cfloat β) : Bool :=
  match a, b with
  | cfloat.num x, cfloat.num y => decide (x < y)
  | _, _ => false

/-- The float lies in `[0, 1]` (`0 <= a && a <= 1`, which NaN does not
satisfy). -/
def cfloat.inUnit {β : Type} [LinearOrderedField β] (a : cfloat β) : Prop :=
  match a with
  | cfloat.num x => 0 ≤ x ∧ x ≤ 1
  | cfloat.nan => False

/-- Stores the pan after the two comparisons of the code
(`set_audio_buffer_pan`): `if (pan < 0.0f) pan = 0.0f; else if (pan > 1.0f)
pan = 1.0f;`.  The samples and controls of the session are C floats. -/
def set_audio_buffer_pan {β : Type} [LinearOrderedField β] (A : AudioData (cfloat β))
    (buffer : Option Nat) (pan : cfloat β) : AudioData (cfloat β) :=
  onBuffer A buffer fun b =>
    let pan1 :=
      if cfloat.lt pan (cfloat.num 0) then cfloat.num 0
      else if cfloat.lt (cfloat.num 1) pan then cfloat.num 1
      else pan
    { b with pan := pan1 }

/-- A session over C floats whose buffers are stopped, with pan 0. -/
def panSession : AudioData (cfloat ℚ) :=
  { masterVolume := cfloat.num 1, first := some 5, last := some 5,
    mem := fun _ =>
      { volume := cfloat.num 1, pitch := cfloat.num 1, pan := cfloat.num 0,
        playing := false, paused := false, isStreaming := false,
        isSubBufferProcessed := (false, false), sizeInFrames := 4,
        frameCursorPos := 0, framesProcessed := 0, data := none,
        next := none, prev := none } }

/-! ## Streams and music -/

/-- The C `audio_stream`: the buffer pointer and the format of the source. -/
structure audio_stream where
  buffer : Option Nat
  sampleRate : Nat
  sampleSize : Nat
  channels : Nat
  deriving DecidableEq

/-- The C `music_ctx`.  The decoder handle and the resampler handle are
recorded by whether they are non-`NULL`. -/
structure music_ctx where
  snd_file : Bool
  resampler : Bool
  src_ratio : ℚ
  deriving DecidableEq

/-- The C `music`. -/
structure music where
  stream : audio_stream
  frameCount : Nat
  ctxData : Option music_ctx
  deriving DecidableEq

/-- The fields of libsndfile's `SF_INFO` that the code reads. -/
structure SF_INFO where
  frames : Nat
  samplerate : Nat
  channels : Nat
  deriving DecidableEq

/-- The conversion `(unsigned int) x` of a `double`: truncation, reduced
modulo `2 ^ 32`. -/
def toUInt (x : ℚ) : Nat :=
  Int.toNat (Rat.floor x) % UINT_RANGE

/-- A block write of `n` floats, taken from `src`, at `d + off` (`memcpy`,
`memset`, or the output of the resampler).  A block that does not fit in the
array is a fault. -/
def writeAt (d : List α) (off : Nat) (src : Nat → α) (n : Nat) : Except Fault (List α) :=
  if n = 0 then Except.ok d
  else if off + n ≤ d.length then
    Except.ok ((List.range d.length).map fun j =>
      if off ≤ j ∧ j < off + n then src (j - off) else d.getD j 0)
  else Except.error Fault.outOfBounds

/-- The assignment `d[i] = v`. -/
def storeAt (d : List α) (i : Nat) (v : α) : Except Fault (List α) :=
  if i < d.length then Except.ok (d.set i v) else Except.error Fault.outOfBounds

/-- The loop `for (int j = 0; j < frames_read; j++)` of the mono branch
(audio.c lines 1079-1082): iterations `0 .. k-1`, each storing `input_ptr[j]`
into both channels of frame `j`.  The index is formed in `unsigned int`. -/
def monoCopy (input_ptr : Nat → α) (subBufferOffset : Nat) :
    Nat → List α → Except Fault (List α)
  | 0, d => Except.ok d
  | j + 1, d =>
    match monoCopy input_ptr subBufferOffset j d with
    | Except.error e => Except.error e
    | Except.ok d1 =>
      match storeAt d1 ((subBufferOffset + j * 2) % UINT_RANGE) (input_ptr j) with
      | Except.error e => Except.error e
      | Except.ok d2 => storeAt d2 ((subBufferOffset + j * 2 + 1) % UINT_RANGE) (input_ptr j)

/-- The number of frames asked of the decoder (audio.c lines 1043-1046). -/
def frames_to_read (ctx : music_ctx) (b : audio_buffer α) : Nat :=
  if ctx.resampler then (toUInt (((b.sizeInFrames / 2 : Nat) : ℚ) / ctx.src_ratio) + 1) % UINT_RANGE
  else b.sizeInFrames / 2

/-- The value of `frames_written` after the copy of iteration `i` (audio.c
lines 1074 and 1087): the resampler's `out_len`, or `frames_read` when there
is no resampler.  `sf_readf_float i n` is what the decoder returns to the read
of `n` frames issued in iteration `i`: the frame count and the contents of
`pcmBuffer`.  `speex_process i input in_len out_len` is what the resampler
does in iteration `i`: the value it leaves in `out_len` and the floats it
stores at its output pointer. -/
def frames_written (sf_readf_float : Nat → Nat → Nat × (Nat → α))
    (speex_process : Nat → (Nat → α) → Nat → Nat → Nat × List α)
    (ctx : music_ctx) (i : Nat) (b : audio_buffer α) : Nat :=
  let frames_read := (sf_readf_float i (frames_to_read ctx b)).1
  let input_ptr := (sf_readf_float i (frames_to_read ctx b)).2
  if ctx.resampler then
    (speex_process i input_ptr (frames_read % UINT_RANGE) (b.sizeInFrames / 2)).1
  else frames_read

/-- The copy of iteration `i` into `buffer_data` (audio.c lines 1061-1088):
the resampler's output, or the mono duplication loop, or the `memcpy` of
`frames_read * channels` floats. -/
def copyStage (sf_readf_float : Nat → Nat → Nat × (Nat → α))
    (speex_process : Nat → (Nat → α) → Nat → Nat → Nat × List α)
    (m : music) (ctx : music_ctx) (i : Nat) (b : audio_buffer α) (buffer_data : List α) :
    Except Fault (List α) :=
  let frames_read := (sf_readf_float i (frames_to_read ctx b)).1
  let input_ptr := (sf_readf_float i (frames_to_read ctx b)).2
  let subBufferOffset := (i * (b.sizeInFrames / 2) * AUDIO_DEVICE_CHANNELS) % UINT_RANGE
  if ctx.resampler then
    let output :=
      (speex_process i input_ptr (frames_read % UINT_RANGE) (b.sizeInFrames / 2)).2
    writeAt buffer_data subBufferOffset (fun j => output.getD j 0) output.length
  else if m.stream.channels = 1 then
    monoCopy input_ptr subBufferOffset frames_read buffer_data
  else
    writeAt buffer_data subBufferOffset input_ptr (frames_read * m.stream.channels)

/-- The body of `if (needs_refill)` for sub-buffer `i` (audio.c lines
1041-1098): read, copy, zero-fill of the frames not written, flag cleared. -/
def refill (sf_readf_float : Nat → Nat → Nat × (Nat → α))
    (speex_process : Nat → (Nat → α) → Nat → Nat → Nat × List α)
    (m : music) (ctx : music_ctx) (i : Nat) (b : audio_buffer α) :
    Except Fault (audio_buffer α) :=
  let subBufferSizeFrames := b.sizeInFrames / 2
  let subBufferOffset := (i * subBufferSizeFrames * AUDIO_DEVICE_CHANNELS) % UINT_RANGE
  let written := frames_written sf_readf_float speex_process ctx i b
  match b.data with
  | none => Except.error Fault.nullDeref
  | some buffer_data =>
    match copyStage sf_readf_float speex_process m ctx i b buffer_data with
    | Except.error e => Except.error e
    | Except.ok d1 =>
      let zeroed : Except Fault (List α) :=
        if written < subBufferSizeFrames then
          let offset := (subBufferOffset + written * AUDIO_DEVICE_CHANNELS) % UINT_RANGE
          let size := ((subBufferSizeFrames - written) * AUDIO_DEVICE_CHANNELS * 4) % UINT_RANGE
          writeAt d1 offset (fun _ => 0) (size / 4)
        else Except.ok d1
      match zeroed with
      | Except.error e => Except.error e
      | Except.ok d2 => Except.ok (audio_buffer.setFlag { b with data := some d2 } i false)

/-- Refills the stale sub-buffers of a music stream (`update_music_stream`),
with no mix cycle running between its steps. -/
def update_music_stream (sf_readf_float : Nat → Nat → Nat × (Nat → α))
    (speex_process : Nat → (Nat → α) → Nat → Nat → Nat × List α)
    (A : AudioData α) (m : music) : Except Fault (AudioData α) :=
  match m.stream.buffer, m.ctxData with
  | some p, some ctx =>
    if !ctx.snd_file then Except.ok A
    else
      let b := A.mem p
      let r0 := if b.flag 0 then refill sf_readf_float speex_process m ctx 0 b else Except.ok b
      match r0 with
      | Except.error e => Except.error e
      | Except.ok b1 =>
        let r1 :=
          if b1.flag 1 then refill sf_readf_float speex_process m ctx 1 b1 else Except.ok b1
        match r1 with
        | Except.error e => Except.error e
        | Except.ok b2 => Except.ok { A with mem := Function.update A.mem p b2 }
  | _, _ => Except.ok A

/-- Copies caller data into a stream's buffer (`update_audio_stream`).  `data`
is the caller's array (`none` for `NULL`); the `int` arguments are converted to
`unsigned int` as the assignments of the code do. -/
def update_audio_stream (A : AudioData α) (stream : audio_stream) (data : Option (Nat → α))
    (frame_count : Int) : Except Fault (AudioData α) :=
  match stream.buffer, data with
  | some p, some input_data =>
    match (A.mem p).data with
    | none => Except.ok A
    | some buffer_data =>
      let samples_to_copy := Int.toNat ((frame_count * 2) % (UINT_RANGE : Int))
      let max_samples := ((A.mem p).sizeInFrames * AUDIO_DEVICE_CHANNELS) % UINT_RANGE
      let samples_to_copy1 := if samples_to_copy > max_samples then max_samples else samples_to_copy
      match writeAt buffer_data 0 input_data samples_to_copy1 with
      | Except.error e => Except.error e
      | Except.ok d1 =>
        let b1 : audio_buffer α :=
          { A.mem p with data := some d1,
                         sizeInFrames := Int.toNat (frame_count % (UINT_RANGE : Int)) }
        Except.ok { A with mem := Function.update A.mem p b1 }
  | _, _ => Except.ok A

/-- Creates a stream (`load_audio_stream`): a streaming buffer of
`AUDIO.System.sampleRate` frames with the device channel count.  `sampleRate`
is `AUDIO.System.sampleRate`. -/
def load_audio_stream (A : AudioData α) (sampleRate : ℚ) (bufferAlloc : Option Nat)
    (dataAlloc : Bool) (sample_rate sample_size channels : Nat) :
    Except Fault (AudioData α × audio_stream) :=
  match load_audio_buffer A bufferAlloc dataAlloc AUDIO_DEVICE_CHANNELS (toUInt sampleRate) 1 with
  | Except.error e => Except.error e
  | Except.ok (A1, buffer) =>
    Except.ok (A1, { buffer := buffer, sampleRate := sample_rate, sampleSize := sample_size,
                     channels := channels })

/-- The zero-initialised `music` returned when loading fails. -/
def zero_music : music :=
  { stream := { buffer := none, sampleRate := 0, sampleSize := 0, channels := 0 },
    frameCount := 0, ctxData := none }

/-- Opens a music file (`load_music_stream`).  `sf_open` is the `SF_INFO` of
the file (`none` when it cannot be opened), `ctxAlloc` and `resamplerInit` tell
whether the context allocation and the resampler creation succeed. -/
def load_music_stream (A : AudioData α) (sampleRate : ℚ) (sf_open : Option SF_INFO)
    (ctxAlloc resamplerInit : Bool) (bufferAlloc : Option Nat) (dataAlloc : Bool) :
    Except Fault (AudioData α × music) :=
  match sf_open with
  | none => Except.ok (A, zero_music)
  | some sf_info =>
    if !ctxAlloc then Except.ok (A, zero_music)
    else if (sf_info.samplerate : ℚ) ≠ sampleRate ∧ resamplerInit = false then
      Except.ok (A, zero_music)
    else
      let ctx : music_ctx :=
        if (sf_info.samplerate : ℚ) ≠ sampleRate then
          { snd_file := true, resampler := true, src_ratio := sampleRate / sf_info.samplerate }
        else { snd_file := true, resampler := false, src_ratio := 1 }
      match load_audio_stream A sampleRate bufferAlloc dataAlloc (toUInt sampleRate) 32
          sf_info.channels with
      | Except.error e => Except.error e
      | Except.ok (A1, stream) =>
        Except.ok (A1, { stream := stream,
                         frameCount := toUInt (sf_info.frames * ctx.src_ratio),
                         ctxData := some ctx })

/-- Repositions the decoder and marks the whole ring stale
(`seek_music_stream`).  `sf_seek n` is the result of the decoder's seek to
frame `n`. -/
def seek_music_stream (sf_seek : Nat → Int) (A : AudioData α) (m : music) (position : ℚ) :
    AudioData α :=
  match m.stream.buffer, m.ctxData with
  | some p, some ctx =>
    let position_in_frames := toUInt (position * m.stream.sampleRate / ctx.src_ratio)
    if sf_seek position_in_frames < 0 then A
    else
      let b1 : audio_buffer α :=
        { A.mem p with framesProcessed := position_in_frames, frameCursorPos := 0,
                       isSubBufferProcessed := (true, true) }
      { A with mem := Function.update A.mem p b1 }
  | _, _ => A

/-- The playback position in seconds (`get_music_time_played`); `sampleRate`
is `AUDIO.System.sampleRate`. -/
def get_music_time_played (A : AudioData α) (sampleRate : ℚ) (m : music) : ℚ :=
  match m.stream.buffer with
  | none => 0
  | some p => ((A.mem p).framesProcessed : ℚ) / sampleRate

/-- A stereo stream handle on the buffer at address 5. -/
def exampleStream : audio_stream :=
  { buffer := some 5, sampleRate := 44100, sampleSize := 32, channels := 2 }

/-- A streaming buffer of four frames, playing, whose sub-buffer 0 is stale
and whose sub-buffer 1 is fresh; every sample is 9. -/
def exampleRing : audio_buffer ℚ :=
  { (zeroed_buffer : audio_buffer ℚ) with
    volume := 1, pitch := 1, pan := 1 / 2, playing := true, isStreaming := true,
    isSubBufferProcessed := (true, false), sizeInFrames := 4,
    data := some [9, 9, 9, 9, 9, 9, 9, 9] }

/-- A session whose registry holds `exampleRing` alone, at address 5. -/
def ringSession : AudioData ℚ :=
  { masterVolume := 1, first := some 5, last := some 5, mem := fun _ => exampleRing }

/-- A music of the given channel count on the buffer at address 5, at the
device rate (no resampler). -/
def exampleMusic (channels : Nat) : music :=
  { stream := { buffer := some 5, sampleRate := 44100, sampleSize := 32, channels := channels },
    frameCount := 44100,
    ctxData := some { snd_file := true, resampler := false, src_ratio := 1 } }

/-- A mono music on the buffer at address 5 whose file is at half the device
rate (resampler present, `src_ratio = 2`). -/
def exampleMonoResampled : music :=
  { stream := { buffer := some 5, sampleRate := 44100, sampleSize := 32, channels := 1 },
    frameCount := 44100,
    ctxData := some { snd_file := true, resampler := true, src_ratio := 2 } }

/-- A decoder that delivers every frame asked for; sample `j` of the block it
returns is `j + 1`. -/
def fullDecoder : Nat → Nat → Nat × (Nat → ℚ) :=
  fun _ n => (n, fun j => ((j + 1 : Nat) : ℚ))

/-- A decoder at the end of its file: it delivers one frame, whatever is
asked for; sample `j` of the block it returns is `j + 1`. -/
def shortDecoder : Nat → Nat → Nat × (Nat → ℚ) :=
  fun _ _ => (1, fun j => ((j + 1 : Nat) : ℚ))

/-- A mono resampler that fills the `out_len` frames it is given room for;
output sample `j` is input sample `j`. -/
def monoResampler : Nat → (Nat → ℚ) → Nat → Nat → Nat × List ℚ :=
  fun _ input _ out_len => (out_len, (List.range out_len).map input)

/-- The resampler of a music that has none: never called. -/
def noResampler : Nat → (Nat → ℚ) → Nat → Nat → Nat × List ℚ :=
  fun _ _ _ _ => (0, [])

/-- The `SF_INFO` of a stereo file of 10 seconds at 48000 Hz. -/
def exampleFile : SF_INFO :=
  { frames := 480000, samplerate := 48000, channels := 2 }

/-- The music `load_music_stream` returns for `exampleFile` on a device at
44100 Hz, with its ring at address 5. -/
def exampleLoaded : music :=
  { stream := { buffer := some 5, sampleRate := 44100, sampleSize := 32, channels := 2 },
    frameCount := 441000,
    ctxData := some { snd_file := true, resampler := true, src_ratio := 147 / 160 } }

/-- The assignment `b->pitch = v`. -/
def audio_buffer.setPitch (b : audio_buffer α) (v : α) : audio_buffer α :=
  { b with pitch := v }

/-- The session `A` with the pitch field of every buffer `x` replaced by
`q x`, nothing else changed. -/
def withPitches (A : AudioData α) (q : Nat → α) : AudioData α :=
  { A with mem := fun x => (A.mem x).setPitch (q x) }

/-- Stores the pitch unless it is negative (`set_audio_buffer_pitch`). -/
def set_audio_buffer_pitch {β : Type} [LinearOrderedField β] (A : AudioData β)
    (buffer : Option Nat) (pitch : β) : AudioData β :=
  match buffer with
  | none => A
  | some b => if pitch < 0 then A else onBuffer A (some b) fun x => x.setPitch pitch

/-! ## Buffers whose data matches their size -/

/-- The buffer has at least two frames and, when `data` is not `NULL`, at
least `sizeInFrames * AUDIO_DEVICE_CHANNELS` samples. -/
def DataFits (b : audio_buffer α) : Prop :=
  2 ≤ b.sizeInFrames ∧
    match b.data with
    | none => True
    | some d => b.sizeInFrames * AUDIO_DEVICE_CHANNELS ≤ d.length

instance DataFits.decidable (b : audio_buffer α) : Decidable (DataFits b) := by
  unfold DataFits
  cases b.data <;> infer_instance

/-- Frames from the cursor of `b` to the end of the sub-buffer `i`: to the end
of the current sub-buffer when `i` is the current one, and one sub-buffer more
when it is the other one. -/
def framesToEnd (b : audio_buffer α) (i : Nat) : Nat :=
  if (i = 0 ↔ subIndex b = 0) then
    b.sizeInFrames / 2 - b.frameCursorPos % (b.sizeInFrames / 2)
  else 2 * (b.sizeInFrames / 2) - b.frameCursorPos % (b.sizeInFrames / 2)

/-- The session `ringSession` after a successful `seek_music_stream` to frame
`4294967295`. -/
def lateSession : AudioData ℚ :=
  { masterVolume := 1, first := some 5, last := some 5,
    mem := Function.update ringSession.mem 5
      { exampleRing with framesProcessed := 4294967295, frameCursorPos := 0,
                         isSubBufferProcessed := (true, true) } }

/-- A streaming buffer of 14 frames (sub-buffers of 7), both sub-buffers
fresh, playing, whose cursor has counted `4294967292` frames. -/
def exampleWrapRing : audio_buffer ℚ :=
  { (zeroed_buffer : audio_buffer ℚ) with
    volume := 1, pitch := 1, pan := 1 / 2, playing := true, isStreaming := true,
    isSubBufferProcessed := (false, false), sizeInFrames := 14,
    frameCursorPos := 4294967292, framesProcessed := 4294967292,
    data := some (List.replicate 28 1) }

/-- A session whose registry holds `exampleWrapRing` alone, at address 5. -/
def wrapSession : AudioData ℚ :=
  { masterVolume := 1, first := some 5, last := some 5, mem := fun _ => exampleWrapRing }

/-- A streaming buffer of 4 frames with both sub-buffers fresh, playing from
frame 1 of sub-buffer 0. -/
def exampleFresh : audio_buffer ℚ :=
  { (zeroed_buffer : audio_buffer ℚ) with
    volume := 1, pitch := 1, pan := 1 / 2, playing := true, isStreaming := true,
    isSubBufferProcessed := (false, false), sizeInFrames := 4, frameCursorPos := 1,
    framesProcessed := 1, data := some [1, 1, 2, 2, 3, 3, 4, 4] }

/-- A session whose registry holds `exampleFresh` alone, at address 5. -/
def freshSession : AudioData ℚ :=
  { masterVolume := 1, first := some 5, last := some 5, mem := fun _ => exampleFresh }

/-! ## Sounds -/

/-- The C `wave`: decoded PCM in memory (`data` is `none` for `NULL`). -/
structure wave (α : Type) where
  frameCount : Nat
  sampleRate : Nat
  sampleSize : Nat
  channels : Nat
  data : Option (List α)

/-- The C `sound`. -/
structure sound where
  stream : audio_stream
  frameCount : Nat
  deriving DecidableEq

/-- The zero-initialised `sound` returned when loading fails. -/
def zero_sound : sound :=
  { stream := { buffer := none, sampleRate := 0, sampleSize := 0, channels := 0 },
    frameCount := 0 }

/-- The validity test of a sound (`is_sound_valid`). -/
def is_sound_valid (s : sound) : Bool :=
  s.stream.buffer.isSome && decide (s.frameCount > 0) && decide (s.stream.sampleRate > 0) &&
    decide (s.stream.sampleSize > 0) && decide (s.stream.channels > 0)

/-- The copy of the wave into the new buffer (audio.c lines 750-765): mono is
duplicated into both channels, stereo is copied whole, any other channel count
is copied up to the shorter of the two sample counts, both counts being formed
in `unsigned int`.  Reading past the end of the wave's samples is a fault. -/
def copyWave (w : wave α) (wave_data buffer_data : List α) : Except Fault (List α) :=
  let samples_to_copy := (w.frameCount * w.channels) % UINT_RANGE
  let buffer_samples := (w.frameCount * AUDIO_DEVICE_CHANNELS) % UINT_RANGE
  if w.channels = 1 then
    if wave_data.length < w.frameCount then Except.error Fault.outOfBounds
    else monoCopy (fun j => wave_data.getD j 0) 0 w.frameCount buffer_data
  else if w.channels = 2 then
    if wave_data.length < samples_to_copy then Except.error Fault.outOfBounds
    else writeAt buffer_data 0 (fun j => wave_data.getD j 0) samples_to_copy
  else
    let min_samples := if samples_to_copy < buffer_samples then samples_to_copy else buffer_samples
    if wave_data.length < min_samples then Except.error Fault.outOfBounds
    else writeAt buffer_data 0 (fun j => wave_data.getD j 0) min_samples

/-- Creates a static buffer holding a wave (`load_sound_from_wave`).
`sampleRate` is `AUDIO.System.sampleRate`.  `speex_resample w out_frames` is
the outcome of the resampling step for a wave at another rate: `none` when the
creation of the resampler, the allocation of the output or the processing
fails, and otherwise the value left in `out_len` and the samples produced. -/
def load_sound_from_wave (A : AudioData α) (sampleRate : ℚ)
    (speex_resample : wave α → Nat → Option (Nat × List α))
    (bufferAlloc : Option Nat) (dataAlloc : Bool) (w : wave α) :
    Except Fault (AudioData α × sound) :=
  match w.data with
  | none => Except.ok (A, zero_sound)
  | some _ =>
    let wave_to_load : Option (wave α) :=
      if (w.sampleRate : ℚ) ≠ sampleRate then
        let out_frames := (toUInt (w.frameCount * sampleRate / w.sampleRate) + 10) % UINT_RANGE
        match speex_resample w out_frames with
        | none => none
        | some (out_len, samples) =>
          some { frameCount := out_len, sampleRate := toUInt sampleRate,
                 sampleSize := w.sampleSize, channels := w.channels, data := some samples }
      else some w
    match wave_to_load with
    | none => Except.ok (A, zero_sound)
    | some wl =>
      match load_audio_buffer A bufferAlloc dataAlloc AUDIO_DEVICE_CHANNELS wl.frameCount 0 with
      | Except.error e => Except.error e
      | Except.ok (A1, buffer) =>
        let snd : sound :=
          { stream := { buffer := buffer, sampleRate := wl.sampleRate,
                        sampleSize := wl.sampleSize, channels := wl.channels },
            frameCount := wl.frameCount }
        match buffer with
        | none => Except.ok (A1, snd)
        | some p =>
          match (A1.mem p).data, wl.data with
          | some buffer_data, some wave_data =>
            match copyWave wl wave_data buffer_data with
            | Except.error e => Except.error e
            | Except.ok d1 =>
              let b1 : audio_buffer α := { A1.mem p with data := some d1 }
              Except.ok ({ A1 with mem := Function.update A1.mem p b1 }, snd)
          | _, _ => Except.ok (A1, snd)

/-- The resampling step of a session in which no wave needs one. -/
def noResample : wave ℚ → Nat → Option (Nat × List ℚ) :=
  fun _ _ => none

/-- A stereo wave of five frames `(1,1) .. (5,5)` at 44100 Hz. -/
def exampleWave5 : wave ℚ :=
  { frameCount := 5, sampleRate := 44100, sampleSize := 32, channels := 2,
    data := some [1, 1, 2, 2, 3, 3, 4, 4, 5, 5] }

/-- A stereo wave of one frame `(1,1)` at 44100 Hz. -/
def exampleWave1 : wave ℚ :=
  { frameCount := 1, sampleRate := 44100, sampleSize := 32, channels := 2,
    data := some [1, 1] }

/-- A streaming ring of `2 ^ 30` frames (sub-buffers of `2 ^ 29` frames, `2 ^
31` samples in all), sub-buffer 0 stale; every sample is 9. -/
def hugeRing : audio_buffer ℚ :=
  { (zeroed_buffer : audio_buffer ℚ) with
    volume := 1, pitch := 1, pan := 1 / 2, playing := true, isStreaming := true,
    isSubBufferProcessed := (true, false), sizeInFrames := 1073741824,
    data := some (List.replicate 2147483648 9) }

/-- A decoder at the very end of its file: it delivers no frame. -/
def endDecoder : Nat → Nat → Nat × (Nat → ℚ) :=
  fun _ _ => (0, fun _ => 0)

/-! ## The frame loop for an `unsigned long` of a given width -/

/-- The frame index of `buffer_pos` (audio.c line 237): the sum
`frameCursorPos + i` is formed in `unsigned long`, of `bits` bits (64 on LP64
targets, 32 on Windows), and then reduced modulo `sizeInFrames`. -/
def buffer_frame (bits : Nat) (b : audio_buffer α) (i : Nat) : Nat :=
  ((b.frameCursorPos + i) % 2 ^ bits) % b.sizeInFrames

/-- One iteration `i` of the frame loop (audio.c lines 236-245) with an
`unsigned long` of `bits` bits: `mixFrame` with the frame read at
`buffer_frame bits b i`. -/
def mixFrameW (bits : Nat) (sqrtf : α → α) (b : audio_buffer α) (buffer_data : List α)
    (framesPerBuffer framesToMix i : Nat) (out : Nat → α) : Except Fault (Nat → α) :=
  let left_gain := sqrtf (1 - b.pan)
  let right_gain := sqrtf b.pan
  let buffer_pos := buffer_frame bits b i * AUDIO_DEVICE_CHANNELS
  let output_pos := (framesPerBuffer - framesToMix + i) * AUDIO_DEVICE_CHANNELS
  match buffer_data[buffer_pos]?, buffer_data[buffer_pos + 1]? with
  | some s0, some s1 =>
    let out1 := Function.update out output_pos (out output_pos + s0 * b.volume * left_gain)
    Except.ok (Function.update out1 (output_pos + 1)
      (out1 (output_pos + 1) + s1 * b.volume * right_gain))
  | _, _ => Except.error Fault.outOfBounds

/-- The frame loop `for (i = 0; i < framesThisPass; i++)` with an `unsigned
long` of `bits` bits. -/
def mixFramesW (bits : Nat) (sqrtf : α → α) (b : audio_buffer α) (buffer_data : List α)
    (framesPerBuffer framesToMix : Nat) : Nat → (Nat → α) → Except Fault (Nat → α)
  | 0, out => Except.ok out
  | k + 1, out =>
    match mixFramesW bits sqrtf b buffer_data framesPerBuffer framesToMix k out with
    | Except.ok out1 => mixFrameW bits sqrtf b buffer_data framesPerBuffer framesToMix k out1
    | Except.error e => Except.error e

/-- The segment loop `while (framesToMix > 0)` (audio.c lines 223-261) with an
`unsigned long` of `bits` bits: the loop of `mixLoop`, segment by segment
(`subIndex`, `passLength` and `afterPass` are the index, the length and the
buffer update of a segment), with the frame loop `mixFramesW`. -/
def mixLoopW (bits : Nat) (sqrtf : α → α) (framesPerBuffer : Nat) (buffer_data : List α) :
    Nat → audio_buffer α → Nat → (Nat → α) → Except Fault (audio_buffer α × (Nat → α))
  | _, b, 0, out => Except.ok (b, out)
  | 0, _, _ + 1, _ => Except.error Fault.outOfFuel
  | fuel + 1, b, framesToMix + 1, out =>
    if b.sizeInFrames / 2 = 0 then Except.error Fault.divByZero
    else
      let framesThisPass := passLength b (framesToMix + 1)
      let mixed :=
        if b.flag (subIndex b) then Except.ok out
        else mixFramesW bits sqrtf b buffer_data framesPerBuffer (framesToMix + 1)
          framesThisPass out
      match mixed with
      | Except.error e => Except.error e
      | Except.ok out1 =>
        let b2 := afterPass b framesThisPass
        if !b2.isStreaming && decide (b2.frameCursorPos ≥ b2.sizeInFrames) then
          Except.ok ({ b2 with playing := false }, out1)
        else mixLoopW bits sqrtf framesPerBuffer buffer_data fuel b2
          (framesToMix + 1 - framesThisPass) out1

/-- A streaming ring of 6 frames (sub-buffers of 3), playing, sub-buffer 0
stale and sub-buffer 1 fresh, whose cursor is `4294967295` (in sub-buffer 1,
offset 0). -/
def exampleEdgeRing : audio_buffer ℚ :=
  { (zeroed_buffer : audio_buffer ℚ) with
    volume := 1, pitch := 1, pan := 1 / 2, playing := true, isStreaming := true,
    isSubBufferProcessed := (true, false), sizeInFrames := 6,
    frameCursorPos := 4294967295, framesProcessed := 4294967295,
    data := some [1, 1, 2, 2, 3, 3, 4, 4, 5, 5, 6, 6] }

end Defs

/-! ## Registry lemmas -/

section Registry
variable {α : Type}

theorem Seg_congr {link link' : Nat → Option Nat} :
    ∀ (l : List Nat) (cur e : Option Nat), (∀ p ∈ l, link p = link' p) →
      (Seg link cur l e ↔ Seg link' cur l e)
  | [], cur, e, _ => Iff.rfl
  | p :: l, cur, e, h => by
    have hp : link p = link' p := h p (List.mem_cons_self p l)
    have ih := Seg_congr l (link' p) e (fun q hq => h q (List.mem_cons_of_mem p hq))
    simp only [Seg, hp, ih]

theorem Seg_append {link : Nat → Option Nat} (l1 l2 : List Nat) (e : Option Nat) :
    ∀ cur : Option Nat,
      Seg link cur (l1 ++ l2) e ↔ ∃ m, Seg link cur l1 m ∧ Seg link m l2 e := by
  induction l1 with
  | nil => intro cur; simp [Seg]
  | cons p l1 ih =>
    intro cur
    show (cur = some p ∧ Seg link (link p) (l1 ++ l2) e) ↔
      ∃ m, (cur = some p ∧ Seg link (link p) l1 m) ∧ Seg link m l2 e
    rw [ih]
    constructor
    · rintro ⟨h1, m, h2, h3⟩
      exact ⟨m, ⟨h1, h2⟩, h3⟩
    · rintro ⟨m, ⟨h1, h2⟩, h3⟩
      exact ⟨h1, m, h2, h3⟩

theorem Seg_head {link : Nat → Option Nat} {cur : Option Nat} {l : List Nat}
    (h : Seg link cur l none) : cur = l.head? := by
  cases l with
  | nil => simpa [Seg] using h
  | cons p l => simpa [Seg] using h.1

theorem Seg_remove {link link' : Nat → Option Nat} {first first' e : Option Nat}
    {l1 l2 : List Nat} {b : Nat}
    (hnd : (l1 ++ b :: l2).Nodup)
    (hseg : Seg link first (l1 ++ b :: l2) e)
    (hlink : ∀ x, x ≠ b → link' x = if l1.getLast? = some x then link b else link x)
    (hfirst : first' = if l1.getLast? = none then link b else first) :
    Seg link' first' (l1 ++ l2) e := by
  rcases List.eq_nil_or_concat l1 with rfl | ⟨L, q, rfl⟩
  · simp only [List.nil_append, Seg, List.getLast?_nil, if_true] at hseg hfirst hlink hnd ⊢
    subst hfirst
    refine (Seg_congr l2 _ _ ?_).mp hseg.2
    intro x hx
    have hxb : x ≠ b := by
      rintro rfl
      exact (List.nodup_cons.mp hnd).1 hx
    rw [hlink x hxb]
    simp
  · simp only [List.concat_eq_append] at hnd hseg hlink hfirst ⊢
    have hlast : (L ++ [q]).getLast? = some q := by simp
    rw [hlast] at hlink hfirst
    simp only [if_false, reduceCtorEq] at hfirst
    subst hfirst
    rw [List.append_assoc] at hseg hnd
    rw [Seg_append] at hseg
    obtain ⟨m, hL, hq, hb, hl2⟩ := hseg
    have hnd' := hnd
    simp only [List.nodup_append, List.nodup_cons, List.mem_cons, List.singleton_append,
      List.cons_append, List.nil_append] at hnd'
    obtain ⟨-, ⟨hqn, hbl2, -⟩, hdisj⟩ := hnd'
    have hqb : q ≠ b := fun h => hqn (Or.inl h)
    have hql2 : q ∉ l2 := fun h => hqn (Or.inr h)
    subst hq
    rw [List.append_assoc, Seg_append]
    refine ⟨some q, (Seg_congr L _ _ ?_).mp hL, ?_⟩
    · intro x hx
      have hx' : x ∉ q :: b :: l2 := fun h => hdisj hx h
      simp only [List.mem_cons, not_or] at hx'
      rw [hlink x hx'.2.1]
      have : ¬ (some q = some x) := fun h => hx'.1 (Option.some.inj h).symm
      simp [this]
    · show some q = some q ∧ Seg link' (link' q) l2 e
      refine ⟨rfl, ?_⟩
      rw [hlink q hqb, if_pos rfl]
      refine (Seg_congr l2 _ _ ?_).mp hl2
      intro x hx
      have hxb : x ≠ b := by rintro rfl; exact hbl2 hx
      have hxq : ¬ (some q = some x) := by
        intro h
        exact hql2 ((Option.some.inj h) ▸ hx)
      rw [hlink x hxb]
      simp [hxq]

@[simp] theorem setNext_next (b : audio_buffer α) (v : Option Nat) : (b.setNext v).next = v := rfl
@[simp] theorem setNext_prev (b : audio_buffer α) (v : Option Nat) : (b.setNext v).prev = b.prev := rfl
@[simp] theorem setPrev_prev (b : audio_buffer α) (v : Option Nat) : (b.setPrev v).prev = v := rfl
@[simp] theorem setPrev_next (b : audio_buffer α) (v : Option Nat) : (b.setPrev v).next = b.next := rfl

theorem untrack_first (A : AudioData α) (b : Nat) :
    (untrack_audio_buffer A (some b)).first =
      if (A.mem b).prev = none then (A.mem b).next else A.first := by
  unfold untrack_audio_buffer
  cases hp : (A.mem b).prev <;> simp only [hp] <;> split <;> simp

theorem untrack_mem (A : AudioData α) (b x : Nat) (hx : x ≠ b)
    (hbp : (A.mem b).prev ≠ some b) (hbn : (A.mem b).next ≠ some b) :
    (untrack_audio_buffer A (some b)).mem x =
      ((if (A.mem b).prev = some x then (A.mem x).setNext (A.mem b).next
        else A.mem x).setPrev
        (if (A.mem b).next = some x then (A.mem b).prev else (A.mem x).prev)) := by
  unfold untrack_audio_buffer
  rcases hp : (A.mem b).prev with _ | q <;> rcases hn : (A.mem b).next with _ | n
  · simp only [hp, hn, Function.update_noteq hx]
    simp [audio_buffer.setPrev]
  · have hbn' : b ≠ n := fun h => hbn (by rw [hn, h])
    simp only [hp, hn, Function.update_noteq hx]
    by_cases hxn : x = n
    · subst hxn; simp
    · have : ¬ (n = x) := fun h => hxn h.symm
      simp [Function.update_noteq hxn, this, audio_buffer.setPrev]
  · have hbq : b ≠ q := fun h => hbp (by rw [hp, h])
    simp only [hp, hn, Function.update_noteq hx, Function.update_noteq hbq]
    by_cases hxq : x = q
    · subst hxq; simp [audio_buffer.setPrev, audio_buffer.setNext]
    · have : ¬ (q = x) := fun h => hxq h.symm
      simp [Function.update_noteq hxq, this, audio_buffer.setPrev]
  · have hbq : b ≠ q := fun h => hbp (by rw [hp, h])
    have hbn' : b ≠ n := fun h => hbn (by rw [hn, h])
    simp only [hp, hn, Function.update_noteq hx, Function.update_noteq hbq]
    by_cases hxq : x = q <;> by_cases hxn : x = n
    · subst hxq; subst hxn; simp
    · subst hxq
      have : ¬ (n = x) := fun h => hxn h.symm
      simp [Function.update_noteq hxn, this, audio_buffer.setPrev, audio_buffer.setNext]
    · subst hxn
      have : ¬ (q = x) := fun h => hxq h.symm
      simp [Function.update_noteq hxq, this]
    · have h1 : ¬ (q = x) := fun h => hxq h.symm
      have h2 : ¬ (n = x) := fun h => hxn h.symm
      simp [Function.update_noteq hxq, Function.update_noteq hxn, h1, h2, audio_buffer.setPrev]

theorem untrack_last (A : AudioData α) (b : Nat) (hb : (A.mem b).prev ≠ some b) :
    (untrack_audio_buffer A (some b)).last =
      if (A.mem b).next = none then (A.mem b).prev else A.last := by
  unfold untrack_audio_buffer
  rcases hp : (A.mem b).prev with _ | q <;> rcases hn : (A.mem b).next with _ | n
  · simp [hp, hn]
  · simp [hp, hn]
  · have hbq : b ≠ q := fun h => hb (by rw [hp, h])
    simp [hp, hn, Function.update_noteq hbq]
  · have hbq : b ≠ q := fun h => hb (by rw [hp, h])
    simp [hp, hn, Function.update_noteq hbq]

theorem untrack_self (A : AudioData α) (b : Nat) :
    ((untrack_audio_buffer A (some b)).mem b).prev = none ∧
      ((untrack_audio_buffer A (some b)).mem b).next = none := by
  unfold untrack_audio_buffer
  simp

theorem wellFormed_links (A : AudioData α) (l1 l2 : List Nat) (b : Nat)
    (h : WellFormed A (l1 ++ b :: l2)) :
    (A.mem b).prev = l1.getLast? ∧ (A.mem b).next = l2.head? ∧ b ∉ l1 ∧ b ∉ l2 := by
  obtain ⟨hnd, hnx, hpv⟩ := h
  have hrev : (l1 ++ b :: l2).reverse = l2.reverse ++ b :: l1.reverse := by simp
  rw [hrev, Seg_append] at hpv
  rw [Seg_append] at hnx
  obtain ⟨m, -, -, hn⟩ := hnx
  obtain ⟨m', -, -, hp⟩ := hpv
  have hb := List.nodup_middle.mp hnd
  have hb' : b ∉ l1 ++ l2 := (List.nodup_cons.mp hb).1
  refine ⟨?_, Seg_head hn, fun h => hb' (List.mem_append_left _ h),
    fun h => hb' (List.mem_append_right _ h)⟩
  have := Seg_head hp
  simpa using this

theorem untrack_wellFormed (A : AudioData α) (l1 l2 : List Nat) (b : Nat)
    (h : WellFormed A (l1 ++ b :: l2)) :
    WellFormed (untrack_audio_buffer A (some b)) (l1 ++ l2) := by
  obtain ⟨hp, hn, hb1, hb2⟩ := wellFormed_links A l1 l2 b h
  obtain ⟨hnd, hnx, hpv⟩ := h
  have hbp : (A.mem b).prev ≠ some b := by
    rw [hp]; intro hh; exact hb1 (List.mem_of_getLast?_eq_some hh)
  have hbn : (A.mem b).next ≠ some b := by
    rw [hn]; intro hh; exact hb2 (List.mem_of_mem_head? hh)
  have hrev : (l1 ++ b :: l2).reverse = l2.reverse ++ b :: l1.reverse := by simp
  refine ⟨?_, ?_, ?_⟩
  · exact (List.nodup_cons.mp (List.nodup_middle.mp hnd)).2
  · refine Seg_remove hnd hnx ?_ ?_
    · intro x hx
      rw [untrack_mem A b x hx hbp hbn, ← hp]
      by_cases hpx : (A.mem b).prev = some x <;> simp [hpx]
    · rw [untrack_first, hp]
  · rw [List.reverse_append]
    rw [hrev] at hpv
    have hnd' : (l2.reverse ++ b :: l1.reverse).Nodup := by
      rw [← hrev]; exact List.nodup_reverse.mpr hnd
    refine Seg_remove hnd' hpv ?_ ?_
    · intro x hx
      rw [untrack_mem A b x hx hbp hbn, List.getLast?_reverse, ← hn]
      simp
    · rw [untrack_last A b hbp, List.getLast?_reverse, hn]

theorem setLinks_eq (b : audio_buffer α) {p n : Option Nat} (hp : b.prev = p) (hn : b.next = n) :
    (b.setPrev p).setNext n = b := by
  cases b
  simp only [audio_buffer.setPrev, audio_buffer.setNext] at *
  simp [hp, hn]

theorem untrack_mem_self (A : AudioData α) (b : Nat)
    (hbp : (A.mem b).prev ≠ some b) (hbn : (A.mem b).next ≠ some b) :
    (untrack_audio_buffer A (some b)).mem b = ((A.mem b).setPrev none).setNext none := by
  unfold untrack_audio_buffer
  rcases hp : (A.mem b).prev with _ | q <;> rcases hn : (A.mem b).next with _ | n
  · simp [hp, hn]
  · have hbn' : b ≠ n := fun h => hbn (by rw [hn, h])
    simp [hp, hn, Function.update_noteq hbn']
  · have hbq : b ≠ q := fun h => hbp (by rw [hp, h])
    simp [hp, hn, Function.update_noteq hbq]
  · have hbq : b ≠ q := fun h => hbp (by rw [hp, h])
    have hbn' : b ≠ n := fun h => hbn (by rw [hn, h])
    simp [hp, hn, Function.update_noteq hbq, Function.update_noteq hbn']

theorem wellFormed_nil (A : AudioData α) (h : WellFormed A []) :
    A.first = none ∧ A.last = none := by
  obtain ⟨-, h1, h2⟩ := h
  exact ⟨h1, h2⟩

theorem wellFormed_concat (A : AudioData α) (L : List Nat) (q : Nat)
    (h : WellFormed A (L ++ [q])) :
    (∃ f, A.first = some f) ∧ A.last = some q ∧ (A.mem q).next = none := by
  obtain ⟨-, h1, h2⟩ := h
  rw [List.reverse_append] at h2
  refine ⟨?_, h2.1, ?_⟩
  · have := Seg_head h1
    cases L with
    | nil => exact ⟨q, by simpa using this⟩
    | cons a L => exact ⟨a, by simpa using this⟩
  · rw [Seg_append] at h1
    obtain ⟨m, -, -, h3⟩ := h1
    exact h3

theorem track_nil (A : AudioData α) (b : Nat) (h : WellFormed A []) :
    track_audio_buffer A (some b) = Except.ok { A with first := some b, last := some b } := by
  unfold track_audio_buffer
  simp [(wellFormed_nil A h).1]

theorem track_concat (A : AudioData α) (L : List Nat) (q b : Nat)
    (h : WellFormed A (L ++ [q])) (hbq : b ≠ q) :
    track_audio_buffer A (some b) = Except.ok
      { A with
        mem := Function.update (Function.update A.mem q ((A.mem q).setNext (some b))) b
          ((A.mem b).setPrev (some q)),
        last := some b } := by
  obtain ⟨⟨f, hf⟩, hl, -⟩ := wellFormed_concat A L q h
  unfold track_audio_buffer
  simp [hf, hl, Function.update_noteq hbq]

theorem track_wellFormed (A : AudioData α) (l : List Nat) (b : Nat)
    (h : WellFormed A l) (hb : b ∉ l)
    (hp : (A.mem b).prev = none) (hn : (A.mem b).next = none) :
    ∃ A1, track_audio_buffer A (some b) = Except.ok A1 ∧ WellFormed A1 (l ++ [b]) := by
  rcases List.eq_nil_or_concat l with rfl | ⟨L, q, rfl⟩
  · refine ⟨_, track_nil A b h, ?_⟩
    simp [WellFormed, Seg, hp, hn]
  · simp only [List.concat_eq_append] at h hb ⊢
    have hbq : b ≠ q := fun e => hb (by simp [e])
    have hbL : b ∉ L := fun e => hb (by simp [e])
    refine ⟨_, track_concat A L q b h hbq, ?_⟩
    obtain ⟨hnd, hnx, hpv⟩ := h
    have hqL : q ∉ L := by
      intro e
      have := List.nodup_append.mp hnd
      exact this.2.2 e (List.mem_singleton_self q)
    refine ⟨?_, ?_, ?_⟩
    · rw [List.nodup_append]
      refine ⟨hnd, List.nodup_singleton b, ?_⟩
      intro x hx hx'
      rw [List.mem_singleton] at hx'
      subst hx'
      exact hb hx
    · rw [Seg_append] at hnx
      obtain ⟨m, hL, hm, hq⟩ := hnx
      subst hm
      rw [List.append_assoc, Seg_append]
      refine ⟨some q, (Seg_congr L _ _ ?_).mp hL, rfl, ?_, ?_⟩
      · intro x hx
        have hxq : x ≠ q := fun e => hqL (e ▸ hx)
        have hxb : x ≠ b := fun e => hbL (e ▸ hx)
        simp [Function.update_noteq hxq, Function.update_noteq hxb]
      · simp [Function.update_noteq hbq.symm]
      · simp [hn, Seg]
    · have hrev : (L ++ [q] ++ [b]).reverse = b :: q :: L.reverse := by simp
      rw [List.reverse_append] at hpv
      rw [hrev]
      refine ⟨rfl, ?_, ?_⟩
      · simp
      · have hpv2 : Seg (fun p => (A.mem p).prev) (A.mem q).prev L.reverse none := hpv.2
        have hq' : (Function.update (Function.update A.mem q ((A.mem q).setNext (some b))) b
            ((A.mem b).setPrev (some q)) q).prev = (A.mem q).prev := by
          simp [Function.update_noteq hbq.symm]
        show Seg _ (Function.update (Function.update A.mem q ((A.mem q).setNext (some b))) b
            ((A.mem b).setPrev (some q)) q).prev L.reverse none
        rw [hq']
        refine (Seg_congr L.reverse _ _ ?_).mp hpv2
        intro x hx
        rw [List.mem_reverse] at hx
        have hxq : x ≠ q := fun e => hqL (e ▸ hx)
        have hxb : x ≠ b := fun e => hbL (e ▸ hx)
        simp [Function.update_noteq hxq, Function.update_noteq hxb]

end Registry

section RegistryClaims
variable {α : Type}

/-- C5: on a well-formed registry, tracking a fresh buffer (null links, not in
the registry) succeeds and untracking it at once gives back the very same
state: same `first`, same `last`, same memory (hence every link of every
buffer), so the registry is again well formed with the same sequence. -/
theorem track_untrack_roundtrip (A : AudioData α) (l : List Nat) (b : Nat)
    (h : WellFormed A l) (hb : b ∉ l)
    (hp : (A.mem b).prev = none) (hn : (A.mem b).next = none) :
    ∃ A1, track_audio_buffer A (some b) = Except.ok A1 ∧
      untrack_audio_buffer A1 (some b) = A ∧
      WellFormed (untrack_audio_buffer A1 (some b)) l := by
  have key : ∃ A1, track_audio_buffer A (some b) = Except.ok A1 ∧
      untrack_audio_buffer A1 (some b) = A := by
    rcases List.eq_nil_or_concat l with rfl | ⟨L, q, rfl⟩
    · refine ⟨_, track_nil A b h, ?_⟩
      obtain ⟨hf, hl⟩ := wellFormed_nil A h
      have hself : ((A.mem b).setPrev none).setNext none = A.mem b := setLinks_eq _ hp hn
      unfold untrack_audio_buffer
      cases A with
      | mk mv f la mem =>
        simp only at hp hn hf hl hself
        simp [hp, hn, hf, hl, hself]
    · simp only [List.concat_eq_append] at h hb ⊢
      have hbq : b ≠ q := fun e => hb (by simp [e])
      refine ⟨_, track_concat A L q b h hbq, ?_⟩
      obtain ⟨-, hl, hqn⟩ := wellFormed_concat A L q h
      unfold untrack_audio_buffer
      cases A with
      | mk mv f la mem =>
        simp only at hp hn hl hqn
        simp only [Function.update_same, setPrev_prev, setPrev_next, hn,
          Function.update_noteq hbq, Function.update_noteq hbq.symm, hl]
        congr 1
        funext x
        by_cases hxb : x = b
        · subst hxb
          simp only [Function.update_same]
          exact setLinks_eq _ hp hn
        · by_cases hxq : x = q
          · subst hxq
            simp only [Function.update_noteq hxb, Function.update_same]
            cases hm : mem x
            simp only [audio_buffer.setNext]
            rw [hm] at hqn
            simp only at hqn
            simp [hqn]
          · simp [Function.update_noteq hxb, Function.update_noteq hxq]
  obtain ⟨A1, h1, h2⟩ := key
  exact ⟨A1, h1, h2, h2 ▸ h⟩

/-- C5 at the registry `1 <-> 2 <-> 3` and the unlinked buffer at address 9. -/
theorem track_untrack_roundtrip_witness :
    ∃ A1, track_audio_buffer exampleRegistry (some 9) = Except.ok A1 ∧
      untrack_audio_buffer A1 (some 9) = exampleRegistry ∧
      WellFormed (untrack_audio_buffer A1 (some 9)) [1, 2, 3] :=
  track_untrack_roundtrip exampleRegistry [1, 2, 3] 9 (by decide) (by decide) (by decide)
    (by decide)

/-- C6: untracking a buffer linked in a well-formed registry (at the head, in
the middle or at the tail) leaves a well-formed registry whose sequence is the
old one with that buffer erased, the order of the others kept, and the buffer
itself ends with `prev` and `next` both `NULL`. -/
theorem untrack_removes (A : AudioData α) (l : List Nat) (b : Nat)
    (h : WellFormed A l) (hb : b ∈ l) :
    WellFormed (untrack_audio_buffer A (some b)) (l.erase b) ∧
      ((untrack_audio_buffer A (some b)).mem b).prev = none ∧
      ((untrack_audio_buffer A (some b)).mem b).next = none := by
  obtain ⟨l1, l2, rfl⟩ := List.append_of_mem hb
  have hb1 : b ∉ l1 := (wellFormed_links A l1 l2 b h).2.2.1
  have he : (l1 ++ b :: l2).erase b = l1 ++ l2 := by
    rw [List.erase_append_right _ hb1, List.erase_cons_head]
  rw [he]
  exact ⟨untrack_wellFormed A l1 l2 b h, untrack_self A b⟩

/-- C6 at the registry `1 <-> 2 <-> 3`, removing the middle buffer. -/
theorem untrack_removes_witness :
    WellFormed (untrack_audio_buffer exampleRegistry (some 2)) ([1, 2, 3].erase 2) ∧
      ((untrack_audio_buffer exampleRegistry (some 2)).mem 2).prev = none ∧
      ((untrack_audio_buffer exampleRegistry (some 2)).mem 2).next = none :=
  untrack_removes exampleRegistry [1, 2, 3] 2 (by decide) (by decide)

/-- C4 (failing input): the registry `1 <-> 2 <-> 3` is well formed and the
buffer at address 9 is not linked in it (null links, not an element), yet
`untrack_audio_buffer` on it sets `first` and `last` to `NULL`, so the registry
is no longer the list `[1, 2, 3]`; likewise a second untrack of buffer 2
empties the registry the first untrack had left as `[1, 3]`. -/
theorem untrack_unlinked_empties_registry :
    WellFormed exampleRegistry [1, 2, 3] ∧
      (exampleRegistry.mem 9).prev = none ∧ (exampleRegistry.mem 9).next = none ∧
      (untrack_audio_buffer exampleRegistry (some 9)).first = none ∧
      (untrack_audio_buffer exampleRegistry (some 9)).last = none ∧
      ¬ WellFormed (untrack_audio_buffer exampleRegistry (some 9)) [1, 2, 3] ∧
      WellFormed (untrack_audio_buffer exampleRegistry (some 2)) [1, 3] ∧
      (untrack_audio_buffer (untrack_audio_buffer exampleRegistry (some 2)) (some 2)).first
        = none ∧
      (untrack_audio_buffer (untrack_audio_buffer exampleRegistry (some 2)) (some 2)).last
        = none := by
  decide

end RegistryClaims

/-! ## Playback controls and the mixer -/

section Playback
variable {α : Type}

/-- C7: whatever the prior state of the buffer, after `stop_audio_buffer` both
`isSubBufferProcessed` flags are true, `frameCursorPos` and `framesProcessed`
are 0 and `playing` is false. -/
theorem stop_audio_buffer_resets (A : AudioData α) (p : Nat) :
    ((stop_audio_buffer A (some p)).mem p).isSubBufferProcessed = (true, true) ∧
      ((stop_audio_buffer A (some p)).mem p).frameCursorPos = 0 ∧
      ((stop_audio_buffer A (some p)).mem p).framesProcessed = 0 ∧
      ((stop_audio_buffer A (some p)).mem p).playing = false := by
  simp [stop_audio_buffer, onBuffer]

/-- C8: whatever the prior state of the buffer, after `play_audio_buffer` it is
playing and not paused with `frameCursorPos` and `framesProcessed` 0; a static
buffer has both flags false, a streaming buffer keeps the flags it had. -/
theorem play_audio_buffer_state (A : AudioData α) (p : Nat) :
    ((play_audio_buffer A (some p)).mem p).playing = true ∧
      ((play_audio_buffer A (some p)).mem p).paused = false ∧
      ((play_audio_buffer A (some p)).mem p).frameCursorPos = 0 ∧
      ((play_audio_buffer A (some p)).mem p).framesProcessed = 0 ∧
      ((play_audio_buffer A (some p)).mem p).isSubBufferProcessed =
        (if (A.mem p).isStreaming then (A.mem p).isSubBufferProcessed else (false, false)) := by
  cases h : (A.mem p).isStreaming <;> simp [play_audio_buffer, onBuffer, h]

end Playback

section Mixer
variable {α : Type} [Field α]

theorem mixBuffer_paused (sqrtf : α → α) (F : Nat) (b : audio_buffer α) (out : Nat → α)
    (h : b.paused = true) : mixBuffer sqrtf F b out = Except.ok (b, out) := by
  unfold mixBuffer
  cases b.data <;> simp [h]

theorem mixAll_preserves (sqrtf : α → α) (F : Nat) (P : audio_buffer α → Prop)
    (hP : ∀ b out b1 out1, mixBuffer sqrtf F b out = Except.ok (b1, out1) → P b → P b1) :
    ∀ (fuel : Nat) (cur : Option Nat) (mem : Nat → audio_buffer α) (out : Nat → α)
      (mem1 : Nat → audio_buffer α) (out1 : Nat → α),
      mixAll sqrtf F fuel cur mem out = Except.ok (mem1, out1) →
      ∀ p, P (mem p) → P (mem1 p) := by
  intro fuel
  induction fuel with
  | zero =>
    intro cur mem out mem1 out1 h p hp
    cases cur with
    | none =>
      simp only [mixAll, Except.ok.injEq, Prod.mk.injEq] at h
      rw [← h.1]; exact hp
    | some q => simp [mixAll] at h
  | succ fuel ih =>
    intro cur mem out mem1 out1 h p hp
    cases cur with
    | none =>
      simp only [mixAll, Except.ok.injEq, Prod.mk.injEq] at h
      rw [← h.1]; exact hp
    | some q =>
      simp only [mixAll] at h
      cases hq : mixBuffer sqrtf F (mem q) out with
      | error e => simp [hq] at h
      | ok r =>
        obtain ⟨b1, o1⟩ := r
        simp only [hq] at h
        refine ih _ _ _ _ _ h p ?_
        by_cases hpq : p = q
        · subst hpq
          simp only [Function.update_same]
          exact hP _ _ _ _ hq hp
        · simp only [Function.update_noteq hpq]
          exact hp

theorem port_audio_callback_preserves (sqrtf : α → α) (F : Nat) (P : audio_buffer α → Prop)
    (hP : ∀ b out b1 out1, mixBuffer sqrtf F b out = Except.ok (b1, out1) → P b → P b1)
    (fuel : Nat) (A A1 : AudioData α) (outputBuffer out1 : Nat → α)
    (h : port_audio_callback sqrtf fuel A outputBuffer F = Except.ok (A1, out1))
    (p : Nat) (hp : P (A.mem p)) : P (A1.mem p) := by
  unfold port_audio_callback at h
  simp only at h
  split at h
  · simp at h
  · rename_i mem1 o1 hm
    simp only [Except.ok.injEq, Prod.mk.injEq] at h
    rw [← h.1]
    exact mixAll_preserves sqrtf F P hP fuel _ _ _ _ _ hm p hp

theorem mixCycles_preserves (sqrtf : α → α) (outputBuffer : Nat → α)
    (P : audio_buffer α → Prop)
    (hP : ∀ F b out b1 out1, mixBuffer sqrtf F b out = Except.ok (b1, out1) → P b → P b1) :
    ∀ (cycles : List (Nat × Nat)) (A A1 : AudioData α),
      mixCycles sqrtf outputBuffer cycles A = Except.ok A1 →
      ∀ p, P (A.mem p) → P (A1.mem p) := by
  intro cycles
  induction cycles with
  | nil =>
    intro A A1 h p hp
    simp only [mixCycles, Except.ok.injEq] at h
    rw [← h]; exact hp
  | cons c cycles ih =>
    intro A A1 h p hp
    obtain ⟨fuel, F⟩ := c
    simp only [mixCycles] at h
    cases hc : port_audio_callback sqrtf fuel A outputBuffer F with
    | error e => simp [hc] at h
    | ok r =>
      obtain ⟨A2, o2⟩ := r
      simp only [hc] at h
      exact ih A2 A1 h p
        (port_audio_callback_preserves sqrtf F P (hP F) fuel A A2 outputBuffer o2 hc p hp)

/-- C9: `pause_audio_buffer` and `resume_audio_buffer` write the `paused` field
of the buffer and nothing else (no other field, no other buffer, nothing of
the session); a paused buffer is passed over by the mixer unchanged; and for an
unpaused buffer, pause, then any number of mix cycles (any block sizes), then
resume gives back the whole struct as it was before the pause: cursor,
counter, flags, `playing` and `paused` included. -/
theorem pause_resume_frame (sqrtf : α → α) (A : AudioData α) (p : Nat) :
    pause_audio_buffer A (some p) =
        { A with mem := Function.update A.mem p { A.mem p with paused := true } } ∧
      resume_audio_buffer A (some p) =
        { A with mem := Function.update A.mem p { A.mem p with paused := false } } ∧
      (∀ (F : Nat) (out : Nat → α),
        mixBuffer sqrtf F ((pause_audio_buffer A (some p)).mem p) out =
          Except.ok ((pause_audio_buffer A (some p)).mem p, out)) ∧
      ((A.mem p).paused = false →
        ∀ (outputBuffer : Nat → α) (cycles : List (Nat × Nat)) (A2 : AudioData α),
          mixCycles sqrtf outputBuffer cycles (pause_audio_buffer A (some p)) = Except.ok A2 →
          (resume_audio_buffer A2 (some p)).mem p = A.mem p) := by
  refine ⟨rfl, rfl, ?_, ?_⟩
  · intro F out
    exact mixBuffer_paused sqrtf F _ out (by simp [pause_audio_buffer, onBuffer])
  · intro hu outputBuffer cycles A2 h
    have hkeep : A2.mem p = { A.mem p with paused := true } := by
      refine mixCycles_preserves sqrtf outputBuffer
        (fun b => b = { A.mem p with paused := true }) ?_ cycles _ A2 h p ?_
      · intro F b out b1 out1 hb hb0
        subst hb0
        rw [mixBuffer_paused sqrtf F _ out rfl] at hb
        simp only [Except.ok.injEq, Prod.mk.injEq] at hb
        exact hb.1.symm
      · simp [pause_audio_buffer, onBuffer]
    simp only [resume_audio_buffer, onBuffer, Function.update_same, hkeep]
    cases hb : A.mem p
    rw [hb] at hu
    simp only at hu
    simp [hu]

/-- C9 at the session holding the four-frame static buffer: pause, two mix
cycles of 4 and 2 frames, resume. -/
theorem pause_resume_frame_witness :
    ∃ A2, mixCycles id (fun _ => 0) [(1, 4), (1, 2)]
        (pause_audio_buffer exampleSession (some 5)) = Except.ok A2 ∧
      (resume_audio_buffer A2 (some 5)).mem 5 = exampleSession.mem 5 :=
  ⟨_, rfl, (pause_resume_frame id exampleSession 5).2.2.2 (by decide) (fun _ => 0)
    [(1, 4), (1, 2)] _ rfl⟩

end Mixer

/-! ## Buffer creation -/

section Loading
variable {α : Type}

@[simp] theorem clearLinks_setNext (b : audio_buffer α) (v : Option Nat) :
    (b.setNext v).clearLinks = b.clearLinks := rfl

@[simp] theorem clearLinks_setPrev (b : audio_buffer α) (v : Option Nat) :
    (b.setPrev v).clearLinks = b.clearLinks := rfl

theorem track_clearLinks (A A1 : AudioData α) (b : Nat)
    (h : track_audio_buffer A (some b) = Except.ok A1) (x : Nat) :
    (A1.mem x).clearLinks = (A.mem x).clearLinks := by
  unfold track_audio_buffer at h
  cases hf : A.first with
  | none =>
    simp only [hf, Except.ok.injEq] at h
    rw [← h]
  | some f =>
    cases hl : A.last with
    | none => simp [hf, hl] at h
    | some l =>
      simp only [hf, hl, Except.ok.injEq] at h
      rw [← h]
      by_cases hxb : x = b
      · subst hxb
        by_cases hxl : x = l
        · subst hxl; simp
        · simp [Function.update_noteq hxl]
      · by_cases hxl : x = l
        · subst hxl; simp [Function.update_noteq hxb]
        · simp [Function.update_noteq hxb, Function.update_noteq hxl]

end Loading

section LoadingField
variable {α : Type} [Field α]

/-- Behaviour of `load_audio_buffer` when both allocations succeed, on a
well-formed registry and a fresh address: the new struct has the documented
initial fields, `data` holds `size_in_frames*channels` (reduced modulo `2^32`)
zero samples, and the buffer is the new last element of the registry. -/
theorem load_audio_buffer_spec (A : AudioData α) (l : List Nat) (p channels n : Nat)
    (usage : Int) (h : WellFormed A l) (hp : p ∉ l) :
    ∃ A1, load_audio_buffer A (some p) true channels n usage = Except.ok (A1, some p) ∧
      WellFormed A1 (l ++ [p]) ∧
      (A1.mem p).sizeInFrames = n ∧
      (A1.mem p).data = some (List.replicate ((n * channels) % UINT_RANGE) 0) ∧
      (A1.mem p).frameCursorPos = 0 ∧ (A1.mem p).framesProcessed = 0 ∧
      (A1.mem p).playing = false ∧ (A1.mem p).paused = false ∧
      (A1.mem p).volume = 1 ∧ (A1.mem p).pan = 1 / 2 ∧
      (A1.mem p).isSubBufferProcessed = (if usage = 0 then (false, false) else (true, true)) ∧
      (A1.mem p).isStreaming = decide (usage = 1) := by
  obtain ⟨hnd, hnx, hpv⟩ := h
  have hwf : WellFormed
      { A with mem := Function.update A.mem p (new_audio_buffer channels n usage) } l := by
    refine ⟨hnd, (Seg_congr l _ _ ?_).mp hnx, (Seg_congr l.reverse _ _ ?_).mp hpv⟩
    · intro x hx
      have hxp : x ≠ p := fun e => hp (e ▸ hx)
      simp [Function.update_noteq hxp]
    · intro x hx
      rw [List.mem_reverse] at hx
      have hxp : x ≠ p := fun e => hp (e ▸ hx)
      simp [Function.update_noteq hxp]
  obtain ⟨A1, ht, hwf1⟩ := track_wellFormed _ l p hwf hp
    (by simp [new_audio_buffer, zeroed_buffer]) (by simp [new_audio_buffer, zeroed_buffer])
  have hcl := track_clearLinks _ A1 p ht p
  simp only [Function.update_same] at hcl
  refine ⟨A1, ?_, hwf1, ?_⟩
  · unfold load_audio_buffer
    simp only [Bool.not_true, Bool.false_eq_true, if_false, ht]
  · refine ⟨congrArg audio_buffer.sizeInFrames hcl, congrArg audio_buffer.data hcl,
      congrArg audio_buffer.frameCursorPos hcl, congrArg audio_buffer.framesProcessed hcl,
      congrArg audio_buffer.playing hcl, congrArg audio_buffer.paused hcl,
      congrArg audio_buffer.volume hcl, congrArg audio_buffer.pan hcl,
      congrArg audio_buffer.isSubBufferProcessed hcl, congrArg audio_buffer.isStreaming hcl⟩

/-- C10 (amended): when both allocations succeed and the product
`size_in_frames*channels` fits in 32 bits, `load_audio_buffer(channels, n,
usage)` on a well-formed registry returns a buffer with `sizeInFrames = n`,
`n*channels` zero samples, cursor and counter 0, neither playing nor paused,
volume 1, pan 0.5, both flags false for usage 0 and true otherwise,
`isStreaming` exactly when usage is 1, appended after the previously
registered buffers, whose order is kept. -/
theorem load_audio_buffer_initial (A : AudioData α) (l : List Nat) (p channels n : Nat)
    (usage : Int) (h : WellFormed A l) (hp : p ∉ l) (hov : n * channels < UINT_RANGE) :
    ∃ A1, load_audio_buffer A (some p) true channels n usage = Except.ok (A1, some p) ∧
      WellFormed A1 (l ++ [p]) ∧
      (A1.mem p).sizeInFrames = n ∧
      (A1.mem p).data = some (List.replicate (n * channels) 0) ∧
      (A1.mem p).frameCursorPos = 0 ∧ (A1.mem p).framesProcessed = 0 ∧
      (A1.mem p).playing = false ∧ (A1.mem p).paused = false ∧
      (A1.mem p).volume = 1 ∧ (A1.mem p).pan = 1 / 2 ∧
      (A1.mem p).isSubBufferProcessed = (if usage = 0 then (false, false) else (true, true)) ∧
      (A1.mem p).isStreaming = decide (usage = 1) := by
  have key := load_audio_buffer_spec A l p channels n usage h hp
  rw [Nat.mod_eq_of_lt hov] at key
  exact key

/-- C10 (amended) at the registry `1 <-> 2 <-> 3`: a streaming buffer of 8
frames, 2 channels, placed at address 9. -/
theorem load_audio_buffer_initial_witness :
    ∃ A1, load_audio_buffer exampleRegistry (some 9) true 2 8 1 = Except.ok (A1, some 9) ∧
      WellFormed A1 ([1, 2, 3] ++ [9]) ∧
      (A1.mem 9).sizeInFrames = 8 ∧
      (A1.mem 9).data = some (List.replicate (8 * 2) 0) ∧
      (A1.mem 9).frameCursorPos = 0 ∧ (A1.mem 9).framesProcessed = 0 ∧
      (A1.mem 9).playing = false ∧ (A1.mem 9).paused = false ∧
      (A1.mem 9).volume = 1 ∧ (A1.mem 9).pan = 1 / 2 ∧
      (A1.mem 9).isSubBufferProcessed =
        (if (1 : Int) = 0 then (false, false) else (true, true)) ∧
      (A1.mem 9).isStreaming = decide ((1 : Int) = 1) :=
  load_audio_buffer_initial exampleRegistry [1, 2, 3] 9 2 8 1 (by decide) (by decide)
    (by decide)

/-- C10 (counterexample): `load_audio_buffer(2, 2147483649, 0)` on the registry
`1 <-> 2 <-> 3`, both allocations succeeding and the struct placed at address
9.  The product `size_in_frames*channels` is formed in `uint32_t`, so `data`
is allocated with 2 samples, not `2147483649 * 2`, while `sizeInFrames` is
`2147483649`. -/
theorem load_audio_buffer_wraps :
    ∃ A1, load_audio_buffer exampleRegistry (some 9) true 2 2147483649 0
        = Except.ok (A1, some 9) ∧
      (A1.mem 9).sizeInFrames = 2147483649 ∧
      (A1.mem 9).data = some [0, 0] ∧
      (A1.mem 9).data.map List.length ≠ some (2147483649 * 2) :=
  ⟨_, rfl, rfl, rfl, by decide⟩

end LoadingField

/-! ## The segment loop -/

section Flags
variable {α : Type}

@[simp] theorem setFlag_volume (b : audio_buffer α) (i : Nat) (v : Bool) :
    (b.setFlag i v).volume = b.volume := by unfold audio_buffer.setFlag; split <;> rfl
@[simp] theorem setFlag_pitch (b : audio_buffer α) (i : Nat) (v : Bool) :
    (b.setFlag i v).pitch = b.pitch := by unfold audio_buffer.setFlag; split <;> rfl
@[simp] theorem setFlag_pan (b : audio_buffer α) (i : Nat) (v : Bool) :
    (b.setFlag i v).pan = b.pan := by unfold audio_buffer.setFlag; split <;> rfl
@[simp] theorem setFlag_playing (b : audio_buffer α) (i : Nat) (v : Bool) :
    (b.setFlag i v).playing = b.playing := by unfold audio_buffer.setFlag; split <;> rfl
@[simp] theorem setFlag_paused (b : audio_buffer α) (i : Nat) (v : Bool) :
    (b.setFlag i v).paused = b.paused := by unfold audio_buffer.setFlag; split <;> rfl
@[simp] theorem setFlag_isStreaming (b : audio_buffer α) (i : Nat) (v : Bool) :
    (b.setFlag i v).isStreaming = b.isStreaming := by unfold audio_buffer.setFlag; split <;> rfl
@[simp] theorem setFlag_sizeInFrames (b : audio_buffer α) (i : Nat) (v : Bool) :
    (b.setFlag i v).sizeInFrames = b.sizeInFrames := by unfold audio_buffer.setFlag; split <;> rfl
@[simp] theorem setFlag_frameCursorPos (b : audio_buffer α) (i : Nat) (v : Bool) :
    (b.setFlag i v).frameCursorPos = b.frameCursorPos := by
  unfold audio_buffer.setFlag; split <;> rfl
@[simp] theorem setFlag_framesProcessed (b : audio_buffer α) (i : Nat) (v : Bool) :
    (b.setFlag i v).framesProcessed = b.framesProcessed := by
  unfold audio_buffer.setFlag; split <;> rfl
@[simp] theorem setFlag_data (b : audio_buffer α) (i : Nat) (v : Bool) :
    (b.setFlag i v).data = b.data := by unfold audio_buffer.setFlag; split <;> rfl
@[simp] theorem setFlag_next (b : audio_buffer α) (i : Nat) (v : Bool) :
    (b.setFlag i v).next = b.next := by unfold audio_buffer.setFlag; split <;> rfl
@[simp] theorem setFlag_prev (b : audio_buffer α) (i : Nat) (v : Bool) :
    (b.setFlag i v).prev = b.prev := by unfold audio_buffer.setFlag; split <;> rfl

theorem SameConfig.refl (b : audio_buffer α) : SameConfig b b :=
  ⟨rfl, rfl, rfl, rfl, rfl, rfl, rfl, rfl, rfl⟩

theorem SameConfig.trans {b b1 b2 : audio_buffer α} (h1 : SameConfig b b1)
    (h2 : SameConfig b1 b2) : SameConfig b b2 := by
  obtain ⟨a1, a2, a3, a4, a5, a6, a7, a8, a9⟩ := h1
  obtain ⟨c1, c2, c3, c4, c5, c6, c7, c8, c9⟩ := h2
  exact ⟨c1.trans a1, c2.trans a2, c3.trans a3, c4.trans a4, c5.trans a5, c6.trans a6,
    c7.trans a7, c8.trans a8, c9.trans a9⟩

end Flags

section BufferLemmas
variable {α : Type}

theorem afterPass_sameConfig (b : audio_buffer α) (n : Nat) : SameConfig b (afterPass b n) := by
  unfold afterPass
  split <;> exact ⟨by simp, by simp, by simp, by simp, by simp, by simp, by simp, by simp,
    by simp⟩

@[simp] theorem afterPass_frameCursorPos (b : audio_buffer α) (n : Nat) :
    (afterPass b n).frameCursorPos = (b.frameCursorPos + n) % UINT_RANGE := by
  unfold afterPass; split <;> simp

@[simp] theorem afterPass_framesProcessed (b : audio_buffer α) (n : Nat) :
    (afterPass b n).framesProcessed = (b.framesProcessed + n) % UINT_RANGE := by
  unfold afterPass; split <;> simp

@[simp] theorem afterPass_playing (b : audio_buffer α) (n : Nat) :
    (afterPass b n).playing = b.playing := by
  unfold afterPass; split <;> simp

@[simp] theorem afterPass_isStreaming (b : audio_buffer α) (n : Nat) :
    (afterPass b n).isStreaming = b.isStreaming := (afterPass_sameConfig b n).2.2.2.2.1

@[simp] theorem afterPass_sizeInFrames (b : audio_buffer α) (n : Nat) :
    (afterPass b n).sizeInFrames = b.sizeInFrames := (afterPass_sameConfig b n).2.2.2.2.2.1

theorem passLength_le (b : audio_buffer α) (ftm : Nat) : passLength b ftm ≤ ftm := by
  unfold passLength; split <;> omega

theorem passLength_le_left (b : audio_buffer α) (ftm : Nat) :
    passLength b ftm ≤ b.sizeInFrames / 2 - b.frameCursorPos % (b.sizeInFrames / 2) := by
  unfold passLength; split <;> omega

theorem passLength_pos (b : audio_buffer α) (ftm : Nat) (hs : b.sizeInFrames / 2 ≠ 0)
    (hf : 0 < ftm) : 0 < passLength b ftm := by
  have := Nat.mod_lt b.frameCursorPos (Nat.pos_of_ne_zero hs)
  unfold passLength; split <;> omega

theorem setFlag_flag (b : audio_buffer α) (i j : Nat) (v : Bool) :
    (b.setFlag j v).flag i = if (i = 0 ↔ j = 0) then v else b.flag i := by
  unfold audio_buffer.setFlag audio_buffer.flag
  by_cases hi : i = 0 <;> by_cases hj : j = 0 <;> simp [hi, hj]

theorem afterPass_flag (b : audio_buffer α) (n i : Nat) :
    (afterPass b n).flag i =
      if ((b.frameCursorPos + n) % UINT_RANGE / (b.sizeInFrames / 2)) % 2 ≠ subIndex b ∧
          (i = 0 ↔ subIndex b = 0) then true
      else b.flag i := by
  unfold afterPass
  by_cases h : ((b.frameCursorPos + n) % UINT_RANGE / (b.sizeInFrames / 2)) % 2 ≠ subIndex b
  · rw [if_pos h, setFlag_flag]
    by_cases h2 : (i = 0 ↔ subIndex b = 0)
    · simp [h, h2]
    · simp only [h2, if_false, and_false]
      rfl
  · rw [if_neg h]
    simp only [h, false_and, if_false]
    rfl

theorem relink_clearLinks (b : audio_buffer α) (pv nx : Option Nat) :
    (b.relink pv nx).clearLinks = b.clearLinks := rfl

theorem eq_relink_of_clearLinks {b c : audio_buffer α} (h : b.clearLinks = c.clearLinks) :
    c = b.relink c.prev c.next := by
  cases b; cases c
  simp only [audio_buffer.clearLinks, audio_buffer.setPrev, audio_buffer.setNext,
    audio_buffer.relink, audio_buffer.mk.injEq] at h ⊢
  obtain ⟨h1, h2, h3, h4, h5, h6, h7, h8, h9, h10, h11, -⟩ := h
  simp [h1, h2, h3, h4, h5, h6, h7, h8, h9, h10, h11]

theorem afterPass_relink (b : audio_buffer α) (pv nx : Option Nat) (n : Nat) :
    afterPass (b.relink pv nx) n = (afterPass b n).relink pv nx := by
  unfold afterPass
  have hidx : subIndex (b.relink pv nx) = subIndex b := rfl
  rw [hidx]
  show (if ((b.frameCursorPos + n) % UINT_RANGE / (b.sizeInFrames / 2)) % 2 ≠ subIndex b then _
    else _) = _
  split
  · unfold audio_buffer.setFlag
    split <;> rfl
  · rfl

theorem afterPass_flags_true (b : audio_buffer α) (n : Nat)
    (h : b.isSubBufferProcessed = (true, true)) :
    (afterPass b n).isSubBufferProcessed = (true, true) := by
  unfold afterPass
  split
  · unfold audio_buffer.setFlag
    split <;> simp [h]
  · exact h

theorem untrack_masterVolume (A : AudioData α) (b : Nat) :
    (untrack_audio_buffer A (some b)).masterVolume = A.masterVolume := by
  unfold untrack_audio_buffer
  rcases hp : (A.mem b).prev with _ | q
  · simp only [hp]
    split <;> rfl
  · simp only [hp]
    split <;> rfl

end BufferLemmas

section MixLoop
variable {α : Type} [Field α]

theorem mixLoop_zero (sqrtf : α → α) (F : Nat) (d : List α) (fuel : Nat)
    (b : audio_buffer α) (out : Nat → α) :
    mixLoop sqrtf F d fuel b 0 out = Except.ok (b, out) := by
  cases fuel <;> rfl

theorem mixLoop_succ (sqrtf : α → α) (F : Nat) (d : List α) (fuel : Nat)
    (b : audio_buffer α) (ftm : Nat) (out : Nat → α) :
    mixLoop sqrtf F d (fuel + 1) b (ftm + 1) out =
      if b.sizeInFrames / 2 = 0 then Except.error Fault.divByZero
      else
        match (if b.flag (subIndex b) then Except.ok out
          else mixFrames sqrtf b d F (ftm + 1) (passLength b (ftm + 1)) out) with
        | Except.error e => Except.error e
        | Except.ok out1 =>
          if !(afterPass b (passLength b (ftm + 1))).isStreaming &&
              decide ((afterPass b (passLength b (ftm + 1))).frameCursorPos ≥
                (afterPass b (passLength b (ftm + 1))).sizeInFrames) then
            Except.ok ({ afterPass b (passLength b (ftm + 1)) with playing := false }, out1)
          else mixLoop sqrtf F d fuel (afterPass b (passLength b (ftm + 1)))
            (ftm + 1 - passLength b (ftm + 1)) out1 := by
  rfl

theorem mixLoop_sameConfig (sqrtf : α → α) (F : Nat) (d : List α) :
    ∀ (fuel : Nat) (b : audio_buffer α) (ftm : Nat) (out : Nat → α)
      (b1 : audio_buffer α) (out1 : Nat → α),
      mixLoop sqrtf F d fuel b ftm out = Except.ok (b1, out1) → SameConfig b b1 := by
  intro fuel
  induction fuel with
  | zero =>
    intro b ftm out b1 out1 h
    cases ftm with
    | zero =>
      simp only [mixLoop, Except.ok.injEq, Prod.mk.injEq] at h
      rw [← h.1]; exact SameConfig.refl b
    | succ ftm => simp [mixLoop] at h
  | succ fuel ih =>
    intro b ftm out b1 out1 h
    cases ftm with
    | zero =>
      simp only [mixLoop, Except.ok.injEq, Prod.mk.injEq] at h
      rw [← h.1]; exact SameConfig.refl b
    | succ ftm =>
      rw [mixLoop_succ] at h
      split at h
      · simp at h
      · split at h
        · simp at h
        · split at h
          · simp only [Except.ok.injEq, Prod.mk.injEq] at h
            rw [← h.1]
            exact SameConfig.trans (afterPass_sameConfig b _)
              ⟨rfl, rfl, rfl, rfl, rfl, rfl, rfl, rfl, rfl⟩
          · exact SameConfig.trans (afterPass_sameConfig b _) (ih _ _ _ _ _ h)

theorem cursor_pass_bound (c sub n : Nat) (hsub : 0 < sub) (hc : c < 2 * sub)
    (hn : n ≤ sub - c % sub) : c + n ≤ 2 * sub := by
  have hdm := Nat.div_add_mod c sub
  have hq : c / sub < 2 := Nat.div_lt_of_lt_mul (by omega)
  have hm := Nat.mod_lt c hsub
  generalize c / sub = q at hdm hq
  interval_cases q <;> simp at hdm <;> omega

/-- Invariant of a static buffer of even size `N`: the cursor never passes
`N`, and is below `N` while the buffer is playing. -/
theorem mixLoop_static_bound (sqrtf : α → α) (F : Nat) (d : List α) (N : Nat)
    (hN2 : 2 ≤ N) (heven : N % 2 = 0) (hN : N < UINT_RANGE) :
    ∀ (fuel : Nat) (b : audio_buffer α) (ftm : Nat) (out : Nat → α)
      (b1 : audio_buffer α) (out1 : Nat → α),
      b.isStreaming = false → b.sizeInFrames = N → b.frameCursorPos < N →
      mixLoop sqrtf F d fuel b ftm out = Except.ok (b1, out1) →
      b1.frameCursorPos ≤ N ∧ (b1.playing = true → b1.frameCursorPos < N) := by
  intro fuel
  induction fuel with
  | zero =>
    intro b ftm out b1 out1 hst hsz hc h
    cases ftm with
    | zero =>
      simp only [mixLoop, Except.ok.injEq, Prod.mk.injEq] at h
      rw [← h.1]; exact ⟨by omega, fun _ => hc⟩
    | succ ftm => simp [mixLoop] at h
  | succ fuel ih =>
    intro b ftm out b1 out1 hst hsz hc h
    cases ftm with
    | zero =>
      simp only [mixLoop, Except.ok.injEq, Prod.mk.injEq] at h
      rw [← h.1]; exact ⟨by omega, fun _ => hc⟩
    | succ ftm =>
      rw [mixLoop_succ] at h
      have hsub : 0 < N / 2 := by omega
      have hle : b.frameCursorPos + passLength b (ftm + 1) ≤ N := by
        have h1 := passLength_le_left b (ftm + 1)
        rw [hsz] at h1
        have := cursor_pass_bound b.frameCursorPos (N / 2) _ hsub (by omega) h1
        omega
      have hmod : (b.frameCursorPos + passLength b (ftm + 1)) % UINT_RANGE =
          b.frameCursorPos + passLength b (ftm + 1) := Nat.mod_eq_of_lt (by omega)
      split at h
      · simp at h
      · split at h
        · simp at h
        · split at h
          · simp only [Except.ok.injEq, Prod.mk.injEq] at h
            rw [← h.1]
            simp only [afterPass_frameCursorPos, hmod]
            exact ⟨hle, fun hp => by simp at hp⟩
          · rename_i hbrk
            simp only [afterPass_isStreaming, hst, afterPass_frameCursorPos,
              afterPass_sizeInFrames, hsz, hmod, Bool.not_false, Bool.true_and,
              decide_eq_true_eq, ge_iff_le, not_le] at hbrk
            exact ih _ _ _ _ _ (by simp [hst]) (by simp [hsz]) (by simp [hmod, hbrk]) h

/-- Induction over the segment loop: `I` holds at every loop head, `Q` at
every exit. -/
theorem mixLoop_induction (sqrtf : α → α) (F : Nat) (d : List α)
    (I Q : audio_buffer α → Prop) (hexit : ∀ b, I b → Q b)
    (hbreak : ∀ b ftm, I b → b.sizeInFrames / 2 ≠ 0 →
      ((afterPass b (passLength b (ftm + 1))).isStreaming = false ∧
        (afterPass b (passLength b (ftm + 1))).sizeInFrames ≤
          (afterPass b (passLength b (ftm + 1))).frameCursorPos) →
      Q { afterPass b (passLength b (ftm + 1)) with playing := false })
    (hcont : ∀ b ftm, I b → b.sizeInFrames / 2 ≠ 0 →
      ¬ ((afterPass b (passLength b (ftm + 1))).isStreaming = false ∧
        (afterPass b (passLength b (ftm + 1))).sizeInFrames ≤
          (afterPass b (passLength b (ftm + 1))).frameCursorPos) →
      I (afterPass b (passLength b (ftm + 1)))) :
    ∀ (fuel : Nat) (b : audio_buffer α) (ftm : Nat) (out : Nat → α)
      (b1 : audio_buffer α) (out1 : Nat → α),
      I b → mixLoop sqrtf F d fuel b ftm out = Except.ok (b1, out1) → Q b1 := by
  intro fuel
  induction fuel with
  | zero =>
    intro b ftm out b1 out1 hI h
    cases ftm with
    | zero =>
      simp only [mixLoop, Except.ok.injEq, Prod.mk.injEq] at h
      rw [← h.1]; exact hexit b hI
    | succ ftm => simp [mixLoop] at h
  | succ fuel ih =>
    intro b ftm out b1 out1 hI h
    cases ftm with
    | zero =>
      simp only [mixLoop, Except.ok.injEq, Prod.mk.injEq] at h
      rw [← h.1]; exact hexit b hI
    | succ ftm =>
      rw [mixLoop_succ] at h
      split at h
      · simp at h
      · rename_i hsub
        split at h
        · simp at h
        · split at h
          · rename_i hbrk
            simp only [Except.ok.injEq, Prod.mk.injEq] at h
            rw [← h.1]
            refine hbreak b ftm hI hsub ?_
            simpa using hbrk
          · rename_i hbrk
            refine ih _ _ _ _ _ (hcont b ftm hI hsub ?_) h
            simpa using hbrk

theorem mixLoop_cursor_lt (sqrtf : α → α) (F : Nat) (d : List α)
    (fuel : Nat) (b : audio_buffer α) (ftm : Nat) (out : Nat → α)
    (b1 : audio_buffer α) (out1 : Nat → α) (hb : b.frameCursorPos < UINT_RANGE)
    (h : mixLoop sqrtf F d fuel b ftm out = Except.ok (b1, out1)) :
    b1.frameCursorPos < UINT_RANGE := by
  have hpos : 0 < UINT_RANGE := by decide
  refine mixLoop_induction sqrtf F d (fun b => b.frameCursorPos < UINT_RANGE)
    (fun b => b.frameCursorPos < UINT_RANGE) (fun _ h => h) ?_ ?_ fuel b ftm out b1 out1 hb h
  · intro b ftm _ _ _
    simp only [afterPass_frameCursorPos]
    exact Nat.mod_lt _ hpos
  · intro b ftm _ _ _
    simp only [afterPass_frameCursorPos]
    exact Nat.mod_lt _ hpos

end MixLoop

section Fuel
variable {α : Type} [Field α]

theorem mixFrames_error (sqrtf : α → α) (b : audio_buffer α) (d : List α) (F ftm : Nat) :
    ∀ (k : Nat) (out : Nat → α) (e : Fault),
      mixFrames sqrtf b d F ftm k out = Except.error e → e = Fault.outOfBounds := by
  intro k
  induction k with
  | zero => intro out e h; simp [mixFrames] at h
  | succ k ih =>
    intro out e h
    simp only [mixFrames] at h
    cases hk : mixFrames sqrtf b d F ftm k out with
    | error e1 =>
      simp only [hk, Except.error.injEq] at h
      rw [← h]; exact ih out e1 hk
    | ok o1 =>
      simp only [hk] at h
      unfold mixFrame at h
      simp only at h
      split at h
      · simp at h
      · simp only [Except.error.injEq] at h
        exact h.symm

/-- The bound `framesPerBuffer` on the segment loop is never reached: every
segment consumes at least one frame. -/
theorem mixLoop_ne_outOfFuel (sqrtf : α → α) (F : Nat) (d : List α) :
    ∀ (fuel : Nat) (b : audio_buffer α) (ftm : Nat) (out : Nat → α),
      ftm ≤ fuel → mixLoop sqrtf F d fuel b ftm out ≠ Except.error Fault.outOfFuel := by
  intro fuel
  induction fuel with
  | zero =>
    intro b ftm out hf
    have : ftm = 0 := by omega
    subst this
    simp [mixLoop]
  | succ fuel ih =>
    intro b ftm out hf
    cases ftm with
    | zero => simp [mixLoop]
    | succ ftm =>
      rw [mixLoop_succ]
      split
      · simp
      · rename_i hsub
        have hpos := passLength_pos b (ftm + 1) hsub (by omega)
        split
        · rename_i e he
          split at he
          · simp at he
          · have := mixFrames_error sqrtf b d F (ftm + 1) _ _ e he
            rw [this]; simp
        · split
          · simp
          · exact ih _ _ _ (by omega)

end Fuel

section CursorClaims
variable {α : Type} [Field α]

theorem mixBuffer_cursorInv (sqrtf : α → α) (F N : Nat) (s : Bool)
    (hN2 : 2 ≤ N) (heven : N % 2 = 0) (hN : N < UINT_RANGE)
    (b : audio_buffer α) (out : Nat → α) (b1 : audio_buffer α) (out1 : Nat → α)
    (h : mixBuffer sqrtf F b out = Except.ok (b1, out1)) (hI : CursorInv N s b) :
    CursorInv N s b1 := by
  unfold mixBuffer at h
  split at h
  · simp only [Except.ok.injEq, Prod.mk.injEq] at h
    rw [← h.1]; exact hI
  · rename_i d hd
    split at h
    · rename_i hplay
      simp only [Bool.and_eq_true, Bool.not_eq_true'] at hplay
      obtain ⟨hsz, hst, hlt, hstatic⟩ := hI
      have hcfg := mixLoop_sameConfig sqrtf F d _ _ _ _ _ _ h
      have hsz1 : b1.sizeInFrames = N := hcfg.2.2.2.2.2.1.trans hsz
      have hst1 : b1.isStreaming = s := hcfg.2.2.2.2.1.trans hst
      refine ⟨hsz1, hst1, mixLoop_cursor_lt sqrtf F d _ _ _ _ _ _ hlt h, ?_⟩
      intro hs1
      have hs0 : b.isStreaming = false := by rw [hst, ← hst1]; exact hs1
      have hc : b.frameCursorPos < N := by
        have := (hstatic hs0).2 hplay.1
        omega
      rw [hsz1]
      exact mixLoop_static_bound sqrtf F d N hN2 heven hN _ _ _ _ _ _ hs0 hsz hc h
    · simp only [Except.ok.injEq, Prod.mk.injEq] at h
      rw [← h.1]; exact hI

theorem load_audio_buffer_mem (A0 A1 : AudioData α) (p channels n : Nat) (usage : Int)
    (h : load_audio_buffer A0 (some p) true channels n usage = Except.ok (A1, some p)) :
    (A1.mem p).clearLinks = (new_audio_buffer channels n usage : audio_buffer α).clearLinks := by
  unfold load_audio_buffer at h
  simp only [Bool.not_true, Bool.false_eq_true, if_false] at h
  split at h
  · simp at h
  · rename_i A2 ht
    simp only [Except.ok.injEq, Prod.mk.injEq, and_true] at h
    have := track_clearLinks _ A2 p ht p
    simp only [Function.update_same] at this
    rw [← h]; exact this

/-- C3 (amended): in every state reachable from the creation of a buffer of
even size `N >= 2` by play, stop, pause, resume and mix cycles, `sizeInFrames`
is still `N` and `frameCursorPos` is a 32-bit value; for a static buffer
`frameCursorPos <= sizeInFrames`, with `frameCursorPos < sizeInFrames` while
the buffer is playing. -/
theorem cursor_bound_reachable (sqrtf : α → α) (p channels N : Nat) (usage : Int)
    (hN2 : 2 ≤ N) (heven : N % 2 = 0) (hN : N < UINT_RANGE) (A : AudioData α)
    (h : Reachable sqrtf p channels N usage A) :
    (A.mem p).sizeInFrames = N ∧ (A.mem p).isStreaming = decide (usage = 1) ∧
      (A.mem p).frameCursorPos < UINT_RANGE ∧
      ((A.mem p).isStreaming = false →
        (A.mem p).frameCursorPos ≤ (A.mem p).sizeInFrames ∧
          ((A.mem p).playing = true → (A.mem p).frameCursorPos < (A.mem p).sizeInFrames)) := by
  have hpos : 0 < UINT_RANGE := by decide
  show CursorInv N (decide (usage = 1)) (A.mem p)
  induction h with
  | load A0 A1 hl =>
    have hm := load_audio_buffer_mem A0 A1 p channels N usage hl
    have h1 : (A1.mem p).sizeInFrames = N := congrArg audio_buffer.sizeInFrames hm
    have h2 : (A1.mem p).isStreaming = decide (usage = 1) :=
      congrArg audio_buffer.isStreaming hm
    have h3 : (A1.mem p).frameCursorPos = 0 := congrArg audio_buffer.frameCursorPos hm
    have h4 : (A1.mem p).playing = false := congrArg audio_buffer.playing hm
    refine ⟨h1, h2, by omega, fun _ => ⟨by omega, fun hp => ?_⟩⟩
    rw [h4] at hp
    exact absurd hp (by decide)
  | play A _ ih =>
    obtain ⟨h1, h2, h3, h4⟩ := ih
    unfold play_audio_buffer onBuffer
    simp only [Function.update_same]
    split <;> exact ⟨h1, h2, hpos, fun _ => ⟨Nat.zero_le _, fun _ => by
      show 0 < (A.mem p).sizeInFrames
      omega⟩⟩
  | stop A _ ih =>
    obtain ⟨h1, h2, h3, h4⟩ := ih
    unfold stop_audio_buffer onBuffer
    simp only [Function.update_same]
    exact ⟨h1, h2, hpos, fun _ => ⟨Nat.zero_le _, fun hp => Bool.noConfusion hp⟩⟩
  | pause A _ ih =>
    unfold pause_audio_buffer onBuffer
    simp only [Function.update_same]
    exact ih
  | resume A _ ih =>
    unfold resume_audio_buffer onBuffer
    simp only [Function.update_same]
    exact ih
  | mix A A1 fuel F outputBuffer out1 _ hc ih =>
    exact port_audio_callback_preserves sqrtf F (CursorInv N (decide (usage = 1)))
      (fun b out b1 o1 hb hI => mixBuffer_cursorInv sqrtf F N _ hN2 heven hN b out b1 o1 hb hI)
      fuel A A1 outputBuffer out1 hc p ih

/-- C3 (counterexample): a static buffer of 2 frames, created, played and
mixed for one cycle of 2 frames, has `frameCursorPos = 2 = sizeInFrames`; a
streaming buffer of 2 frames, created, played and mixed for one cycle of 5
frames, has `frameCursorPos = 5 > sizeInFrames`.  Neither cursor is below
`sizeInFrames`. -/
theorem cursor_reaches_size :
    (∃ A : AudioData ℚ, Reachable id 5 2 2 0 A ∧
      (A.mem 5).isStreaming = false ∧ (A.mem 5).sizeInFrames = 2 ∧
      (A.mem 5).frameCursorPos = 2 ∧
      ¬ (A.mem 5).frameCursorPos < (A.mem 5).sizeInFrames) ∧
    (∃ A : AudioData ℚ, Reachable id 5 2 2 1 A ∧
      (A.mem 5).isStreaming = true ∧ (A.mem 5).sizeInFrames = 2 ∧
      (A.mem 5).frameCursorPos = 5 ∧
      ¬ (A.mem 5).frameCursorPos < (A.mem 5).sizeInFrames) := by
  constructor
  · refine ⟨_, Reachable.mix _ _ 1 2 (fun _ => 0) _
      (Reachable.play _ (Reachable.load emptySession _ rfl)) rfl, ?_⟩
    decide
  · refine ⟨_, Reachable.mix _ _ 1 5 (fun _ => 0) _
      (Reachable.play _ (Reachable.load emptySession _ rfl)) rfl, ?_⟩
    decide

/-- C3 (amended) at a session in which a static buffer of 4 frames has been
created, played and mixed for one cycle of 3 frames. -/
theorem cursor_bound_reachable_witness :
    ∃ A : AudioData ℚ, Reachable id 5 2 4 0 A ∧
      ((A.mem 5).sizeInFrames = 4 ∧ (A.mem 5).isStreaming = decide ((0 : Int) = 1) ∧
      (A.mem 5).frameCursorPos < UINT_RANGE ∧
      ((A.mem 5).isStreaming = false →
        (A.mem 5).frameCursorPos ≤ (A.mem 5).sizeInFrames ∧
          ((A.mem 5).playing = true → (A.mem 5).frameCursorPos < (A.mem 5).sizeInFrames))) :=
  ⟨_, Reachable.mix _ _ 1 3 (fun _ => 0) _
      (Reachable.play _ (Reachable.load emptySession _ rfl)) rfl,
    cursor_bound_reachable id 5 2 4 0 (by decide) (by decide) (by decide) _
      (Reachable.mix _ _ 1 3 (fun _ => 0) _
        (Reachable.play _ (Reachable.load emptySession _ rfl)) rfl)⟩

end CursorClaims

section Frames
variable {α : Type} [Field α]

theorem getElem?_eq_some_getD (d : List α) (i : Nat) (h : i < d.length) :
    d[i]? = some (d.getD i 0) := by
  rw [List.getD_eq_getElem?_getD, List.getElem?_eq_getElem h]
  rfl

theorem mixFrame_ok (sqrtf : α → α) (b : audio_buffer α) (d : List α) (F ftm i : Nat)
    (out : Nat → α)
    (hb : (b.frameCursorPos + i) % b.sizeInFrames * 2 + 1 < d.length) :
    mixFrame sqrtf b d F ftm i out = Except.ok
      (Function.update
        (Function.update out ((F - ftm + i) * 2)
          (out ((F - ftm + i) * 2) +
            d.getD ((b.frameCursorPos + i) % b.sizeInFrames * 2) 0 * b.volume *
              sqrtf (1 - b.pan)))
        ((F - ftm + i) * 2 + 1)
        (out ((F - ftm + i) * 2 + 1) +
          d.getD ((b.frameCursorPos + i) % b.sizeInFrames * 2 + 1) 0 * b.volume *
            sqrtf b.pan)) := by
  unfold mixFrame
  simp only [AUDIO_DEVICE_CHANNELS]
  rw [getElem?_eq_some_getD d _ (by omega), getElem?_eq_some_getD d _ hb]
  simp

/-- The frame loop, when every frame it reads lies inside `data`: frame `i` of
the segment is added into output frame `framesPerBuffer - framesToMix + i`,
and no other output sample is touched. -/
theorem mixFrames_spec (sqrtf : α → α) (b : audio_buffer α) (d : List α) (F ftm : Nat)
    (hsz : 0 < b.sizeInFrames) (hlen : d.length = 2 * b.sizeInFrames) :
    ∀ (k : Nat) (out : Nat → α), ∃ out1,
      mixFrames sqrtf b d F ftm k out = Except.ok out1 ∧
      (∀ i, i < k →
        out1 ((F - ftm + i) * 2) = out ((F - ftm + i) * 2) +
          d.getD ((b.frameCursorPos + i) % b.sizeInFrames * 2) 0 * b.volume *
            sqrtf (1 - b.pan) ∧
        out1 ((F - ftm + i) * 2 + 1) = out ((F - ftm + i) * 2 + 1) +
          d.getD ((b.frameCursorPos + i) % b.sizeInFrames * 2 + 1) 0 * b.volume *
            sqrtf b.pan) ∧
      (∀ j, (j < (F - ftm) * 2 ∨ (F - ftm + k) * 2 ≤ j) → out1 j = out j) := by
  intro k
  induction k with
  | zero =>
    intro out
    exact ⟨out, rfl, fun i hi => absurd hi (Nat.not_lt_zero i), fun _ _ => rfl⟩
  | succ k ih =>
    intro out
    obtain ⟨o1, h1, hin, hout⟩ := ih out
    have hb : (b.frameCursorPos + k) % b.sizeInFrames * 2 + 1 < d.length := by
      have := Nat.mod_lt (b.frameCursorPos + k) hsz
      omega
    refine ⟨Function.update
        (Function.update o1 ((F - ftm + k) * 2)
          (o1 ((F - ftm + k) * 2) +
            d.getD ((b.frameCursorPos + k) % b.sizeInFrames * 2) 0 * b.volume *
              sqrtf (1 - b.pan)))
        ((F - ftm + k) * 2 + 1)
        (o1 ((F - ftm + k) * 2 + 1) +
          d.getD ((b.frameCursorPos + k) % b.sizeInFrames * 2 + 1) 0 * b.volume *
            sqrtf b.pan), ?_, ?_, ?_⟩
    · simp only [mixFrames, h1]
      exact mixFrame_ok sqrtf b d F ftm k o1 hb
    · intro i hi
      by_cases hik : i = k
      · subst hik
        have e0 : o1 ((F - ftm + i) * 2) = out ((F - ftm + i) * 2) :=
          hout _ (Or.inr (by omega))
        have e1 : o1 ((F - ftm + i) * 2 + 1) = out ((F - ftm + i) * 2 + 1) :=
          hout _ (Or.inr (by omega))
        have hne : (F - ftm + i) * 2 ≠ (F - ftm + i) * 2 + 1 := by omega
        constructor
        · rw [Function.update_noteq hne, Function.update_same, e0]
        · rw [Function.update_same, e1]
      · have hlt : i < k := by omega
        obtain ⟨a0, a1⟩ := hin i hlt
        have n1 : (F - ftm + i) * 2 ≠ (F - ftm + k) * 2 + 1 := by omega
        have n2 : (F - ftm + i) * 2 ≠ (F - ftm + k) * 2 := by omega
        have n3 : (F - ftm + i) * 2 + 1 ≠ (F - ftm + k) * 2 + 1 := by omega
        have n4 : (F - ftm + i) * 2 + 1 ≠ (F - ftm + k) * 2 := by omega
        constructor
        · rw [Function.update_noteq n1, Function.update_noteq n2, a0]
        · rw [Function.update_noteq n3, Function.update_noteq n4, a1]
    · intro j hj
      have n1 : j ≠ (F - ftm + k) * 2 + 1 := by omega
      have n2 : j ≠ (F - ftm + k) * 2 := by omega
      rw [Function.update_noteq n1, Function.update_noteq n2]
      exact hout j (by omega)

end Frames

section StaticPlay
variable {α : Type} [Field α]

theorem mixLoop_static_full (sqrtf : α → α) (F : Nat) (d : List α) (b : audio_buffer α)
    (out : Nat → α) (s : Nat) (hs : 0 < s) (hN : 2 * s < UINT_RANGE)
    (hst : b.isStreaming = false) (hsz : b.sizeInFrames = 2 * s)
    (hc : b.frameCursorPos = 0) (hfl : b.isSubBufferProcessed = (false, false))
    (hlen : d.length = 2 * (2 * s)) (hF : 2 * s ≤ F) :
    ∃ b1 out1, mixLoop sqrtf F d F b F out = Except.ok (b1, out1) ∧
      b1.playing = false ∧
      (∀ i, i < 2 * s →
        out1 (i * 2) = out (i * 2) + d.getD (i * 2) 0 * b.volume * sqrtf (1 - b.pan) ∧
        out1 (i * 2 + 1) = out (i * 2 + 1) + d.getD (i * 2 + 1) 0 * b.volume * sqrtf b.pan) ∧
      (∀ j, 2 * s * 2 ≤ j → out1 j = out j) := by
  obtain ⟨f, rfl⟩ : ∃ f, F = f + 2 := ⟨F - 2, by omega⟩
  have hsub : b.sizeInFrames / 2 = s := by rw [hsz]; omega
  have hidx : subIndex b = 0 := by
    unfold subIndex; rw [hc]; simp
  have hpl : passLength b (f + 1 + 1) = s := by
    unfold passLength; rw [hsub, hc]; simp; omega
  have hflag : b.flag (subIndex b) = false := by
    rw [hidx]; unfold audio_buffer.flag; simp [hfl]
  obtain ⟨o1, hm1, hin1, hout1⟩ :=
    mixFrames_spec sqrtf b d (f + 2) (f + 1 + 1) (by omega) (by rw [hsz, hlen]) s out
  rw [mixLoop_succ, hsub, if_neg (show ¬ (s = 0) by omega), hflag, hpl]
  simp only [Bool.false_eq_true, if_false, hm1]
  have c1 : (afterPass b s).frameCursorPos = s := by
    rw [afterPass_frameCursorPos, hc, Nat.zero_add]
    exact Nat.mod_eq_of_lt (by omega)
  have z1 : (afterPass b s).sizeInFrames = 2 * s := by rw [afterPass_sizeInFrames, hsz]
  have t1 : (afterPass b s).isStreaming = false := by rw [afterPass_isStreaming, hst]
  have hcfg1 := afterPass_sameConfig b s
  have hsub1 : (afterPass b s).sizeInFrames / 2 = s := by rw [z1]; omega
  have hidx1 : subIndex (afterPass b s) = 1 := by
    unfold subIndex; rw [c1, hsub1, Nat.div_self hs]
  have hflag1 : (afterPass b s).flag (subIndex (afterPass b s)) = false := by
    rw [hidx1, afterPass_flag, hidx]
    simp [audio_buffer.flag, hfl]
  have hm : f + 1 + 1 - s = (f + 1 - s) + 1 := by omega
  have hpl1 : passLength (afterPass b s) (f + 1 - s + 1) = s := by
    unfold passLength; rw [hsub1, c1, Nat.mod_self]; simp; omega
  obtain ⟨o2, hm2, hin2, hout2⟩ :=
    mixFrames_spec sqrtf (afterPass b s) d (f + 2) (f + 1 - s + 1) (by omega)
      (by rw [z1, hlen]) s o1
  have c2 : (afterPass (afterPass b s) s).frameCursorPos = 2 * s := by
    rw [afterPass_frameCursorPos, c1]
    have e : s + s = 2 * s := by omega
    rw [e]
    exact Nat.mod_eq_of_lt hN
  have z2 : (afterPass (afterPass b s) s).sizeInFrames = 2 * s := by
    rw [afterPass_sizeInFrames, z1]
  have t2 : (afterPass (afterPass b s) s).isStreaming = false := by
    rw [afterPass_isStreaming, t1]
  have hbrk1 : ¬ ((!(afterPass b s).isStreaming &&
      decide ((afterPass b s).frameCursorPos ≥ (afterPass b s).sizeInFrames)) = true) := by
    rw [c1, z1, t1]; simp; omega
  rw [if_neg hbrk1, hm, mixLoop_succ, hsub1, if_neg (show ¬ (s = 0) by omega), hflag1, hpl1]
  simp only [Bool.false_eq_true, if_false, hm2]
  have hbrk2 : (!(afterPass (afterPass b s) s).isStreaming &&
      decide ((afterPass (afterPass b s) s).frameCursorPos ≥
        (afterPass (afterPass b s) s).sizeInFrames)) = true := by
    rw [c2, z2, t2]; simp
  rw [if_pos hbrk2]
  refine ⟨_, _, rfl, rfl, ?_, ?_⟩
  · intro i hi
    by_cases his : i < s
    · obtain ⟨a0, a1⟩ := hin1 i his
      have e : f + 2 - (f + 1 + 1) + i = i := by omega
      have em : (b.frameCursorPos + i) % b.sizeInFrames = i := by
        rw [hc, hsz, Nat.zero_add]; exact Nat.mod_eq_of_lt hi
      rw [e, em] at a0 a1
      rw [hout2 (i * 2) (Or.inl (by omega)), hout2 (i * 2 + 1) (Or.inl (by omega))]
      exact ⟨a0, a1⟩
    · obtain ⟨a0, a1⟩ := hin2 (i - s) (by omega)
      have e : f + 2 - (f + 1 - s + 1) + (i - s) = i := by omega
      have em : ((afterPass b s).frameCursorPos + (i - s)) % (afterPass b s).sizeInFrames = i := by
        rw [c1, z1]
        have : s + (i - s) = i := by omega
        rw [this]; exact Nat.mod_eq_of_lt hi
      rw [e, em, hcfg1.1, hcfg1.2.2.1, hout1 (i * 2) (Or.inr (by omega))] at a0
      rw [e, em, hcfg1.1, hcfg1.2.2.1, hout1 (i * 2 + 1) (Or.inr (by omega))] at a1
      exact ⟨a0, a1⟩
  · intro j hj
    rw [hout2 j (Or.inr (by omega)), hout1 j (Or.inr (by omega))]

theorem mixAll_none (sqrtf : α → α) (F fuel : Nat) (mem : Nat → audio_buffer α)
    (out : Nat → α) : mixAll sqrtf F fuel none mem out = Except.ok (mem, out) := by
  cases fuel <;> rfl

/-- C1: a registry holding a single static buffer with even `sizeInFrames = N
>= 2` and `2 * N` samples of data, just played, master volume 1, block size `F
>= N`.  One mix cycle completes; output frame `i < N` is
`(data[2i] * volume * sqrtf (1 - pan), data[2i+1] * volume * sqrtf pan)`,
output frames `N .. F-1` are zero, and the buffer is no longer playing. -/
theorem static_buffer_mix_cycle (sqrtf : α → α) (A0 : AudioData α) (p N F fuel : Nat)
    (d : List α) (outputBuffer : Nat → α)
    (hwf : WellFormed A0 [p]) (hmv : A0.masterVolume = 1)
    (hst : (A0.mem p).isStreaming = false) (hsz : (A0.mem p).sizeInFrames = N)
    (hN2 : 2 ≤ N) (heven : N % 2 = 0) (hN : N < UINT_RANGE)
    (hdata : (A0.mem p).data = some d) (hlen : d.length = 2 * N)
    (hF : N ≤ F) (hfuel : 1 ≤ fuel) :
    ∃ A1 out,
      port_audio_callback sqrtf fuel (play_audio_buffer A0 (some p)) outputBuffer F
        = Except.ok (A1, out) ∧
      (∀ i, i < N →
        out (2 * i) = d.getD (2 * i) 0 * (A0.mem p).volume * sqrtf (1 - (A0.mem p).pan) ∧
        out (2 * i + 1) = d.getD (2 * i + 1) 0 * (A0.mem p).volume * sqrtf (A0.mem p).pan) ∧
      (∀ i, N ≤ i → i < F → out (2 * i) = 0 ∧ out (2 * i + 1) = 0) ∧
      (A1.mem p).playing = false := by
  obtain ⟨fu, rfl⟩ : ∃ fu, fuel = fu + 1 := ⟨fuel - 1, by omega⟩
  obtain ⟨-, ⟨hfirst, hnext⟩, -⟩ := hwf
  have hnext' : (A0.mem p).next = none := hnext
  obtain ⟨s, rfl⟩ : ∃ s, N = 2 * s := ⟨N / 2, by omega⟩
  obtain ⟨b1, o1, hloop, hplay, hin, hout⟩ :=
    mixLoop_static_full sqrtf F d ((play_audio_buffer A0 (some p)).mem p)
      (fun i => if i < F * AUDIO_DEVICE_CHANNELS then 0 else outputBuffer i) s (by omega) hN
      (by simp [play_audio_buffer, onBuffer, hst])
      (by simp [play_audio_buffer, onBuffer, hst, hsz])
      (by simp [play_audio_buffer, onBuffer, hst])
      (by simp [play_audio_buffer, onBuffer, hst])
      hlen hF
  have hcfg := mixLoop_sameConfig sqrtf F d _ _ _ _ _ _ hloop
  have hb1next : b1.next = none := by
    rw [hcfg.2.2.2.2.2.2.2.1]
    simp [play_audio_buffer, onBuffer, hst, hnext']
  have hmb : mixBuffer sqrtf F ((play_audio_buffer A0 (some p)).mem p)
      (fun i => if i < F * AUDIO_DEVICE_CHANNELS then 0 else outputBuffer i)
      = Except.ok (b1, o1) := by
    unfold mixBuffer
    have hd : ((play_audio_buffer A0 (some p)).mem p).data = some d := by
      simp [play_audio_buffer, onBuffer, hst, hdata]
    have hp : (((play_audio_buffer A0 (some p)).mem p).playing &&
        !((play_audio_buffer A0 (some p)).mem p).paused) = true := by
      simp [play_audio_buffer, onBuffer, hst]
    rw [hd]
    simp only [hp, if_true]
    exact hloop
  have hvol : ((play_audio_buffer A0 (some p)).mem p).volume = (A0.mem p).volume := by
    simp [play_audio_buffer, onBuffer, hst]
  have hpan : ((play_audio_buffer A0 (some p)).mem p).pan = (A0.mem p).pan := by
    simp [play_audio_buffer, onBuffer, hst]
  have hcb : port_audio_callback sqrtf (fu + 1) (play_audio_buffer A0 (some p)) outputBuffer F
      = Except.ok ({ play_audio_buffer A0 (some p) with
          mem := Function.update (play_audio_buffer A0 (some p)).mem p b1 },
        fun i => if i < F * AUDIO_DEVICE_CHANNELS then
          o1 i * (play_audio_buffer A0 (some p)).masterVolume else o1 i) := by
    unfold port_audio_callback
    have hf : (play_audio_buffer A0 (some p)).first = some p := hfirst
    simp only [hf, mixAll, hmb, hb1next, mixAll_none]
  refine ⟨_, _, hcb, ?_, ?_, ?_⟩
  · intro i hi
    obtain ⟨a0, a1⟩ := hin i hi
    have hmv' : (play_audio_buffer A0 (some p)).masterVolume = 1 := hmv
    have l0 : 2 * i < F * AUDIO_DEVICE_CHANNELS := by simp only [AUDIO_DEVICE_CHANNELS]; omega
    have l1 : 2 * i + 1 < F * AUDIO_DEVICE_CHANNELS := by
      simp only [AUDIO_DEVICE_CHANNELS]; omega
    rw [Nat.mul_comm i 2] at a0 a1
    simp only [l0, l1, if_true, hmv', mul_one, a0, a1, zero_add, hvol, hpan]
    exact ⟨trivial, trivial⟩
  · intro i hi hiF
    have hmv' : (play_audio_buffer A0 (some p)).masterVolume = 1 := hmv
    have l0 : 2 * i < F * AUDIO_DEVICE_CHANNELS := by simp only [AUDIO_DEVICE_CHANNELS]; omega
    have l1 : 2 * i + 1 < F * AUDIO_DEVICE_CHANNELS := by
      simp only [AUDIO_DEVICE_CHANNELS]; omega
    simp only [l0, l1, if_true, hmv', mul_one, hout (2 * i) (by omega),
      hout (2 * i + 1) (by omega)]
    exact ⟨trivial, trivial⟩
  · simp only [Function.update_same]
    exact hplay

/-- C1 at the scenario of the specification: the four-frame static buffer
`(1,1),(2,2),(3,3),(4,4)` alone in the registry, volume 1, pan 0.5, block size
6. -/
theorem static_buffer_mix_cycle_witness :
    ∃ A1 out,
      port_audio_callback id 1 (play_audio_buffer exampleSession (some 5)) (fun _ => 0) 6
        = Except.ok (A1, out) ∧
      (∀ i, i < 4 →
        out (2 * i) = [1, 1, 2, 2, 3, 3, 4, 4].getD (2 * i) 0 * (exampleSession.mem 5).volume *
          id (1 - (exampleSession.mem 5).pan) ∧
        out (2 * i + 1) = [1, 1, 2, 2, 3, 3, 4, 4].getD (2 * i + 1) 0 *
          (exampleSession.mem 5).volume * id (exampleSession.mem 5).pan) ∧
      (∀ i, 4 ≤ i → i < 6 → out (2 * i) = 0 ∧ out (2 * i + 1) = 0) ∧
      (A1.mem 5).playing = false :=
  static_buffer_mix_cycle id exampleSession 5 4 6 1 [1, 1, 2, 2, 3, 3, 4, 4] (fun _ => 0)
    (by decide) rfl rfl rfl (by decide) (by decide) (by decide) rfl rfl (by decide) (by decide)

end StaticPlay

section Relink
variable {α : Type} [Field α]

theorem mixFrames_relink (sqrtf : α → α) (b : audio_buffer α) (pv nx : Option Nat)
    (d : List α) (F ftm : Nat) :
    ∀ (k : Nat) (out : Nat → α),
      mixFrames sqrtf (b.relink pv nx) d F ftm k out = mixFrames sqrtf b d F ftm k out := by
  intro k
  induction k with
  | zero => intro out; rfl
  | succ k ih =>
    intro out
    simp only [mixFrames, ih]
    rfl

theorem mixLoop_relink (sqrtf : α → α) (F : Nat) (d : List α) (pv nx : Option Nat) :
    ∀ (fuel : Nat) (b : audio_buffer α) (ftm : Nat) (out : Nat → α),
      mixLoop sqrtf F d fuel (b.relink pv nx) ftm out =
        (mixLoop sqrtf F d fuel b ftm out).map (fun r => (r.1.relink pv nx, r.2)) := by
  intro fuel
  induction fuel with
  | zero =>
    intro b ftm out
    cases ftm <;> rfl
  | succ fuel ih =>
    intro b ftm out
    cases ftm with
    | zero => rfl
    | succ ftm =>
      rw [mixLoop_succ, mixLoop_succ]
      have hsz : (b.relink pv nx).sizeInFrames = b.sizeInFrames := rfl
      have hidx : subIndex (b.relink pv nx) = subIndex b := rfl
      have hfl : (b.relink pv nx).flag (subIndex b) = b.flag (subIndex b) := rfl
      have hpl : passLength (b.relink pv nx) (ftm + 1) = passLength b (ftm + 1) := rfl
      rw [hsz, hidx, hfl, hpl, mixFrames_relink, afterPass_relink]
      split
      · rfl
      · split
        · rfl
        · have h1 : ((afterPass b (passLength b (ftm + 1))).relink pv nx).isStreaming =
              (afterPass b (passLength b (ftm + 1))).isStreaming := rfl
          have h2 : ((afterPass b (passLength b (ftm + 1))).relink pv nx).frameCursorPos =
              (afterPass b (passLength b (ftm + 1))).frameCursorPos := rfl
          have h3 : ((afterPass b (passLength b (ftm + 1))).relink pv nx).sizeInFrames =
              (afterPass b (passLength b (ftm + 1))).sizeInFrames := rfl
          rw [h1, h2, h3]
          split
          · rfl
          · rw [ih]

theorem mixBuffer_relink (sqrtf : α → α) (F : Nat) (b : audio_buffer α) (pv nx : Option Nat)
    (out : Nat → α) :
    mixBuffer sqrtf F (b.relink pv nx) out =
      (mixBuffer sqrtf F b out).map (fun r => (r.1.relink pv nx, r.2)) := by
  unfold mixBuffer
  have hd : (b.relink pv nx).data = b.data := rfl
  have hp : (b.relink pv nx).playing = b.playing := rfl
  have hq : (b.relink pv nx).paused = b.paused := rfl
  rw [hd, hp, hq]
  cases b.data with
  | none => rfl
  | some d =>
    simp only
    split
    · exact mixLoop_relink sqrtf F d pv nx F b F out
    · rfl

end Relink

section Traversal
variable {α : Type} [Field α]

theorem mixBuffer_sameConfig (sqrtf : α → α) (F : Nat) (b : audio_buffer α) (out : Nat → α)
    (b1 : audio_buffer α) (out1 : Nat → α)
    (h : mixBuffer sqrtf F b out = Except.ok (b1, out1)) : SameConfig b b1 := by
  unfold mixBuffer at h
  split at h
  · simp only [Except.ok.injEq, Prod.mk.injEq] at h
    rw [← h.1]; exact SameConfig.refl b
  · split at h
    · exact mixLoop_sameConfig sqrtf F _ _ _ _ _ _ _ h
    · simp only [Except.ok.injEq, Prod.mk.injEq] at h
      rw [← h.1]; exact SameConfig.refl b

/-- On a registry whose `next` links spell out `l`, the registry loop with
enough fuel is the fold over `l`. -/
theorem mixAll_eq_mixList (sqrtf : α → α) (F : Nat) :
    ∀ (l : List Nat) (fuel : Nat) (cur : Option Nat) (mem : Nat → audio_buffer α)
      (out : Nat → α),
      Seg (fun x => (mem x).next) cur l none → l.length ≤ fuel →
      mixAll sqrtf F fuel cur mem out = mixList sqrtf F l mem out := by
  intro l
  induction l with
  | nil =>
    intro fuel cur mem out hseg _
    have hc : cur = none := hseg
    rw [hc, mixAll_none]
    rfl
  | cons q l ih =>
    intro fuel cur mem out hseg hfuel
    obtain ⟨hc, hrest⟩ := hseg
    obtain ⟨fu, rfl⟩ : ∃ fu, fuel = fu + 1 := ⟨fuel - 1, by simp at hfuel; omega⟩
    rw [hc]
    simp only [mixAll, mixList]
    cases hq : mixBuffer sqrtf F (mem q) out with
    | error e => rfl
    | ok r =>
      obtain ⟨b1, o1⟩ := r
      simp only
      have hcfg := mixBuffer_sameConfig sqrtf F _ _ _ _ hq
      have hnext : b1.next = (mem q).next := hcfg.2.2.2.2.2.2.2.1
      rw [hnext]
      refine ih fu _ _ o1 ((Seg_congr l _ _ ?_).mp hrest) (by simp at hfuel; omega)
      intro x _
      by_cases hx : x = q
      · subst hx; simp [hnext]
      · simp [Function.update_noteq hx]

theorem mixList_append (sqrtf : α → α) (F : Nat) (l2 : List Nat) :
    ∀ (l1 : List Nat) (mem : Nat → audio_buffer α) (out : Nat → α),
      mixList sqrtf F (l1 ++ l2) mem out =
        match mixList sqrtf F l1 mem out with
        | Except.error e => Except.error e
        | Except.ok (m1, o1) => mixList sqrtf F l2 m1 o1 := by
  intro l1
  induction l1 with
  | nil => intro mem out; rfl
  | cons q l1 ih =>
    intro mem out
    simp only [List.cons_append, mixList]
    cases hq : mixBuffer sqrtf F (mem q) out with
    | error e => rfl
    | ok r =>
      obtain ⟨b1, o1⟩ := r
      exact ih _ _

theorem mixList_not_mem (sqrtf : α → α) (F : Nat) (x : Nat) :
    ∀ (l : List Nat) (mem : Nat → audio_buffer α) (out : Nat → α)
      (m1 : Nat → audio_buffer α) (o1 : Nat → α),
      x ∉ l → mixList sqrtf F l mem out = Except.ok (m1, o1) → m1 x = mem x := by
  intro l
  induction l with
  | nil =>
    intro mem out m1 o1 _ h
    simp only [mixList, Except.ok.injEq, Prod.mk.injEq] at h
    rw [← h.1]
  | cons q l ih =>
    intro mem out m1 o1 hx h
    simp only [mixList] at h
    cases hq : mixBuffer sqrtf F (mem q) out with
    | error e => simp [hq] at h
    | ok r =>
      obtain ⟨b1, o2⟩ := r
      simp only [hq] at h
      have hxq : x ≠ q := fun e => hx (by simp [e])
      have hxl : x ∉ l := fun e => hx (by simp [e])
      rw [ih _ _ _ _ hxl h, Function.update_noteq hxq]

/-- The output block (or the fault) of the fold depends on the memory only
through the buffers of `l`, and not through their list links. -/
theorem mixList_congr (sqrtf : α → α) (F : Nat) :
    ∀ (l : List Nat) (mem mem' : Nat → audio_buffer α) (out : Nat → α),
      (∀ x ∈ l, (mem x).clearLinks = (mem' x).clearLinks) →
      (mixList sqrtf F l mem out).map Prod.snd = (mixList sqrtf F l mem' out).map Prod.snd := by
  intro l
  induction l with
  | nil => intro mem mem' out _; rfl
  | cons q l ih =>
    intro mem mem' out h
    have hq := eq_relink_of_clearLinks (h q (List.mem_cons_self q l))
    simp only [mixList]
    rw [hq, mixBuffer_relink]
    cases hm : mixBuffer sqrtf F (mem q) out with
    | error e => rfl
    | ok r =>
      obtain ⟨b1, o1⟩ := r
      simp only [Except.map]
      refine ih _ _ o1 ?_
      intro x hx
      by_cases hxq : x = q
      · subst hxq
        simp only [Function.update_same]
        rfl
      · simp only [Function.update_noteq hxq]
        exact h x (List.mem_cons_of_mem q hx)

/-- A buffer that contributes nothing to any output block can be dropped from
the sequence without changing the output block (or the fault). -/
theorem mixList_skip (sqrtf : α → α) (F : Nat) (l1 l2 : List Nat) (p : Nat)
    (mem : Nat → audio_buffer α) (out : Nat → α) (hp1 : p ∉ l1) (hp2 : p ∉ l2)
    (hsilent : ∀ o, ∃ b1, mixBuffer sqrtf F (mem p) o = Except.ok (b1, o)) :
    (mixList sqrtf F (l1 ++ p :: l2) mem out).map Prod.snd =
      (mixList sqrtf F (l1 ++ l2) mem out).map Prod.snd := by
  rw [mixList_append, mixList_append]
  cases h1 : mixList sqrtf F l1 mem out with
  | error e => rfl
  | ok r =>
    obtain ⟨m1, o1⟩ := r
    simp only
    have hm1 : m1 p = mem p := mixList_not_mem sqrtf F p l1 mem out m1 o1 hp1 h1
    obtain ⟨b1, hb1⟩ := hsilent o1
    simp only [mixList, hm1, hb1]
    refine mixList_congr sqrtf F l2 _ _ o1 ?_
    intro x hx
    have hxp : x ≠ p := fun e => hp2 (e ▸ hx)
    rw [Function.update_noteq hxp]

end Traversal

section Stale
variable {α : Type} [Field α]

theorem mixLoop_stale (sqrtf : α → α) (F : Nat) (d : List α) :
    ∀ (fuel : Nat) (b : audio_buffer α) (ftm : Nat) (out : Nat → α),
      ftm ≤ fuel → b.isStreaming = true → b.isSubBufferProcessed = (true, true) →
      b.sizeInFrames / 2 ≠ 0 →
      ∃ b1, mixLoop sqrtf F d fuel b ftm out = Except.ok (b1, out) ∧
        b1.isSubBufferProcessed = (true, true) := by
  intro fuel
  induction fuel with
  | zero =>
    intro b ftm out hf _ hfl _
    have : ftm = 0 := by omega
    subst this
    exact ⟨b, rfl, hfl⟩
  | succ fuel ih =>
    intro b ftm out hf hst hfl hsub
    cases ftm with
    | zero => exact ⟨b, rfl, hfl⟩
    | succ ftm =>
      have hflag : b.flag (subIndex b) = true := by
        unfold audio_buffer.flag
        split <;> simp [hfl]
      have hpos := passLength_pos b (ftm + 1) hsub (by omega)
      have hbrk : ¬ ((!(afterPass b (passLength b (ftm + 1))).isStreaming &&
          decide ((afterPass b (passLength b (ftm + 1))).frameCursorPos ≥
            (afterPass b (passLength b (ftm + 1))).sizeInFrames)) = true) := by
        rw [afterPass_isStreaming, hst]; simp
      rw [mixLoop_succ, if_neg hsub, hflag]
      simp only [if_true, if_neg hbrk]
      exact ih _ _ out (by omega) (by rw [afterPass_isStreaming, hst])
        (afterPass_flags_true b _ hfl) (by rw [afterPass_sizeInFrames]; exact hsub)

theorem mixBuffer_stale (sqrtf : α → α) (F : Nat) (b : audio_buffer α) (out : Nat → α)
    (hst : b.isStreaming = true) (hfl : b.isSubBufferProcessed = (true, true))
    (hsz : 2 ≤ b.sizeInFrames) :
    ∃ b1, mixBuffer sqrtf F b out = Except.ok (b1, out) ∧
      b1.isSubBufferProcessed = (true, true) := by
  unfold mixBuffer
  split
  · exact ⟨b, rfl, hfl⟩
  · split
    · exact mixLoop_stale sqrtf F _ F b F out (Nat.le_refl F) hst hfl (by omega)
    · exact ⟨b, rfl, hfl⟩

theorem mixBuffer_flags_true (sqrtf : α → α) (F : Nat) (b : audio_buffer α) (out : Nat → α)
    (b1 : audio_buffer α) (out1 : Nat → α)
    (h : mixBuffer sqrtf F b out = Except.ok (b1, out1))
    (hfl : b.isSubBufferProcessed = (true, true)) :
    b1.isSubBufferProcessed = (true, true) := by
  unfold mixBuffer at h
  split at h
  · simp only [Except.ok.injEq, Prod.mk.injEq] at h
    rw [← h.1]; exact hfl
  · split at h
    · exact mixLoop_induction sqrtf F _ (fun b => b.isSubBufferProcessed = (true, true))
        (fun b => b.isSubBufferProcessed = (true, true)) (fun _ hb => hb)
        (fun b ftm hb _ _ => afterPass_flags_true b _ hb)
        (fun b ftm hb _ _ => afterPass_flags_true b _ hb) _ _ _ _ _ _ hfl h
    · simp only [Except.ok.injEq, Prod.mk.injEq] at h
      rw [← h.1]; exact hfl

theorem port_audio_callback_out (sqrtf : α → α) (fuel : Nat) (A : AudioData α)
    (outputBuffer : Nat → α) (F : Nat) :
    (port_audio_callback sqrtf fuel A outputBuffer F).map Prod.snd =
      ((mixAll sqrtf F fuel A.first A.mem
        (fun i => if i < F * AUDIO_DEVICE_CHANNELS then 0 else outputBuffer i)).map
          Prod.snd).map
        (fun o i => if i < F * AUDIO_DEVICE_CHANNELS then o i * A.masterVolume else o i) := by
  unfold port_audio_callback
  simp only
  cases mixAll sqrtf F fuel A.first A.mem
      (fun i => if i < F * AUDIO_DEVICE_CHANNELS then 0 else outputBuffer i) with
  | error e => rfl
  | ok r => rfl

/-- C2 (amended): on a well-formed registry, a streaming buffer with
`sizeInFrames >= 2` whose two `isSubBufferProcessed` flags are both true
(playing and unpaused or not, whatever its data) contributes nothing to a mix
cycle: the cycle yields the same output block, or the same fault, as the cycle
on the registry from which that buffer has been removed, and if the cycle
completes both flags of the buffer are still true. -/
theorem stale_streaming_silent (sqrtf : α → α) (A : AudioData α) (l : List Nat)
    (p fuel F : Nat) (outputBuffer : Nat → α)
    (hwf : WellFormed A l) (hp : p ∈ l) (hfuel : l.length ≤ fuel)
    (hst : (A.mem p).isStreaming = true)
    (hfl : (A.mem p).isSubBufferProcessed = (true, true))
    (hsz : 2 ≤ (A.mem p).sizeInFrames) :
    (port_audio_callback sqrtf fuel A outputBuffer F).map Prod.snd =
        (port_audio_callback sqrtf fuel (untrack_audio_buffer A (some p)) outputBuffer F).map
          Prod.snd ∧
      ∀ A1 out, port_audio_callback sqrtf fuel A outputBuffer F = Except.ok (A1, out) →
        (A1.mem p).isSubBufferProcessed = (true, true) := by
  constructor
  · obtain ⟨l1, l2, rfl⟩ := List.append_of_mem hp
    obtain ⟨hpv, hnx, hp1, hp2⟩ := wellFormed_links A l1 l2 p hwf
    have hbp : (A.mem p).prev ≠ some p := by
      rw [hpv]; intro hh; exact hp1 (List.mem_of_getLast?_eq_some hh)
    have hbn : (A.mem p).next ≠ some p := by
      rw [hnx]; intro hh; exact hp2 (List.mem_of_mem_head? hh)
    have hwf' := untrack_wellFormed A l1 l2 p hwf
    have hlen : (l1 ++ l2).length ≤ fuel := by
      simp only [List.length_append, List.length_cons] at hfuel ⊢
      omega
    rw [port_audio_callback_out, port_audio_callback_out, untrack_masterVolume,
      mixAll_eq_mixList sqrtf F _ fuel _ _ _ hwf.2.1 hfuel,
      mixAll_eq_mixList sqrtf F _ fuel _ _ _ hwf'.2.1 hlen,
      mixList_skip sqrtf F l1 l2 p A.mem _ hp1 hp2
        (fun o => (mixBuffer_stale sqrtf F (A.mem p) o hst hfl hsz).imp fun _ h => h.1)]
    congr 1
    refine mixList_congr sqrtf F (l1 ++ l2) _ _ _ ?_
    intro x hx
    have hxp : x ≠ p := by
      rintro rfl
      rcases List.mem_append.mp hx with h | h
      · exact hp1 h
      · exact hp2 h
    rw [untrack_mem A p x hxp hbp hbn]
    split <;> rfl
  · intro A1 out h
    exact port_audio_callback_preserves sqrtf F
      (fun b => b.isSubBufferProcessed = (true, true))
      (fun b o b1 o1 hb hI => mixBuffer_flags_true sqrtf F b o b1 o1 hb hI)
      fuel A A1 outputBuffer out h p hfl

/-- C2 (counterexample): a streaming buffer created by
`load_audio_buffer(2, 1, 1)` and played is playing, unpaused, with both flags
true; a mix cycle of one frame divides by `subBufferSizeFrames = 0` and yields
no output block, while the cycle on the registry without that buffer completes.
The two results differ. -/
theorem stale_streaming_tiny_faults :
    ∃ A1 : AudioData ℚ,
      load_audio_buffer emptySession (some 5) true 2 1 1 = Except.ok (A1, some 5) ∧
      WellFormed (play_audio_buffer A1 (some 5)) [5] ∧
      ((play_audio_buffer A1 (some 5)).mem 5).isStreaming = true ∧
      ((play_audio_buffer A1 (some 5)).mem 5).playing = true ∧
      ((play_audio_buffer A1 (some 5)).mem 5).paused = false ∧
      ((play_audio_buffer A1 (some 5)).mem 5).isSubBufferProcessed = (true, true) ∧
      port_audio_callback id 1 (play_audio_buffer A1 (some 5)) (fun _ => 0) 1
        = Except.error Fault.divByZero ∧
      (∃ r, port_audio_callback id 1
          (untrack_audio_buffer (play_audio_buffer A1 (some 5)) (some 5)) (fun _ => 0) 1
        = Except.ok r) ∧
      (port_audio_callback id 1 (play_audio_buffer A1 (some 5)) (fun _ => 0) 1).map Prod.snd ≠
        (port_audio_callback id 1
          (untrack_audio_buffer (play_audio_buffer A1 (some 5)) (some 5))
          (fun _ => 0) 1).map Prod.snd := by
  refine ⟨_, rfl, by decide, rfl, rfl, rfl, rfl, rfl, ⟨_, rfl⟩, ?_⟩
  intro h
  exact Except.noConfusion h

/-- C2 (amended) at the registry `5 <-> 6` of `exampleMix`, whose buffer 6 is a
stale streaming buffer of four frames: a cycle of 4 frames gives the same
output block as without buffer 6. -/
theorem stale_streaming_silent_witness :
    (port_audio_callback id 2 exampleMix (fun _ => 0) 4).map Prod.snd =
        (port_audio_callback id 2 (untrack_audio_buffer exampleMix (some 6))
          (fun _ => 0) 4).map Prod.snd ∧
      ∀ A1 out, port_audio_callback id 2 exampleMix (fun _ => 0) 4 = Except.ok (A1, out) →
        (A1.mem 6).isSubBufferProcessed = (true, true) :=
  stale_streaming_silent id exampleMix [5, 6] 6 2 4 (fun _ => 0) (by decide) (by decide)
    (by decide) rfl rfl (by decide)

end Stale

section MasterVolume
variable {α : Type} [Field α]

/-- C11: for every session state, block size and master volume `m`, the mix
cycle run with master volume `m` is the cycle run with master volume 1 with
every sample of the output block multiplied by `m`: same fault if the cycle
faults, same memory (so the post-cycle state of every buffer does not depend on
`m`), same `first` and `last`. -/
theorem master_volume_scales (sqrtf : α → α) (fuel : Nat) (A : AudioData α)
    (outputBuffer : Nat → α) (F : Nat) (m : α) :
    port_audio_callback sqrtf fuel { A with masterVolume := m } outputBuffer F =
      (port_audio_callback sqrtf fuel { A with masterVolume := 1 } outputBuffer F).map
        (fun r => ({ r.1 with masterVolume := m },
          fun i => if i < F * AUDIO_DEVICE_CHANNELS then m * r.2 i else r.2 i)) := by
  unfold port_audio_callback
  simp only
  cases mixAll sqrtf F fuel A.first A.mem
      (fun i => if i < F * AUDIO_DEVICE_CHANNELS then 0 else outputBuffer i) with
  | error e => rfl
  | ok r =>
    obtain ⟨mem1, o1⟩ := r
    simp only [Except.map, Except.ok.injEq, Prod.mk.injEq, true_and]
    funext i
    by_cases hi : i < F * AUDIO_DEVICE_CHANNELS
    · simp only [hi, if_true, mul_one]
      exact mul_comm _ _
    · simp only [hi, if_false]

end MasterVolume

section SkippedLinks
variable {α : Type}

theorem untrack_clearLinks (A : AudioData α) (l1 l2 : List Nat) (p : Nat)
    (hwf : WellFormed A (l1 ++ p :: l2)) (x : Nat) :
    (A.mem x).clearLinks = ((untrack_audio_buffer A (some p)).mem x).clearLinks := by
  obtain ⟨hpv, hnx, hp1, hp2⟩ := wellFormed_links A l1 l2 p hwf
  have hbp : (A.mem p).prev ≠ some p := by
    rw [hpv]; intro hh; exact hp1 (List.mem_of_getLast?_eq_some hh)
  have hbn : (A.mem p).next ≠ some p := by
    rw [hnx]; intro hh; exact hp2 (List.mem_of_mem_head? hh)
  by_cases hx : x = p
  · subst hx
    rw [untrack_mem_self A x hbp hbn]
    rfl
  · rw [untrack_mem A p x hx hbp hbn]
    split <;> rfl

end SkippedLinks

section Skipped
variable {α : Type} [Field α]

theorem mixBuffer_skipped (sqrtf : α → α) (F : Nat) (b : audio_buffer α) (out : Nat → α)
    (h : b.playing = false ∨ b.paused = true ∨ b.data = none) :
    mixBuffer sqrtf F b out = Except.ok (b, out) := by
  unfold mixBuffer
  rcases h with h | h | h
  · cases b.data <;> simp [h]
  · cases b.data <;> simp [h]
  · rw [h]

/-- The result of the fold, seen up to list links, depends on the memory only
up to list links. -/
theorem mixList_congr_view (sqrtf : α → α) (F : Nat) :
    ∀ (l : List Nat) (mem mem' : Nat → audio_buffer α) (out : Nat → α),
      (∀ x, (mem x).clearLinks = (mem' x).clearLinks) →
      (mixList sqrtf F l mem out).map (fun r => (fun x => (r.1 x).clearLinks, r.2)) =
        (mixList sqrtf F l mem' out).map (fun r => (fun x => (r.1 x).clearLinks, r.2)) := by
  intro l
  induction l with
  | nil =>
    intro mem mem' out h
    simp only [mixList, Except.map, Except.ok.injEq, Prod.mk.injEq, and_true]
    funext x
    exact h x
  | cons q l ih =>
    intro mem mem' out h
    have hq := eq_relink_of_clearLinks (h q)
    simp only [mixList]
    rw [hq, mixBuffer_relink]
    cases hm : mixBuffer sqrtf F (mem q) out with
    | error e => rfl
    | ok r =>
      obtain ⟨b1, o1⟩ := r
      simp only [Except.map]
      refine ih _ _ o1 ?_
      intro x
      by_cases hxq : x = q
      · subst hxq
        simp only [Function.update_same]
        rfl
      · simp only [Function.update_noteq hxq]
        exact h x

theorem mixList_drop_unchanged (sqrtf : α → α) (F : Nat) (l1 l2 : List Nat) (p : Nat)
    (mem : Nat → audio_buffer α) (out : Nat → α) (hp1 : p ∉ l1)
    (hskip : ∀ o, mixBuffer sqrtf F (mem p) o = Except.ok (mem p, o)) :
    mixList sqrtf F (l1 ++ p :: l2) mem out = mixList sqrtf F (l1 ++ l2) mem out := by
  rw [mixList_append, mixList_append]
  cases h1 : mixList sqrtf F l1 mem out with
  | error e => rfl
  | ok r =>
    obtain ⟨m1, o1⟩ := r
    simp only
    have hm1 : m1 p = mem p := mixList_not_mem sqrtf F p l1 mem out m1 o1 hp1 h1
    simp only [mixList, hm1, hskip]
    rw [← hm1, Function.update_eq_self]

theorem port_audio_callback_view (sqrtf : α → α) (fuel : Nat) (A : AudioData α)
    (outputBuffer : Nat → α) (F : Nat) :
    (port_audio_callback sqrtf fuel A outputBuffer F).map
        (fun r => (fun x => (r.1.mem x).clearLinks, r.2)) =
      ((mixAll sqrtf F fuel A.first A.mem
        (fun i => if i < F * AUDIO_DEVICE_CHANNELS then 0 else outputBuffer i)).map
          (fun r => (fun x => (r.1 x).clearLinks, r.2))).map
        (fun r => (r.1,
          fun i => if i < F * AUDIO_DEVICE_CHANNELS then r.2 i * A.masterVolume else r.2 i)) := by
  unfold port_audio_callback
  simp only
  cases mixAll sqrtf F fuel A.first A.mem
      (fun i => if i < F * AUDIO_DEVICE_CHANNELS then 0 else outputBuffer i) with
  | error e => rfl
  | ok r => rfl

/-- C12: on a well-formed registry, a registered buffer that is not playing,
or is paused, or has a null data pointer is passed over by a mix cycle: the
cycle leaves every field of that buffer as it was, and it yields the same
output block (or the same fault) and the same post-cycle state of every buffer
(list links aside, which the removal itself changes) as the cycle on the
registry from which the buffer has been removed. -/
theorem skipped_buffer_frame (sqrtf : α → α) (A : AudioData α) (l : List Nat)
    (p fuel F : Nat) (outputBuffer : Nat → α)
    (hwf : WellFormed A l) (hp : p ∈ l) (hfuel : l.length ≤ fuel)
    (hskip : (A.mem p).playing = false ∨ (A.mem p).paused = true ∨ (A.mem p).data = none) :
    (∀ A1 out, port_audio_callback sqrtf fuel A outputBuffer F = Except.ok (A1, out) →
        A1.mem p = A.mem p) ∧
      (port_audio_callback sqrtf fuel A outputBuffer F).map
          (fun r => (fun x => (r.1.mem x).clearLinks, r.2)) =
        (port_audio_callback sqrtf fuel (untrack_audio_buffer A (some p)) outputBuffer F).map
          (fun r => (fun x => (r.1.mem x).clearLinks, r.2)) := by
  constructor
  · intro A1 out h
    refine port_audio_callback_preserves sqrtf F (fun b => b = A.mem p) ?_
      fuel A A1 outputBuffer out h p rfl
    intro b o b1 o1 hb hb0
    subst hb0
    rw [mixBuffer_skipped sqrtf F _ o hskip] at hb
    simp only [Except.ok.injEq, Prod.mk.injEq] at hb
    exact hb.1.symm
  · obtain ⟨l1, l2, rfl⟩ := List.append_of_mem hp
    obtain ⟨-, -, hp1, -⟩ := wellFormed_links A l1 l2 p hwf
    have hwf' := untrack_wellFormed A l1 l2 p hwf
    have hlen : (l1 ++ l2).length ≤ fuel := by
      simp only [List.length_append, List.length_cons] at hfuel ⊢
      omega
    rw [port_audio_callback_view, port_audio_callback_view, untrack_masterVolume,
      mixAll_eq_mixList sqrtf F _ fuel _ _ _ hwf.2.1 hfuel,
      mixAll_eq_mixList sqrtf F _ fuel _ _ _ hwf'.2.1 hlen,
      mixList_drop_unchanged sqrtf F l1 l2 p A.mem _ hp1
        (fun o => mixBuffer_skipped sqrtf F (A.mem p) o hskip)]
    congr 1
    exact mixList_congr_view sqrtf F (l1 ++ l2) _ _ _ (untrack_clearLinks A l1 l2 p hwf)

/-- C12 at the registry `5 <-> 6` of `exampleMix` with buffer 6 paused. -/
theorem skipped_buffer_frame_witness :
    (∀ A1 out,
        port_audio_callback id 2 (pause_audio_buffer exampleMix (some 6)) (fun _ => 0) 4
          = Except.ok (A1, out) →
        A1.mem 6 = (pause_audio_buffer exampleMix (some 6)).mem 6) ∧
      (port_audio_callback id 2 (pause_audio_buffer exampleMix (some 6)) (fun _ => 0) 4).map
          (fun r => (fun x => (r.1.mem x).clearLinks, r.2)) =
        (port_audio_callback id 2
          (untrack_audio_buffer (pause_audio_buffer exampleMix (some 6)) (some 6))
          (fun _ => 0) 4).map
          (fun r => (fun x => (r.1.mem x).clearLinks, r.2)) :=
  skipped_buffer_frame id (pause_audio_buffer exampleMix (some 6)) [5, 6] 6 2 4 (fun _ => 0)
    (by decide) (by decide) (by decide) (Or.inr (Or.inl rfl))

end Skipped

section Additive
variable {α : Type} [Field α]

theorem mixFrame_add (sqrtf : α → α) (b : audio_buffer α) (d : List α) (F ftm i : Nat)
    (o1 o2 : Nat → α) :
    mixFrame sqrtf b d F ftm i (fun j => o1 j + o2 j) =
      (mixFrame sqrtf b d F ftm i o2).map (fun o j => o1 j + o j) := by
  unfold mixFrame
  simp only
  split
  · simp only [Except.map, Except.ok.injEq]
    funext j
    by_cases h1 : j = (F - ftm + i) * AUDIO_DEVICE_CHANNELS + 1
    · subst h1
      simp only [Function.update_same]
      have hne : (F - ftm + i) * AUDIO_DEVICE_CHANNELS + 1 ≠ (F - ftm + i) * AUDIO_DEVICE_CHANNELS :=
        by omega
      simp only [Function.update_noteq hne]
      exact add_assoc _ _ _
    · simp only [Function.update_noteq h1]
      by_cases h0 : j = (F - ftm + i) * AUDIO_DEVICE_CHANNELS
      · subst h0
        simp only [Function.update_same]
        exact add_assoc _ _ _
      · simp only [Function.update_noteq h0]
  · rfl

theorem mixFrames_add (sqrtf : α → α) (b : audio_buffer α) (d : List α) (F ftm : Nat) :
    ∀ (k : Nat) (o1 o2 : Nat → α),
      mixFrames sqrtf b d F ftm k (fun j => o1 j + o2 j) =
        (mixFrames sqrtf b d F ftm k o2).map (fun o j => o1 j + o j) := by
  intro k
  induction k with
  | zero => intro o1 o2; rfl
  | succ k ih =>
    intro o1 o2
    simp only [mixFrames, ih]
    cases mixFrames sqrtf b d F ftm k o2 with
    | error e => rfl
    | ok o => exact mixFrame_add sqrtf b d F ftm k o1 o

theorem mixLoop_add (sqrtf : α → α) (F : Nat) (d : List α) :
    ∀ (fuel : Nat) (b : audio_buffer α) (ftm : Nat) (o1 o2 : Nat → α),
      mixLoop sqrtf F d fuel b ftm (fun j => o1 j + o2 j) =
        (mixLoop sqrtf F d fuel b ftm o2).map (fun r => (r.1, fun j => o1 j + r.2 j)) := by
  intro fuel
  induction fuel with
  | zero =>
    intro b ftm o1 o2
    cases ftm <;> rfl
  | succ fuel ih =>
    intro b ftm o1 o2
    cases ftm with
    | zero => rfl
    | succ ftm =>
      rw [mixLoop_succ, mixLoop_succ]
      split
      · rfl
      · by_cases hfl : b.flag (subIndex b) = true
        · simp only [hfl, if_true]
          split
          · rfl
          · exact ih _ _ _ _
        · simp only [hfl, if_false, Bool.false_eq_true, mixFrames_add]
          cases mixFrames sqrtf b d F (ftm + 1) (passLength b (ftm + 1)) o2 with
          | error e => rfl
          | ok o =>
            simp only [Except.map]
            split
            · rfl
            · exact ih _ _ _ _

theorem mixBuffer_add (sqrtf : α → α) (F : Nat) (b : audio_buffer α) (o1 o2 : Nat → α) :
    mixBuffer sqrtf F b (fun j => o1 j + o2 j) =
      (mixBuffer sqrtf F b o2).map (fun r => (r.1, fun j => o1 j + r.2 j)) := by
  unfold mixBuffer
  split
  · rfl
  · split
    · exact mixLoop_add sqrtf F _ F b F o1 o2
    · rfl

/-- What a buffer does in a cycle does not depend on the output block it is
mixed into: it adds its own contribution to whatever is there. -/
theorem mixBuffer_contribution (sqrtf : α → α) (F : Nat) (b : audio_buffer α) (out : Nat → α) :
    mixBuffer sqrtf F b out =
      (mixBuffer sqrtf F b (fun _ => 0)).map (fun r => (r.1, fun j => out j + r.2 j)) := by
  have h := mixBuffer_add sqrtf F b out (fun _ => 0)
  simp only [add_zero] at h
  exact h

end Additive

section Outcome
variable {β : Type}

theorem SameOutcome.rfl_of_eq {r1 r2 : Except Fault β} (h : r1 = r2) : SameOutcome r1 r2 := by
  subst h
  cases r1 <;> simp [SameOutcome]

theorem SameOutcome.chain {r1 r2 r3 : Except Fault β} (h1 : SameOutcome r1 r2)
    (h2 : SameOutcome r2 r3) : SameOutcome r1 r3 := by
  cases r1 <;> cases r2 <;> cases r3 <;> simp_all [SameOutcome]

theorem SameOutcome.map {γ : Type} (f : β → γ) {r1 r2 : Except Fault β}
    (h : SameOutcome r1 r2) : SameOutcome (r1.map f) (r2.map f) := by
  cases r1 <;> cases r2 <;> simp_all [SameOutcome, Except.map]

end Outcome

section Order
variable {α : Type} [Field α]

theorem mixList_swap (sqrtf : α → α) (F : Nat) (x y : Nat) (hxy : x ≠ y) (l : List Nat)
    (mem : Nat → audio_buffer α) (out : Nat → α) :
    SameOutcome (mixList sqrtf F (y :: x :: l) mem out)
      (mixList sqrtf F (x :: y :: l) mem out) := by
  simp only [mixList]
  rw [mixBuffer_contribution sqrtf F (mem y) out, mixBuffer_contribution sqrtf F (mem x) out]
  cases hx : mixBuffer sqrtf F (mem x) (fun _ => 0) with
  | error ex =>
    cases hy : mixBuffer sqrtf F (mem y) (fun _ => 0) with
    | error ey => simp [SameOutcome, Except.map]
    | ok ry =>
      obtain ⟨by1, cy⟩ := ry
      simp only [Except.map, Function.update_noteq hxy]
      rw [mixBuffer_contribution, hx]
      simp [SameOutcome, Except.map]
  | ok rx =>
    obtain ⟨bx1, cx⟩ := rx
    cases hy : mixBuffer sqrtf F (mem y) (fun _ => 0) with
    | error ey =>
      simp only [Except.map, Function.update_noteq hxy.symm]
      rw [mixBuffer_contribution, hy]
      simp [SameOutcome, Except.map]
    | ok ry =>
      obtain ⟨by1, cy⟩ := ry
      simp only [Except.map, Function.update_noteq hxy, Function.update_noteq hxy.symm]
      rw [mixBuffer_contribution sqrtf F (mem x), hx, mixBuffer_contribution sqrtf F (mem y), hy]
      simp only [Except.map]
      refine SameOutcome.rfl_of_eq ?_
      have hm : Function.update (Function.update mem y by1) x bx1 =
          Function.update (Function.update mem x bx1) y by1 :=
        (Function.update_comm hxy bx1 by1 mem).symm
      have ho : (fun j => out j + cy j + cx j) = (fun j => out j + cx j + cy j) := by
        funext j
        exact add_right_comm _ _ _
      rw [hm, ho]

/-- Mixing is insensitive to the order in which distinct buffers are visited:
either both orders fault or both give the same memory and output block. -/
theorem mixList_perm (sqrtf : α → α) (F : Nat) {l l' : List Nat} (hperm : l.Perm l') :
    l.Nodup → ∀ (mem : Nat → audio_buffer α) (out : Nat → α),
      SameOutcome (mixList sqrtf F l mem out) (mixList sqrtf F l' mem out) := by
  induction hperm with
  | nil => intro _ mem out; exact SameOutcome.rfl_of_eq rfl
  | cons x _ ih =>
    intro hnd mem out
    simp only [mixList]
    cases mixBuffer sqrtf F (mem x) out with
    | error e => simp [SameOutcome]
    | ok r =>
      obtain ⟨b1, o1⟩ := r
      exact ih (List.nodup_cons.mp hnd).2 _ _
  | swap x y l =>
    intro hnd mem out
    have hxy : x ≠ y := by
      intro h
      have := (List.nodup_cons.mp hnd).1
      exact this (by simp [h])
    exact mixList_swap sqrtf F x y hxy l mem out
  | trans h1 _ ih1 ih2 =>
    intro hnd mem out
    exact SameOutcome.chain (ih1 hnd mem out) (ih2 ((List.Perm.nodup_iff h1).mp hnd) mem out)

end Order

section OrderClaim
variable {α : Type} [Field α]

/-- C13: two well-formed registries holding the same distinct buffers (same
addresses, same buffer states, list links aside) in any two orders, with the
same master volume: a mix cycle either faults on both or completes on both
with the same output block and the same post-cycle state of every buffer. -/
theorem mix_order_independent (sqrtf : α → α) (A B : AudioData α) (l l' : List Nat)
    (fuel F : Nat) (outputBuffer : Nat → α)
    (hA : WellFormed A l) (hB : WellFormed B l') (hperm : l.Perm l')
    (hstate : ∀ x, (A.mem x).clearLinks = (B.mem x).clearLinks)
    (hmv : A.masterVolume = B.masterVolume) (hfuel : l.length ≤ fuel) :
    SameOutcome
      ((port_audio_callback sqrtf fuel A outputBuffer F).map
        (fun r => (fun x => (r.1.mem x).clearLinks, r.2)))
      ((port_audio_callback sqrtf fuel B outputBuffer F).map
        (fun r => (fun x => (r.1.mem x).clearLinks, r.2))) := by
  have hlen : l'.length ≤ fuel := by rw [← hperm.length_eq]; exact hfuel
  rw [port_audio_callback_view, port_audio_callback_view, hmv,
    mixAll_eq_mixList sqrtf F _ fuel _ _ _ hA.2.1 hfuel,
    mixAll_eq_mixList sqrtf F _ fuel _ _ _ hB.2.1 hlen]
  refine SameOutcome.map _ ?_
  refine SameOutcome.chain (SameOutcome.map _ (mixList_perm sqrtf F hperm hA.1 A.mem _)) ?_
  exact SameOutcome.rfl_of_eq (mixList_congr_view sqrtf F l' _ _ _ hstate)

/-- C13 at the registries `5 <-> 6` and `6 <-> 5` over the same two buffers. -/
theorem mix_order_independent_witness :
    SameOutcome
      ((port_audio_callback id 2 exampleMix (fun _ => 0) 4).map
        (fun r => (fun x => (r.1.mem x).clearLinks, r.2)))
      ((port_audio_callback id 2 exampleMixRev (fun _ => 0) 4).map
        (fun r => (fun x => (r.1.mem x).clearLinks, r.2))) :=
  mix_order_independent id exampleMix exampleMixRev [5, 6] [6, 5] 2 4 (fun _ => 0)
    (by decide) (by decide) (List.Perm.swap 6 5 [])
    (fun x => by
      unfold exampleMix exampleMixRev
      simp only
      split_ifs <;> rfl)
    rfl (by decide)

end OrderClaim

/-! ## Pan law and pan control -/

section Pan

end Pan

section PanControl
variable {β : Type} [LinearOrderedField β]

/-- C15 (amended): for every buffer and every requested pan that is a number
`x` (not NaN), after `set_audio_buffer_pan` the buffer's pan is the number
`min (max x 0) 1`, which lies in `[0, 1]`; and for every requested pan, NaN
included, every other field of the buffer, every other buffer, the registry
head and tail and the master volume are as before, and a `NULL` buffer is
ignored. -/
theorem set_audio_buffer_pan_clamps (A : AudioData (cfloat β)) (p : Nat) (x : β)
    (pan : cfloat β) :
    ((set_audio_buffer_pan A (some p) (cfloat.num x)).mem p).pan =
        cfloat.num (min (max x 0) 1) ∧
      cfloat.inUnit ((set_audio_buffer_pan A (some p) (cfloat.num x)).mem p).pan ∧
      (set_audio_buffer_pan A (some p) pan).mem p =
        { A.mem p with pan := ((set_audio_buffer_pan A (some p) pan).mem p).pan } ∧
      (∀ y, y ≠ p → (set_audio_buffer_pan A (some p) pan).mem y = A.mem y) ∧
      (set_audio_buffer_pan A (some p) pan).first = A.first ∧
      (set_audio_buffer_pan A (some p) pan).last = A.last ∧
      (set_audio_buffer_pan A (some p) pan).masterVolume = A.masterVolume ∧
      set_audio_buffer_pan A none pan = A := by
  have hc : (if cfloat.lt (cfloat.num x) (cfloat.num 0) then (cfloat.num 0 : cfloat β)
      else if cfloat.lt (cfloat.num 1) (cfloat.num x) then cfloat.num 1
      else cfloat.num x) = cfloat.num (min (max x 0) 1) := by
    simp only [cfloat.lt, decide_eq_true_eq]
    split_ifs with h1 h2
    · rw [max_eq_right h1.le, min_eq_left zero_le_one]
    · rw [max_eq_left (not_lt.mp h1), min_eq_right h2.le]
    · rw [max_eq_left (not_lt.mp h1), min_eq_left (not_lt.mp h2)]
  have hm : ((set_audio_buffer_pan A (some p) (cfloat.num x)).mem p).pan =
      cfloat.num (min (max x 0) 1) := by
    simp only [set_audio_buffer_pan, onBuffer, Function.update_same, hc]
  refine ⟨hm, ?_, ?_, ?_, rfl, rfl, rfl, rfl⟩
  · rw [hm]
    exact ⟨le_min (le_max_right _ _) zero_le_one, min_le_right _ _⟩
  · simp only [set_audio_buffer_pan, onBuffer, Function.update_same]
  · intro y hy
    simp only [set_audio_buffer_pan, onBuffer, Function.update_noteq hy]

/-- C15 (counterexample): `set_audio_buffer_pan` called with NaN: both
comparisons `pan < 0.0f` and `pan > 1.0f` are false, NaN is stored, and the
stored pan does not lie in `[0, 1]`. -/
theorem set_audio_buffer_pan_stores_nan :
    cfloat.lt (cfloat.nan : cfloat ℚ) (cfloat.num 0) = false ∧
      cfloat.lt (cfloat.num 1) (cfloat.nan : cfloat ℚ) = false ∧
      ((set_audio_buffer_pan panSession (some 5) cfloat.nan).mem 5).pan = cfloat.nan ∧
      ¬ cfloat.inUnit ((set_audio_buffer_pan panSession (some 5) cfloat.nan).mem 5).pan :=
  ⟨rfl, rfl, rfl, fun h => h⟩

end PanControl

/-! ## Streams -/

section StreamUpdate

/-- C16 (failing input): a static buffer of 4 frames created by
`load_audio_buffer(AUDIO_DEVICE_CHANNELS, 4, 0)` has `4 * 2` samples.  After
`update_audio_stream` with `frame_count = 6` the allocation still has 8 samples
while `sizeInFrames` is 6, and the mix cycle of the played buffer reads outside
the allocation; after `update_audio_stream` with `frame_count = 2` the
allocation still has 8 samples while `sizeInFrames` is 2. -/
theorem update_audio_stream_breaks_size :
    ∃ A0 A1 A2 : AudioData ℚ,
      load_audio_buffer emptySession (some 5) true AUDIO_DEVICE_CHANNELS 4 0
        = Except.ok (A0, some 5) ∧
      (A0.mem 5).data.map List.length = some ((A0.mem 5).sizeInFrames * AUDIO_DEVICE_CHANNELS) ∧
      update_audio_stream A0 exampleStream (some (fun _ => 1)) 6 = Except.ok A1 ∧
      (A1.mem 5).sizeInFrames = 6 ∧
      (A1.mem 5).data.map List.length = some 8 ∧
      (A1.mem 5).data.map List.length ≠ some ((A1.mem 5).sizeInFrames * AUDIO_DEVICE_CHANNELS) ∧
      port_audio_callback id 1 (play_audio_buffer A1 (some 5)) (fun _ => 0) 6
        = Except.error Fault.outOfBounds ∧
      update_audio_stream A0 exampleStream (some (fun _ => 1)) 2 = Except.ok A2 ∧
      (A2.mem 5).sizeInFrames = 2 ∧
      (A2.mem 5).data.map List.length = some 8 := by
  refine ⟨_, _, _, rfl, ?_, rfl, ?_, ?_, ?_, rfl, rfl, ?_, ?_⟩ <;> decide

end StreamUpdate

/-! ## Music refill -/

section RefillBugs

/-- C17 (failing input): a three-channel music at the device rate, ring of 4
frames (sub-buffers of 2 frames, 4 floats each) with sub-buffer 0 stale and
sub-buffer 1 fresh, decoder delivering the 2 frames asked for.  The `memcpy`
of `2 * 3` floats overwrites the first two samples of the fresh sub-buffer 1.
With both sub-buffers stale the second `memcpy` starts at float 4 and leaves
the 8-float data region. -/
theorem refill_surround_spills :
    (ringSession.mem 5).flag 1 = false ∧
      (ringSession.mem 5).data = some [9, 9, 9, 9, 9, 9, 9, 9] ∧
      (∃ A1, update_music_stream fullDecoder noResampler ringSession (exampleMusic 3)
          = Except.ok A1 ∧
        (A1.mem 5).data = some [1, 2, 3, 4, 5, 6, 9, 9]) ∧
      ((stop_audio_buffer ringSession (some 5)).mem 5).isSubBufferProcessed = (true, true) ∧
      update_music_stream fullDecoder noResampler (stop_audio_buffer ringSession (some 5))
        (exampleMusic 3) = Except.error Fault.outOfBounds := by
  refine ⟨by decide, by decide, ⟨_, rfl, by decide⟩, by decide, rfl⟩

/-- C19 (failing input): a mono music with a resampler, ring of 4 frames with
sub-buffer 0 stale, resampler delivering the two mono samples 1 and 2.  The
two samples are stored side by side: frame 0 of the sub-buffer is `(1, 2)`,
and frame 1 keeps the old content `(9, 9)`, instead of frames `(1, 1)` and
`(2, 2)`. -/
theorem refill_mono_resampled_not_duplicated :
    (monoResampler 0 (fullDecoder 0 2).2 2 2 = (2, [1, 2])) ∧
      ∃ A1, update_music_stream fullDecoder monoResampler ringSession exampleMonoResampled
          = Except.ok A1 ∧
        (A1.mem 5).data = some [1, 2, 9, 9, 9, 9, 9, 9] ∧
        (A1.mem 5).isSubBufferProcessed = (false, false) := by
  refine ⟨by decide, _, rfl, by decide, by decide⟩

end RefillBugs

section MonoCopy
variable {α : Type}

theorem storeAt_length (d : List α) (i : Nat) (v : α) (d' : List α)
    (h : storeAt d i v = Except.ok d') : d'.length = d.length := by
  unfold storeAt at h
  split at h
  · simp only [Except.ok.injEq] at h
    rw [← h]
    simp
  · exact Except.noConfusion h

theorem monoCopy_length (input_ptr : Nat → α) (off : Nat) :
    ∀ (k : Nat) (d d' : List α), monoCopy input_ptr off k d = Except.ok d' →
      d'.length = d.length := by
  intro k
  induction k with
  | zero =>
    intro d d' h
    simp only [monoCopy, Except.ok.injEq] at h
    rw [← h]
  | succ k ih =>
    intro d d' h
    simp only [monoCopy] at h
    cases h1 : monoCopy input_ptr off k d with
    | error e => rw [h1] at h; exact Except.noConfusion h
    | ok d1 =>
      rw [h1] at h
      simp only at h
      cases h2 : storeAt d1 ((off + k * 2) % UINT_RANGE) (input_ptr k) with
      | error e => rw [h2] at h; exact Except.noConfusion h
      | ok d2 =>
        rw [h2] at h
        simp only at h
        rw [storeAt_length _ _ _ _ h, storeAt_length _ _ _ _ h2, ih d d1 h1]

theorem monoCopy_ok (input_ptr : Nat → α) (off : Nat) :
    ∀ (k : Nat) (d : List α), off + 2 * k ≤ d.length → off + 2 * k ≤ UINT_RANGE →
      ∃ d', monoCopy input_ptr off k d = Except.ok d' := by
  intro k
  induction k with
  | zero =>
    intro d _ _
    exact ⟨d, rfl⟩
  | succ k ih =>
    intro d hd hr
    obtain ⟨d1, h1⟩ := ih d (by omega) (by omega)
    have hl1 := monoCopy_length input_ptr off k d d1 h1
    have e1 : (off + k * 2) % UINT_RANGE = off + k * 2 := Nat.mod_eq_of_lt (by omega)
    have e2 : (off + k * 2 + 1) % UINT_RANGE = off + k * 2 + 1 := Nat.mod_eq_of_lt (by omega)
    simp only [monoCopy, h1, e1, e2]
    have hs1 : storeAt d1 (off + k * 2) (input_ptr k) =
        Except.ok (d1.set (off + k * 2) (input_ptr k)) := by
      unfold storeAt
      rw [if_pos (by omega)]
    rw [hs1]
    simp only
    unfold storeAt
    rw [if_pos (by simp; omega)]
    exact ⟨_, rfl⟩

end MonoCopy

section BlockWrite
variable {α : Type} [Field α]

theorem writeAt_length (d : List α) (off : Nat) (src : Nat → α) (n : Nat) (d' : List α)
    (h : writeAt d off src n = Except.ok d') : d'.length = d.length := by
  unfold writeAt at h
  split at h
  · simp only [Except.ok.injEq] at h
    rw [← h]
  · split at h
    · simp only [Except.ok.injEq] at h
      rw [← h]
      simp
    · exact Except.noConfusion h

theorem writeAt_inside (d : List α) (off : Nat) (src : Nat → α) (n : Nat) (d' : List α)
    (h : writeAt d off src n = Except.ok d') (t : Nat) (h1 : off ≤ t) (h2 : t < off + n) :
    d'[t]? = some (src (t - off)) := by
  unfold writeAt at h
  split at h
  · omega
  · split at h
    · simp only [Except.ok.injEq] at h
      rw [← h, List.getElem?_map, List.getElem?_range (by omega)]
      simp [h1, h2]
    · exact Except.noConfusion h

theorem writeAt_outside (d : List α) (off : Nat) (src : Nat → α) (n : Nat) (d' : List α)
    (h : writeAt d off src n = Except.ok d') (t : Nat) (ht : t < off ∨ off + n ≤ t) :
    d'[t]? = d[t]? := by
  unfold writeAt at h
  split at h
  · simp only [Except.ok.injEq] at h
    rw [← h]
  · split at h
    · simp only [Except.ok.injEq] at h
      rw [← h, List.getElem?_map]
      by_cases hl : t < d.length
      · rw [List.getElem?_range hl, getElem?_eq_some_getD d t hl]
        have : ¬ (off ≤ t ∧ t < off + n) := by omega
        simp [this]
      · rw [List.getElem?_eq_none (by simpa using hl), List.getElem?_eq_none (by simpa using hl)]
        rfl
    · exact Except.noConfusion h

theorem writeAt_ok (d : List α) (off : Nat) (src : Nat → α) (n : Nat)
    (h : off + n ≤ d.length) : ∃ d', writeAt d off src n = Except.ok d' := by
  unfold writeAt
  by_cases hn : n = 0
  · rw [if_pos hn]
    exact ⟨_, rfl⟩
  · rw [if_neg hn, if_pos h]
    exact ⟨_, rfl⟩

theorem copyStage_length (sf_readf_float : Nat → Nat → Nat × (Nat → α))
    (speex_process : Nat → (Nat → α) → Nat → Nat → Nat × List α)
    (m : music) (ctx : music_ctx) (i : Nat) (b : audio_buffer α) (d d1 : List α)
    (h : copyStage sf_readf_float speex_process m ctx i b d = Except.ok d1) :
    d1.length = d.length := by
  unfold copyStage at h
  simp only at h
  split at h
  · exact writeAt_length _ _ _ _ _ h
  · split at h
    · exact monoCopy_length _ _ _ _ _ h
    · exact writeAt_length _ _ _ _ _ h

end BlockWrite

section Refill
variable {α : Type} [Field α]

end Refill

/-! ## Seeking -/

section Congr
variable {α : Type}

theorem wellFormed_congr (A B : AudioData α) (l : List Nat)
    (hf : B.first = A.first) (hl : B.last = A.last)
    (hn : ∀ x, (B.mem x).next = (A.mem x).next) (hp : ∀ x, (B.mem x).prev = (A.mem x).prev)
    (h : WellFormed A l) : WellFormed B l := by
  obtain ⟨h1, h2, h3⟩ := h
  refine ⟨h1, ?_, ?_⟩
  · rw [hf]
    exact (Seg_congr l _ _ (fun p _ => hn p)).mpr h2
  · rw [hl]
    exact (Seg_congr _ _ _ (fun p _ => hp p)).mpr h3

end Congr

section Seek
variable {α : Type} [Field α]

/-- A streaming buffer of at least two frames with both sub-buffers stale adds
nothing to the output block of a cycle. -/
theorem callback_stale_out (sqrtf : α → α) (A : AudioData α) (l : List Nat)
    (p fuel F : Nat) (outputBuffer : Nat → α)
    (hwf : WellFormed A l) (hp : p ∈ l) (hfuel : l.length ≤ fuel)
    (hst : (A.mem p).isStreaming = true)
    (hfl : (A.mem p).isSubBufferProcessed = (true, true))
    (hsz : 2 ≤ (A.mem p).sizeInFrames) :
    (port_audio_callback sqrtf fuel A outputBuffer F).map Prod.snd =
      (port_audio_callback sqrtf fuel (untrack_audio_buffer A (some p)) outputBuffer F).map
        Prod.snd := by
  obtain ⟨l1, l2, rfl⟩ := List.append_of_mem hp
  obtain ⟨hpv, hnx, hp1, hp2⟩ := wellFormed_links A l1 l2 p hwf
  have hbp : (A.mem p).prev ≠ some p := by
    rw [hpv]; intro hh; exact hp1 (List.mem_of_getLast?_eq_some hh)
  have hbn : (A.mem p).next ≠ some p := by
    rw [hnx]; intro hh; exact hp2 (List.mem_of_mem_head? hh)
  have hwf' := untrack_wellFormed A l1 l2 p hwf
  have hlen : (l1 ++ l2).length ≤ fuel := by
    simp only [List.length_append, List.length_cons] at hfuel ⊢
    omega
  rw [port_audio_callback_out, port_audio_callback_out, untrack_masterVolume,
    mixAll_eq_mixList sqrtf F _ fuel _ _ _ hwf.2.1 hfuel,
    mixAll_eq_mixList sqrtf F _ fuel _ _ _ hwf'.2.1 hlen,
    mixList_skip sqrtf F l1 l2 p A.mem _ hp1 hp2
      (fun o => (mixBuffer_stale sqrtf F (A.mem p) o hst hfl hsz).imp fun _ h => h.1)]
  congr 1
  refine mixList_congr sqrtf F (l1 ++ l2) _ _ _ ?_
  intro x hx
  have hxp : x ≠ p := by
    rintro rfl
    rcases List.mem_append.mp hx with h | h
    · exact hp1 h
    · exact hp2 h
  rw [untrack_mem A p x hxp hbp hbn]
  split <;> rfl

/-- C20 (amended): for a music whose ring is a registered streaming buffer of
at least two frames: when the decoder's seek succeeds, `seek_music_stream`
leaves the buffer with both flags true, `frameCursorPos = 0`, `framesProcessed`
the frame sought and every other field as before, and the next mix cycle
yields the same output block (or fault) as the cycle on the registry without
that buffer, whatever the buffer's data; when the decoder's seek fails the
session is unchanged. -/
theorem seek_music_stream_stale (sqrtf : α → α) (sf_seek : Nat → Int) (A : AudioData α)
    (l : List Nat) (m : music) (ctx : music_ctx) (p fuel F : Nat) (position : ℚ)
    (outputBuffer : Nat → α)
    (hwf : WellFormed A l) (hp : p ∈ l) (hfuel : l.length ≤ fuel)
    (hbuf : m.stream.buffer = some p) (hctx : m.ctxData = some ctx)
    (hst : (A.mem p).isStreaming = true) (hsz : 2 ≤ (A.mem p).sizeInFrames) :
    (0 ≤ sf_seek (toUInt (position * m.stream.sampleRate / ctx.src_ratio)) →
      (seek_music_stream sf_seek A m position).mem p =
        { A.mem p with
          framesProcessed := toUInt (position * m.stream.sampleRate / ctx.src_ratio),
          frameCursorPos := 0, isSubBufferProcessed := (true, true) } ∧
      ((seek_music_stream sf_seek A m position).mem p).isSubBufferProcessed = (true, true) ∧
      ((seek_music_stream sf_seek A m position).mem p).frameCursorPos = 0 ∧
      (∀ x, x ≠ p → (seek_music_stream sf_seek A m position).mem x = A.mem x) ∧
      (port_audio_callback sqrtf fuel (seek_music_stream sf_seek A m position)
          outputBuffer F).map Prod.snd =
        (port_audio_callback sqrtf fuel
          (untrack_audio_buffer (seek_music_stream sf_seek A m position) (some p))
          outputBuffer F).map Prod.snd) ∧
    (sf_seek (toUInt (position * m.stream.sampleRate / ctx.src_ratio)) < 0 →
      seek_music_stream sf_seek A m position = A) := by
  constructor
  · intro hs
    have hns : ¬ sf_seek (toUInt (position * m.stream.sampleRate / ctx.src_ratio)) < 0 :=
      not_lt.mpr hs
    have hm : (seek_music_stream sf_seek A m position).mem p =
        { A.mem p with
          framesProcessed := toUInt (position * m.stream.sampleRate / ctx.src_ratio),
          frameCursorPos := 0, isSubBufferProcessed := (true, true) } := by
      simp only [seek_music_stream, hbuf, hctx, if_neg hns, Function.update_same]
    have hx : ∀ x, x ≠ p → (seek_music_stream sf_seek A m position).mem x = A.mem x := by
      intro x hxp
      simp only [seek_music_stream, hbuf, hctx, if_neg hns, Function.update_noteq hxp]
    have hf : (seek_music_stream sf_seek A m position).first = A.first := by
      simp only [seek_music_stream, hbuf, hctx, if_neg hns]
    have hl : (seek_music_stream sf_seek A m position).last = A.last := by
      simp only [seek_music_stream, hbuf, hctx, if_neg hns]
    have hwf' : WellFormed (seek_music_stream sf_seek A m position) l := by
      refine wellFormed_congr A _ l hf hl ?_ ?_ hwf
      · intro x
        by_cases hxp : x = p
        · rw [hxp, hm]
        · rw [hx x hxp]
      · intro x
        by_cases hxp : x = p
        · rw [hxp, hm]
        · rw [hx x hxp]
    refine ⟨hm, by rw [hm], by rw [hm], hx, ?_⟩
    exact callback_stale_out sqrtf _ l p fuel F outputBuffer hwf' hp hfuel
      (by rw [hm]; exact hst) (by rw [hm]) (by rw [hm]; exact hsz)
  · intro hs
    simp only [seek_music_stream, hbuf, hctx, if_pos hs]

/-- C20 (counterexample): a music whose ring was created with one frame
(`load_audio_buffer(2, 1, 1)`), played, then sought with success: both flags
are true and the cursor is 0, yet the mix cycle divides by
`subBufferSizeFrames = 0` instead of producing the block that the registry
without that buffer produces. -/
theorem seek_tiny_ring_faults :
    ∃ A1 : AudioData ℚ,
      load_audio_buffer emptySession (some 5) true 2 1 1 = Except.ok (A1, some 5) ∧
      0 ≤ (fun _ : Nat => (0 : Int)) (toUInt (1 * (exampleMusic 2).stream.sampleRate / 1)) ∧
      ((seek_music_stream (fun _ => 0) (play_audio_buffer A1 (some 5)) (exampleMusic 2) 1).mem
        5).isSubBufferProcessed = (true, true) ∧
      ((seek_music_stream (fun _ => 0) (play_audio_buffer A1 (some 5)) (exampleMusic 2) 1).mem
        5).frameCursorPos = 0 ∧
      port_audio_callback id 1
          (seek_music_stream (fun _ => 0) (play_audio_buffer A1 (some 5)) (exampleMusic 2) 1)
          (fun _ => 0) 1 = Except.error Fault.divByZero ∧
      ∃ r, port_audio_callback id 1
          (untrack_audio_buffer
            (seek_music_stream (fun _ => 0) (play_audio_buffer A1 (some 5)) (exampleMusic 2) 1)
            (some 5))
          (fun _ => 0) 1 = Except.ok r := by
  refine ⟨_, rfl, by decide, by decide, by decide, rfl, _, rfl⟩

/-- C20 (amended) at the ring of 4 frames of `ringSession`, sought to second 1
with success. -/
theorem seek_music_stream_stale_witness :
    (0 ≤ (fun _ : Nat => (0 : Int))
        (toUInt (1 * (exampleMusic 2).stream.sampleRate / (1 : ℚ))) →
      (seek_music_stream (fun _ => 0) ringSession (exampleMusic 2) 1).mem 5 =
        { ringSession.mem 5 with
          framesProcessed := toUInt (1 * (exampleMusic 2).stream.sampleRate / (1 : ℚ)),
          frameCursorPos := 0, isSubBufferProcessed := (true, true) } ∧
      ((seek_music_stream (fun _ => 0) ringSession (exampleMusic 2) 1).mem
        5).isSubBufferProcessed = (true, true) ∧
      ((seek_music_stream (fun _ => 0) ringSession (exampleMusic 2) 1).mem 5).frameCursorPos = 0 ∧
      (∀ x, x ≠ 5 →
        (seek_music_stream (fun _ => 0) ringSession (exampleMusic 2) 1).mem x =
          ringSession.mem x) ∧
      (port_audio_callback id 1 (seek_music_stream (fun _ => 0) ringSession (exampleMusic 2) 1)
          (fun _ => 0) 4).map Prod.snd =
        (port_audio_callback id 1
          (untrack_audio_buffer (seek_music_stream (fun _ => 0) ringSession (exampleMusic 2) 1)
            (some 5))
          (fun _ => 0) 4).map Prod.snd) ∧
    ((fun _ : Nat => (0 : Int)) (toUInt (1 * (exampleMusic 2).stream.sampleRate / (1 : ℚ))) < 0 →
      seek_music_stream (fun _ => 0) ringSession (exampleMusic 2) 1 = ringSession) :=
  seek_music_stream_stale id (fun _ => 0) ringSession [5] (exampleMusic 2)
    { snd_file := true, resampler := false, src_ratio := 1 } 5 1 4 1 (fun _ => 0)
    (by decide) (by decide) (by decide) rfl rfl rfl (by decide)

end Seek

section TimePlayed

theorem toUInt_natCast (n : Nat) : toUInt (n : ℚ) = n % UINT_RANGE := by
  unfold toUInt
  rw [show Rat.floor (n : ℚ) = ⌊(n : ℚ)⌋ from rfl, Int.floor_natCast]
  simp

/-- C21 (failing input): device at 44100 Hz, a stereo file of 10 seconds at
48000 Hz opened with `load_music_stream` (so `src_ratio = 44100 / 48000`), a
successful `seek_music_stream(music, 10)`: `framesProcessed` is set to 480000,
the position in frames of the file, and `get_music_time_played` reports
`480000 / 44100 = 1600 / 147` seconds, about 10.88, which is not within one
frame period `1 / 44100` of 10. -/
theorem seek_time_played_off :
    (load_music_stream emptySession 44100 (some exampleFile) true true (some 5) true).map
        Prod.snd = Except.ok exampleLoaded ∧
      ∀ A : AudioData ℚ,
        ((seek_music_stream (fun _ => 0) A exampleLoaded 10).mem 5).framesProcessed = 480000 ∧
        get_music_time_played (seek_music_stream (fun _ => 0) A exampleLoaded 10) 44100
          exampleLoaded = 1600 / 147 ∧
        ¬ (|get_music_time_played (seek_music_stream (fun _ => 0) A exampleLoaded 10) 44100
            exampleLoaded - 10| ≤ 1 / 44100) := by
  have e1 : toUInt 44100 = 44100 := by
    have := toUInt_natCast 44100
    simpa [UINT_RANGE] using this
  have e2 : toUInt (10 * ((44100 : Nat) : ℚ) / (147 / 160)) = 480000 := by
    have := toUInt_natCast 480000
    have e : (10 * ((44100 : Nat) : ℚ) / (147 / 160)) = ((480000 : Nat) : ℚ) := by norm_num
    rw [e, this]
    norm_num [UINT_RANGE]
  have e3 : toUInt (((480000 : Nat) : ℚ) * (147 / 160)) = 441000 := by
    have := toUInt_natCast 441000
    have e : (((480000 : Nat) : ℚ) * (147 / 160)) = ((441000 : Nat) : ℚ) := by norm_num
    rw [e, this]
    norm_num [UINT_RANGE]
  have hr : ((44100 : ℚ) / ((48000 : Nat) : ℚ)) = 147 / 160 := by norm_num
  have hne : ((48000 : Nat) : ℚ) ≠ 44100 := by norm_num
  have hfp : ∀ A1 : AudioData ℚ,
      ((seek_music_stream (fun _ => 0) A1 exampleLoaded 10).mem 5).framesProcessed = 480000 := by
    intro A1
    simp only [seek_music_stream, exampleLoaded, lt_self_iff_false, if_false,
      Function.update_same, e2]
  have e3' : toUInt ((480000 : ℚ) * (147 / 160)) = 441000 := by
    have e : ((480000 : ℚ) * (147 / 160)) = (((480000 : Nat) : ℚ) * (147 / 160)) := by norm_num
    rw [e, e3]
  have htp : ∀ A : AudioData ℚ,
      get_music_time_played (seek_music_stream (fun _ => 0) A exampleLoaded 10) 44100
        exampleLoaded = 1600 / 147 := by
    intro A
    have h : get_music_time_played (seek_music_stream (fun _ => 0) A exampleLoaded 10) 44100
        exampleLoaded =
        (((seek_music_stream (fun _ => 0) A exampleLoaded 10).mem 5).framesProcessed : ℚ) /
          44100 := rfl
    rw [h, hfp A]
    norm_num
  refine ⟨?_, fun A => ⟨hfp A, htp A, ?_⟩⟩
  · simp only [load_music_stream, load_audio_stream, load_audio_buffer, track_audio_buffer,
      exampleFile, exampleLoaded, emptySession, e1, e3, hr, hne]
    simp [Except.map, e3']
  · rw [htp A]
    norm_num [abs_le]

end TimePlayed

/-! ## Pitch -/

section PitchLemmas
variable {α : Type}

theorem afterPass_setPitch (b : audio_buffer α) (v : α) (n : Nat) :
    afterPass (b.setPitch v) n = (afterPass b n).setPitch v := by
  unfold afterPass
  have hidx : subIndex (b.setPitch v) = subIndex b := rfl
  rw [hidx]
  show (if ((b.frameCursorPos + n) % UINT_RANGE / (b.sizeInFrames / 2)) % 2 ≠ subIndex b then _
    else _) = _
  split
  · unfold audio_buffer.setFlag
    split <;> rfl
  · rfl

end PitchLemmas

section Pitch
variable {α : Type} [Field α]

theorem mixFrames_setPitch (sqrtf : α → α) (b : audio_buffer α) (v : α)
    (d : List α) (F ftm : Nat) :
    ∀ (k : Nat) (out : Nat → α),
      mixFrames sqrtf (b.setPitch v) d F ftm k out = mixFrames sqrtf b d F ftm k out := by
  intro k
  induction k with
  | zero => intro out; rfl
  | succ k ih =>
    intro out
    simp only [mixFrames, ih]
    rfl

theorem mixLoop_setPitch (sqrtf : α → α) (F : Nat) (d : List α) (v : α) :
    ∀ (fuel : Nat) (b : audio_buffer α) (ftm : Nat) (out : Nat → α),
      mixLoop sqrtf F d fuel (b.setPitch v) ftm out =
        (mixLoop sqrtf F d fuel b ftm out).map (fun r => (r.1.setPitch v, r.2)) := by
  intro fuel
  induction fuel with
  | zero =>
    intro b ftm out
    cases ftm <;> rfl
  | succ fuel ih =>
    intro b ftm out
    cases ftm with
    | zero => rfl
    | succ ftm =>
      rw [mixLoop_succ, mixLoop_succ]
      have hsz : (b.setPitch v).sizeInFrames = b.sizeInFrames := rfl
      have hidx : subIndex (b.setPitch v) = subIndex b := rfl
      have hfl : (b.setPitch v).flag (subIndex b) = b.flag (subIndex b) := rfl
      have hpl : passLength (b.setPitch v) (ftm + 1) = passLength b (ftm + 1) := rfl
      rw [hsz, hidx, hfl, hpl, mixFrames_setPitch, afterPass_setPitch]
      split
      · rfl
      · split
        · rfl
        · have h1 : ((afterPass b (passLength b (ftm + 1))).setPitch v).isStreaming =
              (afterPass b (passLength b (ftm + 1))).isStreaming := rfl
          have h2 : ((afterPass b (passLength b (ftm + 1))).setPitch v).frameCursorPos =
              (afterPass b (passLength b (ftm + 1))).frameCursorPos := rfl
          have h3 : ((afterPass b (passLength b (ftm + 1))).setPitch v).sizeInFrames =
              (afterPass b (passLength b (ftm + 1))).sizeInFrames := rfl
          rw [h1, h2, h3]
          split
          · rfl
          · rw [ih]

theorem mixBuffer_setPitch (sqrtf : α → α) (F : Nat) (b : audio_buffer α) (v : α)
    (out : Nat → α) :
    mixBuffer sqrtf F (b.setPitch v) out =
      (mixBuffer sqrtf F b out).map (fun r => (r.1.setPitch v, r.2)) := by
  unfold mixBuffer
  have hd : (b.setPitch v).data = b.data := rfl
  have hp : (b.setPitch v).playing = b.playing := rfl
  have hq : (b.setPitch v).paused = b.paused := rfl
  rw [hd, hp, hq]
  cases b.data with
  | none => rfl
  | some d =>
    simp only
    split
    · exact mixLoop_setPitch sqrtf F d v F b F out
    · rfl

theorem mixAll_setPitch (sqrtf : α → α) (F : Nat) (q : Nat → α) :
    ∀ (fuel : Nat) (cur : Option Nat) (mem : Nat → audio_buffer α) (out : Nat → α),
      mixAll sqrtf F fuel cur (fun x => (mem x).setPitch (q x)) out =
        (mixAll sqrtf F fuel cur mem out).map
          (fun r => (fun x => (r.1 x).setPitch (q x), r.2)) := by
  intro fuel
  induction fuel with
  | zero =>
    intro cur mem out
    cases cur <;> rfl
  | succ fuel ih =>
    intro cur mem out
    cases cur with
    | none => rfl
    | some p =>
      simp only [mixAll]
      rw [mixBuffer_setPitch]
      cases hm : mixBuffer sqrtf F (mem p) out with
      | error e => rfl
      | ok r =>
        obtain ⟨b1, o1⟩ := r
        simp only [Except.map]
        have hnext : (b1.setPitch (q p)).next = b1.next := rfl
        have hupd : Function.update (fun x => (mem x).setPitch (q x)) p (b1.setPitch (q p)) =
            fun x => (Function.update mem p b1 x).setPitch (q x) := by
          funext x
          by_cases hx : x = p
          · subst hx
            simp only [Function.update_same]
          · simp only [Function.update_noteq hx]
        rw [hnext, hupd]
        exact ih b1.next (Function.update mem p b1) o1

/-- C22: a mix cycle on the session with the pitch fields of its buffers
replaced by arbitrary values is the cycle on the original session, with the
same fault or the same output block, and with the same post-cycle struct of
every buffer (cursor, `framesProcessed`, flags, `playing` and all the rest)
except that `pitch` carries the replaced value. -/
theorem pitch_not_mixed (sqrtf : α → α) (fuel : Nat) (A : AudioData α) (q : Nat → α)
    (outputBuffer : Nat → α) (F : Nat) :
    port_audio_callback sqrtf fuel (withPitches A q) outputBuffer F =
      (port_audio_callback sqrtf fuel A outputBuffer F).map
        (fun r => (withPitches r.1 q, r.2)) := by
  unfold port_audio_callback
  simp only
  have h := mixAll_setPitch sqrtf F q fuel A.first A.mem
    (fun i => if i < F * AUDIO_DEVICE_CHANNELS then 0 else outputBuffer i)
  have hf : (withPitches A q).first = A.first := rfl
  have hm : (withPitches A q).mem = fun x => (A.mem x).setPitch (q x) := rfl
  have hv : (withPitches A q).masterVolume = A.masterVolume := rfl
  rw [hf, hm, hv, h]
  cases mixAll sqrtf F fuel A.first A.mem
      (fun i => if i < F * AUDIO_DEVICE_CHANNELS then 0 else outputBuffer i) with
  | error e => rfl
  | ok r => rfl

end Pitch

section PitchControl
variable {β : Type} [LinearOrderedField β]

/-- What `set_audio_buffer_pitch` does to a session is a replacement of pitch
fields. -/
theorem set_audio_buffer_pitch_eq (A : AudioData β) (p : Nat) (pitch : β) :
    set_audio_buffer_pitch A (some p) pitch =
      withPitches A (fun x => if x = p ∧ ¬ pitch < 0 then pitch else (A.mem x).pitch) := by
  unfold set_audio_buffer_pitch withPitches
  simp only
  by_cases hneg : pitch < 0
  · rw [if_pos hneg]
    have : (fun x => (A.mem x).setPitch
        (if x = p ∧ ¬ pitch < 0 then pitch else (A.mem x).pitch)) = A.mem := by
      funext x
      have : ¬ (x = p ∧ ¬ pitch < 0) := fun h => h.2 hneg
      rw [if_neg this]
      rfl
    rw [this]
  · rw [if_neg hneg]
    unfold onBuffer
    simp only
    congr 1
    funext x
    by_cases hx : x = p
    · subst hx
      rw [Function.update_same, if_pos ⟨rfl, hneg⟩]
    · rw [Function.update_noteq hx, if_neg (fun h => hx h.1)]
      rfl

end PitchControl

/-! ## Completion of a mix cycle -/

section FitsLemmas
variable {α : Type}

theorem DataFits_of_sameConfig {b b1 : audio_buffer α} (h : SameConfig b b1)
    (hb : DataFits b) : DataFits b1 := by
  obtain ⟨-, -, -, -, -, hsz, hd, -, -⟩ := h
  unfold DataFits at hb ⊢
  rw [hsz, hd]
  exact hb

end FitsLemmas

section Completion
variable {α : Type} [Field α]

theorem mixFrames_ok (sqrtf : α → α) (b : audio_buffer α) (d : List α) (F ftm : Nat)
    (hsz : 0 < b.sizeInFrames) (hlen : 2 * b.sizeInFrames ≤ d.length) :
    ∀ (k : Nat) (out : Nat → α), ∃ out1, mixFrames sqrtf b d F ftm k out = Except.ok out1 := by
  intro k
  induction k with
  | zero => intro out; exact ⟨out, rfl⟩
  | succ k ih =>
    intro out
    obtain ⟨o1, h1⟩ := ih out
    have hb : (b.frameCursorPos + k) % b.sizeInFrames * 2 + 1 < d.length := by
      have := Nat.mod_lt (b.frameCursorPos + k) hsz
      omega
    simp only [mixFrames, h1]
    rw [mixFrame_ok sqrtf b d F ftm k o1 hb]
    exact ⟨_, rfl⟩

theorem mixLoop_ok (sqrtf : α → α) (F : Nat) (d : List α) :
    ∀ (fuel : Nat) (b : audio_buffer α) (ftm : Nat) (out : Nat → α),
      ftm ≤ fuel → b.sizeInFrames / 2 ≠ 0 → 2 * b.sizeInFrames ≤ d.length →
      ∃ r, mixLoop sqrtf F d fuel b ftm out = Except.ok r := by
  intro fuel
  induction fuel with
  | zero =>
    intro b ftm out hf _ _
    have : ftm = 0 := by omega
    subst this
    exact ⟨_, rfl⟩
  | succ fuel ih =>
    intro b ftm out hf hsub hlen
    cases ftm with
    | zero => exact ⟨_, rfl⟩
    | succ ftm =>
      have hpos := passLength_pos b (ftm + 1) hsub (by omega)
      have hmix : ∃ o1, (if b.flag (subIndex b) then Except.ok out
          else mixFrames sqrtf b d F (ftm + 1) (passLength b (ftm + 1)) out) =
            (Except.ok o1 : Except Fault (Nat → α)) := by
        split
        · exact ⟨out, rfl⟩
        · exact mixFrames_ok sqrtf b d F (ftm + 1) (by omega) hlen _ out
      obtain ⟨o1, ho1⟩ := hmix
      rw [mixLoop_succ, if_neg hsub, ho1]
      simp only
      split
      · exact ⟨_, rfl⟩
      · exact ih _ _ _ (by omega) (by rw [afterPass_sizeInFrames]; exact hsub)
          (by rw [afterPass_sizeInFrames]; exact hlen)

theorem mixBuffer_ok (sqrtf : α → α) (F : Nat) (b : audio_buffer α) (out : Nat → α)
    (h : DataFits b) : ∃ r, mixBuffer sqrtf F b out = Except.ok r := by
  unfold mixBuffer
  obtain ⟨h2, hd⟩ := h
  cases hdata : b.data with
  | none => exact ⟨_, rfl⟩
  | some d =>
    rw [hdata] at hd
    simp only [AUDIO_DEVICE_CHANNELS] at hd
    simp only
    split
    · exact mixLoop_ok sqrtf F d F b F out (Nat.le_refl F) (by omega) (by omega)
    · exact ⟨_, rfl⟩

theorem mixList_ok (sqrtf : α → α) (F : Nat) :
    ∀ (l : List Nat) (mem : Nat → audio_buffer α) (out : Nat → α),
      (∀ x ∈ l, DataFits (mem x)) → ∃ r, mixList sqrtf F l mem out = Except.ok r := by
  intro l
  induction l with
  | nil => intro mem out _; exact ⟨_, rfl⟩
  | cons p l ih =>
    intro mem out h
    obtain ⟨r, hr⟩ := mixBuffer_ok sqrtf F (mem p) out (h p (List.mem_cons_self p l))
    obtain ⟨b1, o1⟩ := r
    simp only [mixList, hr]
    refine ih _ _ ?_
    intro x hx
    by_cases hxp : x = p
    · subst hxp
      rw [Function.update_same]
      exact DataFits_of_sameConfig (mixBuffer_sameConfig sqrtf F _ _ _ _ hr)
        (h x (List.mem_cons_self x l))
    · rw [Function.update_noteq hxp]
      exact h x (List.mem_cons_of_mem p hx)

/-- On a well-formed registry whose buffers all have at least two frames and
data matching their size, the mix cycle completes. -/
theorem callback_ok (sqrtf : α → α) (A : AudioData α) (l : List Nat) (fuel F : Nat)
    (outputBuffer : Nat → α) (hwf : WellFormed A l) (hfuel : l.length ≤ fuel)
    (hfit : ∀ x ∈ l, DataFits (A.mem x)) :
    ∃ A1 out, port_audio_callback sqrtf fuel A outputBuffer F = Except.ok (A1, out) := by
  unfold port_audio_callback
  simp only
  rw [mixAll_eq_mixList sqrtf F l fuel _ _ _ hwf.2.1 hfuel]
  obtain ⟨r, hr⟩ := mixList_ok sqrtf F l A.mem
    (fun i => if i < F * AUDIO_DEVICE_CHANNELS then 0 else outputBuffer i) hfit
  obtain ⟨m1, o1⟩ := r
  rw [hr]
  exact ⟨_, _, rfl⟩

theorem mixList_mem (sqrtf : α → α) (F : Nat) (p : Nat) :
    ∀ (l : List Nat) (mem : Nat → audio_buffer α) (out : Nat → α)
      (m1 : Nat → audio_buffer α) (o1 : Nat → α),
      l.Nodup → p ∈ l → mixList sqrtf F l mem out = Except.ok (m1, o1) →
      ∃ o o', mixBuffer sqrtf F (mem p) o = Except.ok (m1 p, o') := by
  intro l
  induction l with
  | nil => intro mem out m1 o1 _ hp _; exact absurd hp (List.not_mem_nil p)
  | cons q l ih =>
    intro mem out m1 o1 hnd hp h
    simp only [mixList] at h
    cases hq : mixBuffer sqrtf F (mem q) out with
    | error e => rw [hq] at h; exact Except.noConfusion h
    | ok r =>
      obtain ⟨b1, o2⟩ := r
      rw [hq] at h
      simp only at h
      have hql : q ∉ l := (List.nodup_cons.mp hnd).1
      by_cases hpq : p = q
      · subst hpq
        have := mixList_not_mem sqrtf F p l _ _ _ _ hql h
        rw [Function.update_same] at this
        exact ⟨out, o2, by rw [this]; exact hq⟩
      · have hpl : p ∈ l := by
          rcases List.mem_cons.mp hp with h1 | h1
          · exact absurd h1 hpq
          · exact h1
        obtain ⟨o, o', ho⟩ := ih _ _ _ _ (List.nodup_cons.mp hnd).2 hpl h
        rw [Function.update_noteq hpq] at ho
        exact ⟨o, o', ho⟩

/-- In a completed cycle on a well-formed registry every registered buffer
has been through the buffer body exactly once. -/
theorem callback_mem (sqrtf : α → α) (A A1 : AudioData α) (l : List Nat) (p fuel F : Nat)
    (outputBuffer out : Nat → α) (hwf : WellFormed A l) (hp : p ∈ l) (hfuel : l.length ≤ fuel)
    (h : port_audio_callback sqrtf fuel A outputBuffer F = Except.ok (A1, out)) :
    ∃ o o', mixBuffer sqrtf F (A.mem p) o = Except.ok (A1.mem p, o') := by
  unfold port_audio_callback at h
  simp only at h
  rw [mixAll_eq_mixList sqrtf F l fuel _ _ _ hwf.2.1 hfuel] at h
  split at h
  · exact Except.noConfusion h
  · rename_i m1 o1 hm
    simp only [Except.ok.injEq, Prod.mk.injEq] at h
    rw [← h.1]
    exact mixList_mem sqrtf F p l _ _ _ _ hwf.1 hp hm

/-- In a completed cycle on a well-formed registry a buffer that is not
registered is untouched. -/
theorem callback_not_mem (sqrtf : α → α) (A A1 : AudioData α) (l : List Nat) (p fuel F : Nat)
    (outputBuffer out : Nat → α) (hwf : WellFormed A l) (hp : p ∉ l) (hfuel : l.length ≤ fuel)
    (h : port_audio_callback sqrtf fuel A outputBuffer F = Except.ok (A1, out)) :
    A1.mem p = A.mem p := by
  unfold port_audio_callback at h
  simp only at h
  rw [mixAll_eq_mixList sqrtf F l fuel _ _ _ hwf.2.1 hfuel] at h
  split at h
  · exact Except.noConfusion h
  · rename_i m1 o1 hm
    simp only [Except.ok.injEq, Prod.mk.injEq] at h
    rw [← h.1]
    exact mixList_not_mem sqrtf F p l _ _ _ _ hp hm

end Completion

/-! ## Frames consumed by a cycle -/

section Advance
variable {α : Type} [Field α]

theorem mixLoop_advance (sqrtf : α → α) (F : Nat) (d : List α) :
    ∀ (fuel : Nat) (b : audio_buffer α) (ftm : Nat) (out : Nat → α)
      (b1 : audio_buffer α) (out1 : Nat → α),
      mixLoop sqrtf F d fuel b ftm out = Except.ok (b1, out1) →
      ∃ n, n ≤ ftm ∧ (b.isStreaming = true → n = ftm) ∧
        ((n = 0 ∧ b1.framesProcessed = b.framesProcessed ∧
            b1.frameCursorPos = b.frameCursorPos) ∨
          (b1.framesProcessed = (b.framesProcessed + n) % UINT_RANGE ∧
            b1.frameCursorPos = (b.frameCursorPos + n) % UINT_RANGE)) := by
  intro fuel
  induction fuel with
  | zero =>
    intro b ftm out b1 out1 h
    cases ftm with
    | zero =>
      simp only [mixLoop, Except.ok.injEq, Prod.mk.injEq] at h
      refine ⟨0, Nat.le_refl 0, fun _ => rfl, Or.inl ⟨rfl, ?_, ?_⟩⟩ <;> rw [← h.1]
    | succ ftm => simp [mixLoop] at h
  | succ fuel ih =>
    intro b ftm out b1 out1 h
    cases ftm with
    | zero =>
      simp only [mixLoop, Except.ok.injEq, Prod.mk.injEq] at h
      refine ⟨0, Nat.le_refl 0, fun _ => rfl, Or.inl ⟨rfl, ?_, ?_⟩⟩ <;> rw [← h.1]
    | succ ftm =>
      rw [mixLoop_succ] at h
      split at h
      · simp at h
      · rename_i hsub
        have hle := passLength_le b (ftm + 1)
        split at h
        · simp at h
        · split at h
          · rename_i hbrk
            simp only [Except.ok.injEq, Prod.mk.injEq] at h
            refine ⟨passLength b (ftm + 1), hle, ?_, Or.inr ⟨?_, ?_⟩⟩
            · intro hst
              rw [afterPass_isStreaming, hst] at hbrk
              simp at hbrk
            · rw [← h.1]
              exact afterPass_framesProcessed b _
            · rw [← h.1]
              exact afterPass_frameCursorPos b _
          · obtain ⟨n, hn, hs, hr⟩ := ih _ _ _ _ _ h
            refine ⟨passLength b (ftm + 1) + n, by omega, ?_, Or.inr ?_⟩
            · intro hst
              have := hs (by rw [afterPass_isStreaming]; exact hst)
              omega
            · rcases hr with ⟨h0, h1, h2⟩ | ⟨h1, h2⟩
              · rw [h1, h2, h0, afterPass_framesProcessed, afterPass_frameCursorPos]
                exact ⟨rfl, rfl⟩
              · rw [h1, h2, afterPass_framesProcessed, afterPass_frameCursorPos,
                  Nat.mod_add_mod, Nat.mod_add_mod, Nat.add_assoc, Nat.add_assoc]
                exact ⟨rfl, rfl⟩

theorem mixBuffer_advance (sqrtf : α → α) (F : Nat) (b b1 : audio_buffer α)
    (out out1 : Nat → α) (h : mixBuffer sqrtf F b out = Except.ok (b1, out1)) :
    ∃ n, n ≤ F ∧
      (b.playing = true → b.paused = false → b.isStreaming = true → b.data ≠ none → n = F) ∧
      ((n = 0 ∧ b1.framesProcessed = b.framesProcessed ∧
          b1.frameCursorPos = b.frameCursorPos) ∨
        (b1.framesProcessed = (b.framesProcessed + n) % UINT_RANGE ∧
          b1.frameCursorPos = (b.frameCursorPos + n) % UINT_RANGE)) := by
  unfold mixBuffer at h
  split at h
  · rename_i hd
    simp only [Except.ok.injEq, Prod.mk.injEq] at h
    refine ⟨0, Nat.zero_le F, fun _ _ _ hne => absurd hd hne, Or.inl ⟨rfl, ?_, ?_⟩⟩ <;>
      rw [← h.1]
  · split at h
    · obtain ⟨n, hn, hs, hr⟩ := mixLoop_advance sqrtf F _ _ _ _ _ _ _ h
      exact ⟨n, hn, fun _ _ hst _ => hs hst, hr⟩
    · rename_i hpp
      simp only [Except.ok.injEq, Prod.mk.injEq] at h
      refine ⟨0, Nat.zero_le F, ?_, Or.inl ⟨rfl, ?_, ?_⟩⟩
      · intro h1 h2 _ _
        rw [h1, h2] at hpp
        simp at hpp
      · rw [← h.1]
      · rw [← h.1]

/-- C23 (amended): on a well-formed registry, for a registered streaming
buffer that is playing, unpaused and has data (its two counters being 32-bit
values; with `sizeInFrames < 2` no cycle completes): a completed mix cycle of
`F` frames leaves
`framesProcessed` and `frameCursorPos` increased by exactly `F` modulo `2 ^ 32`,
fresh or stale; when `frameCursorPos + F < 2 ^ 32` the ring position
`frameCursorPos mod sizeInFrames` has advanced by `F` modulo `sizeInFrames`; no
buffer `x` with `framesProcessed + F < 2 ^ 32` has its `framesProcessed`
decreased; and the cycle does complete when every registered buffer has at
least two frames and data matching its size. -/
theorem mix_cycle_consumes (sqrtf : α → α) (A : AudioData α) (l : List Nat)
    (p fuel F : Nat) (outputBuffer : Nat → α)
    (hwf : WellFormed A l) (hp : p ∈ l) (hfuel : l.length ≤ fuel)
    (hplay : (A.mem p).playing = true) (hpause : (A.mem p).paused = false)
    (hst : (A.mem p).isStreaming = true) (hdata : (A.mem p).data ≠ none)
    (hfp : (A.mem p).framesProcessed < UINT_RANGE)
    (hcur : (A.mem p).frameCursorPos < UINT_RANGE) :
    (∀ A1 out, port_audio_callback sqrtf fuel A outputBuffer F = Except.ok (A1, out) →
      (A1.mem p).framesProcessed = ((A.mem p).framesProcessed + F) % UINT_RANGE ∧
      (A1.mem p).frameCursorPos = ((A.mem p).frameCursorPos + F) % UINT_RANGE ∧
      ((A.mem p).frameCursorPos + F < UINT_RANGE →
        (A1.mem p).frameCursorPos % (A.mem p).sizeInFrames =
          ((A.mem p).frameCursorPos % (A.mem p).sizeInFrames + F) % (A.mem p).sizeInFrames) ∧
      ∀ x, (A.mem x).framesProcessed + F < UINT_RANGE →
        (A.mem x).framesProcessed ≤ (A1.mem x).framesProcessed) ∧
    ((∀ x ∈ l, DataFits (A.mem x)) →
      ∃ A1 out, port_audio_callback sqrtf fuel A outputBuffer F = Except.ok (A1, out)) := by
  refine ⟨?_, callback_ok sqrtf A l fuel F outputBuffer hwf hfuel⟩
  intro A1 out h
  obtain ⟨o, o', hb⟩ := callback_mem sqrtf A A1 l p fuel F outputBuffer out hwf hp hfuel h
  obtain ⟨n, _, hn, hr⟩ := mixBuffer_advance sqrtf F _ _ _ _ hb
  have hnF : n = F := hn hplay hpause hst hdata
  rw [hnF] at hr
  have hboth : (A1.mem p).framesProcessed = ((A.mem p).framesProcessed + F) % UINT_RANGE ∧
      (A1.mem p).frameCursorPos = ((A.mem p).frameCursorPos + F) % UINT_RANGE := by
    rcases hr with ⟨h0, h1, h2⟩ | hr
    · rw [h1, h2, h0, Nat.add_zero, Nat.add_zero, Nat.mod_eq_of_lt hfp, Nat.mod_eq_of_lt hcur]
      exact ⟨rfl, rfl⟩
    · exact hr
  refine ⟨hboth.1, hboth.2, ?_, ?_⟩
  · intro hnw
    rw [hboth.2, Nat.mod_eq_of_lt hnw, Nat.mod_add_mod]
  · intro x hx
    by_cases hxl : x ∈ l
    · obtain ⟨o2, o3, hbx⟩ :=
        callback_mem sqrtf A A1 l x fuel F outputBuffer out hwf hxl hfuel h
      obtain ⟨k, hk, _, hrx⟩ := mixBuffer_advance sqrtf F _ _ _ _ hbx
      rcases hrx with ⟨_, h1, _⟩ | ⟨h1, _⟩
      · rw [h1]
      · rw [h1, Nat.mod_eq_of_lt (by omega)]
        omega
    · rw [callback_not_mem sqrtf A A1 l x fuel F outputBuffer out hwf hxl hfuel h]

/-- C23 (counterexample): the music ring of `ringSession` after a successful
seek to frame `4294967295` (second `4294967295 / 44100` of a file at the device
rate) is playing, unpaused and streaming with 4 frames; a mix cycle of 2 frames
completes and leaves `framesProcessed = 1`, which is less than before.  And the
playing ring of 14 frames of `wrapSession`, whose cursor is `4294967292` (ring
position 0), is at ring position 3 after a cycle of 7 frames, not at
`(0 + 7) mod 14 = 7`. -/
theorem framesProcessed_wraps :
    seek_music_stream (fun _ => 0) ringSession (exampleMusic 2) (4294967295 / 44100)
        = lateSession ∧
      WellFormed lateSession [5] ∧
      (lateSession.mem 5).playing = true ∧ (lateSession.mem 5).paused = false ∧
      (lateSession.mem 5).isStreaming = true ∧ (lateSession.mem 5).sizeInFrames = 4 ∧
      (lateSession.mem 5).framesProcessed = 4294967295 ∧
      (∃ A1 out, port_audio_callback id 1 lateSession (fun _ => 0) 2 = Except.ok (A1, out) ∧
        (A1.mem 5).framesProcessed = 1 ∧
        (A1.mem 5).framesProcessed < (lateSession.mem 5).framesProcessed) ∧
      (wrapSession.mem 5).playing = true ∧ (wrapSession.mem 5).paused = false ∧
      (wrapSession.mem 5).isStreaming = true ∧ (wrapSession.mem 5).sizeInFrames = 14 ∧
      (wrapSession.mem 5).frameCursorPos % (wrapSession.mem 5).sizeInFrames = 0 ∧
      ∃ A1 out, port_audio_callback id 1 wrapSession (fun _ => 0) 7 = Except.ok (A1, out) ∧
        (A1.mem 5).frameCursorPos % (wrapSession.mem 5).sizeInFrames = 3 ∧
        ((wrapSession.mem 5).frameCursorPos % (wrapSession.mem 5).sizeInFrames + 7) %
          (wrapSession.mem 5).sizeInFrames = 7 := by
  refine ⟨?_, by decide, by decide, by decide, by decide, by decide, by decide,
    ⟨_, _, rfl, by decide, by decide⟩, by decide, by decide, by decide, by decide, by decide,
    _, _, rfl, by decide, by decide⟩
  have e : toUInt ((4294967295 / 44100 : ℚ) * ((44100 : Nat) : ℚ) / 1) = 4294967295 := by
    have h := toUInt_natCast 4294967295
    have e1 : ((4294967295 / 44100 : ℚ) * ((44100 : Nat) : ℚ) / 1) =
        ((4294967295 : Nat) : ℚ) := by norm_num
    rw [e1, h]
    norm_num [UINT_RANGE]
  simp only [seek_music_stream, exampleMusic, lateSession, ringSession, e]
  rfl

/-- C23 (amended) at `ringSession`: a ring of 4 frames, sub-buffer 0 stale and
sub-buffer 1 fresh, mixed for 3 frames. -/
theorem mix_cycle_consumes_witness :
    (∀ A1 out, port_audio_callback id 1 ringSession (fun _ => 0) 3 = Except.ok (A1, out) →
      (A1.mem 5).framesProcessed = ((ringSession.mem 5).framesProcessed + 3) % UINT_RANGE ∧
      (A1.mem 5).frameCursorPos = ((ringSession.mem 5).frameCursorPos + 3) % UINT_RANGE ∧
      ((ringSession.mem 5).frameCursorPos + 3 < UINT_RANGE →
        (A1.mem 5).frameCursorPos % (ringSession.mem 5).sizeInFrames =
          ((ringSession.mem 5).frameCursorPos % (ringSession.mem 5).sizeInFrames + 3) %
            (ringSession.mem 5).sizeInFrames) ∧
      ∀ x, (ringSession.mem x).framesProcessed + 3 < UINT_RANGE →
        (ringSession.mem x).framesProcessed ≤ (A1.mem x).framesProcessed) ∧
    ((∀ x ∈ [5], DataFits (ringSession.mem x)) →
      ∃ A1 out, port_audio_callback id 1 ringSession (fun _ => 0) 3 = Except.ok (A1, out)) :=
  mix_cycle_consumes id ringSession [5] 5 1 3 (fun _ => 0)
    (by decide) (by decide) (by decide) rfl rfl rfl (by decide) (by decide) (by decide)

end Advance

/-! ## Flags after a cycle -/

section RingArith

theorem div_of_mod_add_lt (c s k : Nat) (hs : 0 < s) (h : c % s + k < s) :
    (c + k) / s = c / s ∧ (c + k) % s = c % s + k := by
  have e : c + k = (c % s + k) + s * (c / s) := by
    have := Nat.div_add_mod c s
    omega
  rw [e, Nat.add_mul_div_left _ _ hs, Nat.add_mul_mod_self_left, Nat.div_eq_of_lt h,
    Nat.mod_eq_of_lt h]
  omega

theorem div_to_next (c s : Nat) (hs : 0 < s) :
    (c + (s - c % s)) / s = c / s + 1 ∧ (c + (s - c % s)) % s = 0 := by
  have hr := Nat.mod_lt c hs
  have e : c + (s - c % s) = 0 + s * (c / s + 1) := by
    have := Nat.div_add_mod c s
    rw [Nat.mul_add, Nat.mul_one]
    omega
  rw [e, Nat.add_mul_div_left _ _ hs, Nat.add_mul_mod_self_left]
  simp

end RingArith

section FlagLemmas
variable {α : Type}

theorem framesToEnd_pos (b : audio_buffer α) (i : Nat) (hsub : b.sizeInFrames / 2 ≠ 0) :
    0 < framesToEnd b i := by
  have hr := Nat.mod_lt b.frameCursorPos (Nat.pos_of_ne_zero hsub)
  unfold framesToEnd
  split <;> omega

/-- A segment that stays inside the current sub-buffer leaves the flags as
they are. -/
theorem afterPass_flag_inside (b : audio_buffer α) (n i : Nat)
    (hsub : b.sizeInFrames / 2 ≠ 0) (hnw : b.frameCursorPos + n < UINT_RANGE)
    (hin : b.frameCursorPos % (b.sizeInFrames / 2) + n < b.sizeInFrames / 2) :
    (afterPass b n).flag i = b.flag i := by
  rw [afterPass_flag, Nat.mod_eq_of_lt hnw,
    (div_of_mod_add_lt _ _ n (Nat.pos_of_ne_zero hsub) hin).1]
  have : ¬ (b.frameCursorPos / (b.sizeInFrames / 2) % 2 ≠ subIndex b ∧
      (i = 0 ↔ subIndex b = 0)) := fun h => h.1 rfl
  rw [if_neg this]

/-- A segment that runs to the end of the current sub-buffer marks it, leaves
the other flag as it is, and puts the cursor at the start of the other
sub-buffer. -/
theorem afterPass_flag_crossing (b : audio_buffer α) (i : Nat)
    (hsub : b.sizeInFrames / 2 ≠ 0)
    (hnw : b.frameCursorPos + (b.sizeInFrames / 2 - b.frameCursorPos % (b.sizeInFrames / 2))
      < UINT_RANGE) :
    (afterPass b (b.sizeInFrames / 2 - b.frameCursorPos % (b.sizeInFrames / 2))).flag i =
        (if (i = 0 ↔ subIndex b = 0) then true else b.flag i) ∧
      framesToEnd (afterPass b (b.sizeInFrames / 2 - b.frameCursorPos % (b.sizeInFrames / 2))) i
        = (if (i = 0 ↔ subIndex b = 0) then 2 * (b.sizeInFrames / 2) else b.sizeInFrames / 2) := by
  have hs := Nat.pos_of_ne_zero hsub
  obtain ⟨hd, hm⟩ := div_to_next b.frameCursorPos (b.sizeInFrames / 2) hs
  have hidx : subIndex b = b.frameCursorPos / (b.sizeInFrames / 2) % 2 := rfl
  constructor
  · rw [afterPass_flag, Nat.mod_eq_of_lt hnw, hd]
    have hne : (b.frameCursorPos / (b.sizeInFrames / 2) + 1) % 2 ≠ subIndex b := by
      rw [hidx]; omega
    by_cases hi : (i = 0 ↔ subIndex b = 0)
    · rw [if_pos ⟨hne, hi⟩, if_pos hi]
    · rw [if_neg (fun h => hi h.2), if_neg hi]
  · unfold framesToEnd subIndex
    simp only [afterPass_frameCursorPos, afterPass_sizeInFrames]
    rw [Nat.mod_eq_of_lt hnw, hd, hm]
    by_cases hi : (i = 0 ↔ b.frameCursorPos / (b.sizeInFrames / 2) % 2 = 0)
    · have : ¬ (i = 0 ↔ (b.frameCursorPos / (b.sizeInFrames / 2) + 1) % 2 = 0) := by
        intro h
        by_cases h0 : i = 0
        · have h1 := hi.mp h0
          have h2 := h.mp h0
          omega
        · have h1 : ¬ b.frameCursorPos / (b.sizeInFrames / 2) % 2 = 0 := fun x => h0 (hi.mpr x)
          have h2 : ¬ (b.frameCursorPos / (b.sizeInFrames / 2) + 1) % 2 = 0 :=
            fun x => h0 (h.mpr x)
          omega
      rw [if_neg this, if_pos hi]
      omega
    · have : (i = 0 ↔ (b.frameCursorPos / (b.sizeInFrames / 2) + 1) % 2 = 0) := by
        by_cases h0 : i = 0
        · have h1 : ¬ b.frameCursorPos / (b.sizeInFrames / 2) % 2 = 0 :=
            fun x => hi ⟨fun _ => x, fun _ => h0⟩
          exact ⟨fun _ => by omega, fun _ => h0⟩
        · have h1 : b.frameCursorPos / (b.sizeInFrames / 2) % 2 = 0 := by
            by_contra x
            exact hi ⟨fun y => absurd y h0, fun y => absurd y x⟩
          exact ⟨fun y => absurd y h0, fun y => by omega⟩
      rw [if_pos this, if_neg hi]
      omega

end FlagLemmas

section FlagsCycle
variable {α : Type} [Field α]

theorem mixLoop_flags (sqrtf : α → α) (F : Nat) (d : List α) :
    ∀ (fuel : Nat) (b : audio_buffer α) (ftm : Nat) (out : Nat → α)
      (b1 : audio_buffer α) (out1 : Nat → α),
      b.isStreaming = true → b.sizeInFrames / 2 ≠ 0 →
      b.frameCursorPos + ftm < UINT_RANGE →
      mixLoop sqrtf F d fuel b ftm out = Except.ok (b1, out1) →
      ∀ i, b1.flag i = (b.flag i || decide (framesToEnd b i ≤ ftm)) := by
  intro fuel
  induction fuel with
  | zero =>
    intro b ftm out b1 out1 _ hsub _ h i
    cases ftm with
    | zero =>
      simp only [mixLoop, Except.ok.injEq, Prod.mk.injEq] at h
      have hpos := framesToEnd_pos b i hsub
      rw [← h.1]
      simp [Nat.ne_of_gt hpos]
    | succ ftm => simp [mixLoop] at h
  | succ fuel ih =>
    intro b ftm out b1 out1 hst hsub hnw h i
    cases ftm with
    | zero =>
      simp only [mixLoop, Except.ok.injEq, Prod.mk.injEq] at h
      have hpos := framesToEnd_pos b i hsub
      rw [← h.1]
      simp [Nat.ne_of_gt hpos]
    | succ ftm =>
      rw [mixLoop_succ, if_neg hsub] at h
      have hbrk : ¬ ((!(afterPass b (passLength b (ftm + 1))).isStreaming &&
          decide ((afterPass b (passLength b (ftm + 1))).frameCursorPos ≥
            (afterPass b (passLength b (ftm + 1))).sizeInFrames)) = true) := by
        rw [afterPass_isStreaming, hst]; simp
      split at h
      · simp at h
      · rw [if_neg hbrk] at h
        have hr := Nat.mod_lt b.frameCursorPos (Nat.pos_of_ne_zero hsub)
        have hle := passLength_le b (ftm + 1)
        have hpos := passLength_pos b (ftm + 1) hsub (by omega)
        have hI := ih _ _ _ _ _
          (by rw [afterPass_isStreaming]; exact hst)
          (by rw [afterPass_sizeInFrames]; exact hsub)
          (by rw [afterPass_frameCursorPos, Nat.mod_eq_of_lt (by omega)]; omega) h i
        rw [hI]
        by_cases hA : ftm + 1 <
            b.sizeInFrames / 2 - b.frameCursorPos % (b.sizeInFrames / 2)
        · have hk : passLength b (ftm + 1) = ftm + 1 := by
            unfold passLength
            rw [if_pos hA]
          rw [hk, afterPass_flag_inside b (ftm + 1) i hsub hnw (by omega)]
          have hp0 := framesToEnd_pos (afterPass b (ftm + 1)) i
            (by rw [afterPass_sizeInFrames]; exact hsub)
          have hnot : ¬ framesToEnd b i ≤ ftm + 1 := by
            unfold framesToEnd
            split <;> omega
          simp [Nat.ne_of_gt hp0, hnot]
        · have hk : passLength b (ftm + 1) =
              b.sizeInFrames / 2 - b.frameCursorPos % (b.sizeInFrames / 2) := by
            unfold passLength
            rw [if_neg hA]
          rw [hk] at hle
          rw [hk]
          obtain ⟨h1, h2⟩ := afterPass_flag_crossing b i hsub (by omega)
          rw [h1, h2]
          unfold framesToEnd
          by_cases hi : (i = 0 ↔ subIndex b = 0)
          · have : b.sizeInFrames / 2 - b.frameCursorPos % (b.sizeInFrames / 2) ≤ ftm + 1 :=
              Nat.le_of_not_lt hA
            simp [hi, this]
          · simp only [hi, if_false]
            congr 2
            apply propext
            constructor <;> intro hh <;> omega

theorem mixBuffer_flags (sqrtf : α → α) (F : Nat) (b b1 : audio_buffer α) (out out1 : Nat → α)
    (hplay : b.playing = true) (hpause : b.paused = false) (hst : b.isStreaming = true)
    (hdata : b.data ≠ none) (hsz : 2 ≤ b.sizeInFrames)
    (hnw : b.frameCursorPos + F < UINT_RANGE)
    (h : mixBuffer sqrtf F b out = Except.ok (b1, out1)) (i : Nat) :
    b1.flag i = (b.flag i || decide (framesToEnd b i ≤ F)) := by
  unfold mixBuffer at h
  split at h
  · rename_i hd
    exact absurd hd hdata
  · rw [hplay, hpause] at h
    simp only [Bool.not_false, Bool.and_self, if_true] at h
    exact mixLoop_flags sqrtf F _ F b F out b1 out1 hst (by omega) hnw h i

theorem mixBuffer_flag_stays (sqrtf : α → α) (F : Nat) (i : Nat) (b : audio_buffer α)
    (out : Nat → α) (b1 : audio_buffer α) (out1 : Nat → α)
    (h : mixBuffer sqrtf F b out = Except.ok (b1, out1)) (hfl : b.flag i = true) :
    b1.flag i = true := by
  have hstep : ∀ (b : audio_buffer α) (n : Nat), b.flag i = true →
      (afterPass b n).flag i = true := by
    intro b n hb
    rw [afterPass_flag]
    split
    · rfl
    · exact hb
  unfold mixBuffer at h
  split at h
  · simp only [Except.ok.injEq, Prod.mk.injEq] at h
    rw [← h.1]; exact hfl
  · split at h
    · exact mixLoop_induction sqrtf F _ (fun b => b.flag i = true)
        (fun b => b.flag i = true) (fun _ hb => hb)
        (fun b ftm hb _ _ => hstep b _ hb)
        (fun b ftm hb _ _ => hstep b _ hb) _ _ _ _ _ _ hfl h
    · simp only [Except.ok.injEq, Prod.mk.injEq] at h
      rw [← h.1]; exact hfl

/-- C24 (amended): on a well-formed registry, for a registered streaming
buffer that is playing, unpaused, with data and `sizeInFrames >= 2`, sub-buffer
size `s = sizeInFrames / 2`, cursor in sub-buffer `h` at offset `r`, and a
cycle of `F` frames with `frameCursorPos + F < 2 ^ 32`: after a completed cycle
flag `h` is true if `F >= s - r` and flag `1 - h` is true if `F >= 2 s - r`,
and otherwise each flag has its previous value; in any completed cycle a flag
of any buffer that was true is still true; and the cycle does complete when
every registered buffer has at least two frames and data matching its size. -/
theorem mix_cycle_flags (sqrtf : α → α) (A : AudioData α) (l : List Nat)
    (p fuel F : Nat) (outputBuffer : Nat → α)
    (hwf : WellFormed A l) (hp : p ∈ l) (hfuel : l.length ≤ fuel)
    (hplay : (A.mem p).playing = true) (hpause : (A.mem p).paused = false)
    (hst : (A.mem p).isStreaming = true) (hdata : (A.mem p).data ≠ none)
    (hsz : 2 ≤ (A.mem p).sizeInFrames)
    (hnw : (A.mem p).frameCursorPos + F < UINT_RANGE) :
    (∀ A1 out, port_audio_callback sqrtf fuel A outputBuffer F = Except.ok (A1, out) →
      (∀ i, (A1.mem p).flag i =
        ((A.mem p).flag i || decide (framesToEnd (A.mem p) i ≤ F))) ∧
      ∀ x i, (A.mem x).flag i = true → (A1.mem x).flag i = true) ∧
    ((∀ x ∈ l, DataFits (A.mem x)) →
      ∃ A1 out, port_audio_callback sqrtf fuel A outputBuffer F = Except.ok (A1, out)) := by
  refine ⟨?_, callback_ok sqrtf A l fuel F outputBuffer hwf hfuel⟩
  intro A1 out h
  constructor
  · intro i
    obtain ⟨o, o', hb⟩ := callback_mem sqrtf A A1 l p fuel F outputBuffer out hwf hp hfuel h
    exact mixBuffer_flags sqrtf F _ _ _ _ hplay hpause hst hdata hsz hnw hb i
  · intro x i hx
    exact port_audio_callback_preserves sqrtf F (fun b => b.flag i = true)
      (fun b o b1 o1 hb hI => mixBuffer_flag_stays sqrtf F i b o b1 o1 hb hI)
      fuel A A1 outputBuffer out h x hx

/-- C24 (counterexample): a playing streaming buffer of 14 frames (`s = 7`),
both flags false, whose 32-bit cursor is `4294967292` (sub-buffer 0, offset 0).
A cycle of `F = 7 >= s - r` frames takes the cursor to `4294967299 mod 2 ^ 32 =
3`, still in sub-buffer 0, so flag 0 is not set. -/
theorem flag_missed_at_wrap :
    WellFormed wrapSession [5] ∧
      (wrapSession.mem 5).playing = true ∧ (wrapSession.mem 5).paused = false ∧
      (wrapSession.mem 5).isStreaming = true ∧
      subIndex (wrapSession.mem 5) = 0 ∧
      (wrapSession.mem 5).frameCursorPos % ((wrapSession.mem 5).sizeInFrames / 2) = 0 ∧
      (wrapSession.mem 5).sizeInFrames / 2 = 7 ∧
      ∃ A1 out, port_audio_callback id 1 wrapSession (fun _ => 0) 7 = Except.ok (A1, out) ∧
        (A1.mem 5).frameCursorPos = 3 ∧
        (A1.mem 5).flag 0 = false := by
  refine ⟨by decide, by decide, by decide, by decide, by decide, by decide, by decide,
    _, _, rfl, by decide, by decide⟩

/-- C24 (amended) at `freshSession`: ring of 4 frames (`s = 2`), cursor at
frame 1 (sub-buffer 0, offset 1), cycle of 3 frames: both flags become true. -/
theorem mix_cycle_flags_witness :
    (∀ A1 out, port_audio_callback id 1 freshSession (fun _ => 0) 3 = Except.ok (A1, out) →
      (∀ i, (A1.mem 5).flag i =
        ((freshSession.mem 5).flag i || decide (framesToEnd (freshSession.mem 5) i ≤ 3))) ∧
      ∀ x i, (freshSession.mem x).flag i = true → (A1.mem x).flag i = true) ∧
    ((∀ x ∈ [5], DataFits (freshSession.mem x)) →
      ∃ A1 out, port_audio_callback id 1 freshSession (fun _ => 0) 3 = Except.ok (A1, out)) :=
  mix_cycle_flags id freshSession [5] 5 1 3 (fun _ => 0)
    (by decide) (by decide) (by decide) rfl rfl rfl (by decide) (by decide) (by decide)

end FlagsCycle

/-! ## Reads stay in the sub-buffer whose flag was tested -/

section ReadIndex
variable {α : Type}

theorem read_index_subIndex (b : audio_buffer α) (s ftm i : Nat)
    (heven : b.sizeInFrames = 2 * s) (hs : 1 ≤ s) (hi : i < passLength b ftm) :
    ((b.frameCursorPos + i) % b.sizeInFrames) / (b.sizeInFrames / 2) = subIndex b := by
  have hhalf : b.sizeInFrames / 2 = s := by omega
  have hr := Nat.mod_lt b.frameCursorPos (show 0 < s by omega)
  have hpl : passLength b ftm ≤ s - b.frameCursorPos % s := by
    have := passLength_le_left b ftm
    rw [hhalf] at this
    exact this
  unfold subIndex
  rw [hhalf, heven, Nat.mul_comm 2 s, Nat.mod_mul_right_div_self,
    (div_of_mod_add_lt b.frameCursorPos s i (by omega) (by omega)).1]

theorem read_index_bounds (b : audio_buffer α) (s ftm i : Nat)
    (heven : b.sizeInFrames = 2 * s) (hs : 1 ≤ s) (hi : i < passLength b ftm) :
    subIndex b * s * 2 ≤ (b.frameCursorPos + i) % b.sizeInFrames * 2 ∧
      (b.frameCursorPos + i) % b.sizeInFrames * 2 + 1 < (subIndex b + 1) * s * 2 := by
  have hhalf : b.sizeInFrames / 2 = s := by omega
  have h := read_index_subIndex b s ftm i heven hs hi
  rw [hhalf] at h
  have h1 := Nat.div_add_mod ((b.frameCursorPos + i) % b.sizeInFrames) s
  have h2 := Nat.mod_lt ((b.frameCursorPos + i) % b.sizeInFrames) (show 0 < s by omega)
  rw [h, Nat.mul_comm s (subIndex b)] at h1
  have h3 : (subIndex b + 1) * s = subIndex b * s + s := by ring
  rw [h3]
  omega

end ReadIndex

section ReadFresh
variable {α : Type} [Field α]

theorem mixFrames_congr_data (sqrtf : α → α) (b : audio_buffer α) (d d' : List α)
    (F ftm : Nat) :
    ∀ (k : Nat) (out : Nat → α),
      (∀ i, i < k →
        d'[(b.frameCursorPos + i) % b.sizeInFrames * AUDIO_DEVICE_CHANNELS]? =
            d[(b.frameCursorPos + i) % b.sizeInFrames * AUDIO_DEVICE_CHANNELS]? ∧
          d'[(b.frameCursorPos + i) % b.sizeInFrames * AUDIO_DEVICE_CHANNELS + 1]? =
            d[(b.frameCursorPos + i) % b.sizeInFrames * AUDIO_DEVICE_CHANNELS + 1]?) →
      mixFrames sqrtf b d' F ftm k out = mixFrames sqrtf b d F ftm k out := by
  intro k
  induction k with
  | zero => intro out _; rfl
  | succ k ih =>
    intro out h
    simp only [mixFrames]
    rw [ih out (fun i hi => h i (Nat.lt_succ_of_lt hi))]
    cases mixFrames sqrtf b d F ftm k out with
    | error e => rfl
    | ok o1 =>
      simp only
      unfold mixFrame
      simp only
      rw [(h k (Nat.lt_succ_self k)).1, (h k (Nat.lt_succ_self k)).2]

theorem mixLoop_reads_fresh (sqrtf : α → α) (F : Nat) (d d' : List α) (s : Nat)
    (hs : 1 ≤ s) :
    ∀ (fuel : Nat) (b : audio_buffer α) (ftm : Nat) (out : Nat → α),
      b.sizeInFrames = 2 * s →
      (∀ k t, k < 2 → b.flag k = false → k * s * 2 ≤ t → t < (k + 1) * s * 2 →
        d'[t]? = d[t]?) →
      mixLoop sqrtf F d' fuel b ftm out = mixLoop sqrtf F d fuel b ftm out := by
  intro fuel
  induction fuel with
  | zero =>
    intro b ftm out _ _
    cases ftm <;> rfl
  | succ fuel ih =>
    intro b ftm out heven hagree
    cases ftm with
    | zero => rfl
    | succ ftm =>
      rw [mixLoop_succ, mixLoop_succ]
      have hmix : (if b.flag (subIndex b) then (Except.ok out : Except Fault (Nat → α))
          else mixFrames sqrtf b d' F (ftm + 1) (passLength b (ftm + 1)) out) =
          (if b.flag (subIndex b) then Except.ok out
          else mixFrames sqrtf b d F (ftm + 1) (passLength b (ftm + 1)) out) := by
        cases hfl : b.flag (subIndex b) with
        | true => rfl
        | false =>
          simp only [Bool.false_eq_true, if_false]
          refine mixFrames_congr_data sqrtf b d d' F (ftm + 1) _ out ?_
          intro i hi
          obtain ⟨h1, h2⟩ := read_index_bounds b s (ftm + 1) i heven hs hi
          have hlt : subIndex b < 2 := Nat.mod_lt _ (by decide)
          unfold AUDIO_DEVICE_CHANNELS
          exact ⟨hagree _ _ hlt hfl h1 (by omega), hagree _ _ hlt hfl (by omega) h2⟩
      rw [hmix]
      split
      · rfl
      · cases (if b.flag (subIndex b) then (Except.ok out : Except Fault (Nat → α))
          else mixFrames sqrtf b d F (ftm + 1) (passLength b (ftm + 1)) out) with
        | error e => rfl
        | ok o1 =>
          simp only
          split
          · rfl
          · refine ih _ _ _ (by rw [afterPass_sizeInFrames]; exact heven) ?_
            intro k t hk hfl
            refine hagree k t hk ?_
            rw [afterPass_flag] at hfl
            split at hfl
            · exact Bool.noConfusion hfl
            · exact hfl

theorem mixFrameW_eq (bits : Nat) (sqrtf : α → α) (b : audio_buffer α) (d : List α)
    (F ftm i : Nat) (out : Nat → α) (hnw : b.frameCursorPos + i < 2 ^ bits) :
    mixFrameW bits sqrtf b d F ftm i out = mixFrame sqrtf b d F ftm i out := by
  unfold mixFrameW mixFrame buffer_frame
  rw [Nat.mod_eq_of_lt hnw]

theorem mixFramesW_eq (bits : Nat) (sqrtf : α → α) (b : audio_buffer α) (d : List α)
    (F ftm : Nat) :
    ∀ (k : Nat) (out : Nat → α), b.frameCursorPos + k ≤ 2 ^ bits →
      mixFramesW bits sqrtf b d F ftm k out = mixFrames sqrtf b d F ftm k out := by
  intro k
  induction k with
  | zero => intro out _; rfl
  | succ k ih =>
    intro out h
    simp only [mixFramesW, mixFrames]
    rw [ih out (by omega)]
    cases mixFrames sqrtf b d F ftm k out with
    | error e => rfl
    | ok o1 => exact mixFrameW_eq bits sqrtf b d F ftm k o1 (by omega)

/-- While no sum `frameCursorPos + i` leaves the range of the `unsigned long`,
the segment loop of either width is `mixLoop`. -/
theorem mixLoopW_eq (bits : Nat) (sqrtf : α → α) (F : Nat) (d : List α) :
    ∀ (fuel : Nat) (b : audio_buffer α) (ftm : Nat) (out : Nat → α),
      b.frameCursorPos + ftm ≤ 2 ^ bits →
      mixLoopW bits sqrtf F d fuel b ftm out = mixLoop sqrtf F d fuel b ftm out := by
  intro fuel
  induction fuel with
  | zero =>
    intro b ftm out _
    cases ftm <;> rfl
  | succ fuel ih =>
    intro b ftm out h
    cases ftm with
    | zero => rfl
    | succ ftm =>
      have hle := passLength_le b (ftm + 1)
      rw [mixLoop_succ]
      simp only [mixLoopW]
      rw [mixFramesW_eq bits sqrtf b d F (ftm + 1) _ out (by omega)]
      split
      · rfl
      · cases (if b.flag (subIndex b) then (Except.ok out : Except Fault (Nat → α))
          else mixFrames sqrtf b d F (ftm + 1) (passLength b (ftm + 1)) out) with
        | error e => rfl
        | ok o1 =>
          simp only
          split
          · rfl
          · refine ih _ _ _ ?_
            rw [afterPass_frameCursorPos]
            have := Nat.mod_le (b.frameCursorPos + passLength b (ftm + 1)) UINT_RANGE
            omega

/-- C25 (amended): for a buffer with even `sizeInFrames = 2 s`, `s >= 1`, any
value of `frameCursorPos` and an `unsigned long` of any width `bits`: every
frame index of a segment, `i < framesThisPass`, whose sum `frameCursorPos + i`
stays below `2 ^ bits` lies in the sub-buffer `(frameCursorPos / s) mod 2` whose
flag the segment tests; and a segment loop of `framesToMix` frames with
`frameCursorPos + framesToMix <= 2 ^ bits` reads no sample of a sub-buffer
whose flag is true: run on any other data that agrees with `d` on the
sub-buffers whose flag is false, it gives the same result. -/
theorem reads_only_tested_subbuffer (sqrtf : α → α) (bits F : Nat) (b : audio_buffer α)
    (s : Nat) (heven : b.sizeInFrames = 2 * s) (hs : 1 ≤ s) :
    (∀ ftm i, i < passLength b ftm → b.frameCursorPos + i < 2 ^ bits →
      buffer_frame bits b i / (b.sizeInFrames / 2) = subIndex b ∧
      subIndex b * s * 2 ≤ buffer_frame bits b i * 2 ∧
      buffer_frame bits b i * 2 + 1 < (subIndex b + 1) * s * 2) ∧
    (∀ (d d' : List α) (fuel ftm : Nat) (out : Nat → α),
      b.frameCursorPos + ftm ≤ 2 ^ bits →
      (∀ k t, k < 2 → b.flag k = false → k * s * 2 ≤ t → t < (k + 1) * s * 2 →
        d'[t]? = d[t]?) →
      mixLoopW bits sqrtf F d' fuel b ftm out = mixLoopW bits sqrtf F d fuel b ftm out) := by
  constructor
  · intro ftm i hi hnw
    have e : buffer_frame bits b i = (b.frameCursorPos + i) % b.sizeInFrames := by
      unfold buffer_frame
      rw [Nat.mod_eq_of_lt hnw]
    rw [e]
    exact ⟨read_index_subIndex b s ftm i heven hs hi, read_index_bounds b s ftm i heven hs hi⟩
  · intro d d' fuel ftm out hnw h
    rw [mixLoopW_eq bits sqrtf F d' fuel b ftm out hnw,
      mixLoopW_eq bits sqrtf F d fuel b ftm out hnw]
    exact mixLoop_reads_fresh sqrtf F d d' s hs fuel b ftm out heven h

/-- C25 (counterexample): with an `unsigned long` of 32 bits, a ring of 6
frames (`s = 3`) whose cursor is `4294967295`: the segment tests the flag of
sub-buffer 1, which is false, and has 3 frames; for `i = 1` the sum
`4294967295 + 1` wraps to 0 and the frame read is frame 0, in sub-buffer 0,
whose flag is true.  With 64 bits the frame read is frame 4, in sub-buffer
1. -/
theorem read_wraps_into_stale :
    exampleEdgeRing.sizeInFrames = 2 * 3 ∧
      subIndex exampleEdgeRing = 1 ∧
      exampleEdgeRing.flag 1 = false ∧ exampleEdgeRing.flag 0 = true ∧
      passLength exampleEdgeRing 3 = 3 ∧ 1 < passLength exampleEdgeRing 3 ∧
      buffer_frame 32 exampleEdgeRing 1 = 0 ∧
      buffer_frame 32 exampleEdgeRing 1 / (exampleEdgeRing.sizeInFrames / 2) = 0 ∧
      buffer_frame 32 exampleEdgeRing 1 / (exampleEdgeRing.sizeInFrames / 2) ≠
        subIndex exampleEdgeRing ∧
      buffer_frame 64 exampleEdgeRing 1 = 4 ∧
      buffer_frame 64 exampleEdgeRing 1 / (exampleEdgeRing.sizeInFrames / 2) =
        subIndex exampleEdgeRing := by
  decide

/-- C25 (amended) at the ring of 4 frames of `exampleRing` (`s = 2`) with an
`unsigned long` of 64 bits. -/
theorem reads_only_tested_subbuffer_witness :
    (∀ ftm i, i < passLength exampleRing ftm → exampleRing.frameCursorPos + i < 2 ^ 64 →
      buffer_frame 64 exampleRing i / (exampleRing.sizeInFrames / 2) = subIndex exampleRing ∧
      subIndex exampleRing * 2 * 2 ≤ buffer_frame 64 exampleRing i * 2 ∧
      buffer_frame 64 exampleRing i * 2 + 1 < (subIndex exampleRing + 1) * 2 * 2) ∧
    (∀ (d d' : List ℚ) (fuel ftm : Nat) (out : Nat → ℚ),
      exampleRing.frameCursorPos + ftm ≤ 2 ^ 64 →
      (∀ k t, k < 2 → exampleRing.flag k = false → k * 2 * 2 ≤ t → t < (k + 1) * 2 * 2 →
        d'[t]? = d[t]?) →
      mixLoopW 64 id 4 d' fuel exampleRing ftm out =
        mixLoopW 64 id 4 d fuel exampleRing ftm out) :=
  reads_only_tested_subbuffer id 64 4 exampleRing 2 rfl (by decide)

end ReadFresh

/-! ## Static buffers of odd size -/

section OddStatic

/-- C26 (failing input): a stereo wave of five frames `(1,1) .. (5,5)` at the
device rate, loaded with `load_sound_from_wave` (static buffer, `sizeInFrames =
5`, valid sound), played and mixed for one cycle of 8 frames.  The cycle ends
playback with `framesProcessed = 6` and `frameCursorPos = 6`, and output frame
4 is silent: data frame 4, `(5,5)`, is never mixed. -/
theorem odd_static_drops_last_frame :
    ∃ (A0 : AudioData ℚ) (snd : sound) (A1 : AudioData ℚ) (out : Nat → ℚ),
      load_sound_from_wave emptySession 44100 noResample (some 5) true exampleWave5
        = Except.ok (A0, snd) ∧
      is_sound_valid snd = true ∧ snd.stream.buffer = some 5 ∧
      (A0.mem 5).isStreaming = false ∧ (A0.mem 5).sizeInFrames = 5 ∧
      (A0.mem 5).data = some [1, 1, 2, 2, 3, 3, 4, 4, 5, 5] ∧
      port_audio_callback id 1 (play_audio_buffer A0 (some 5)) (fun _ => 0) 8
        = Except.ok (A1, out) ∧
      (A1.mem 5).playing = false ∧ (A1.mem 5).framesProcessed = 6 ∧
      (A1.mem 5).frameCursorPos = 6 ∧ out 8 = 0 ∧ out 9 = 0 := by
  refine ⟨_, _, _, _, rfl, by decide, by decide, by decide, by decide, by decide, rfl,
    by decide, by decide, by decide, ?_, ?_⟩
  · exact zero_mul (1 : ℚ)
  · exact zero_mul (1 : ℚ)

/-- C28 (failing input): a stereo wave of one frame at the device rate, loaded
with `load_sound_from_wave`: the sound passes `is_sound_valid`, its buffer has
`sizeInFrames = 1`, so `subBufferSizeFrames = 1 / 2 = 0`, and the first mix
cycle after `play_sound` divides by zero. -/
theorem one_frame_sound_divides_by_zero :
    ∃ (A0 : AudioData ℚ) (snd : sound),
      load_sound_from_wave emptySession 44100 noResample (some 5) true exampleWave1
        = Except.ok (A0, snd) ∧
      is_sound_valid snd = true ∧ snd.stream.buffer = some 5 ∧ snd.frameCount = 1 ∧
      (A0.mem 5).sizeInFrames = 1 ∧ (A0.mem 5).sizeInFrames / 2 = 0 ∧
      (A0.mem 5).data = some [1, 1] ∧
      port_audio_callback id 1 (play_audio_buffer A0 (some 5)) (fun _ => 0) 1
        = Except.error Fault.divByZero := by
  refine ⟨_, _, rfl, by decide, by decide, by decide, by decide, by decide, by decide, rfl⟩

end OddStatic

/-! ## Termination of the mix cycle -/

section Termination
variable {α : Type} [Field α]

theorem mixLoop_error (sqrtf : α → α) (F : Nat) (d : List α) :
    ∀ (fuel : Nat) (b : audio_buffer α) (ftm : Nat) (out : Nat → α) (e : Fault),
      ftm ≤ fuel → b.sizeInFrames / 2 ≠ 0 →
      mixLoop sqrtf F d fuel b ftm out = Except.error e → e = Fault.outOfBounds := by
  intro fuel
  induction fuel with
  | zero =>
    intro b ftm out e hf _ h
    have : ftm = 0 := by omega
    subst this
    simp [mixLoop] at h
  | succ fuel ih =>
    intro b ftm out e hf hsub h
    cases ftm with
    | zero => simp [mixLoop] at h
    | succ ftm =>
      have hpos := passLength_pos b (ftm + 1) hsub (by omega)
      rw [mixLoop_succ, if_neg hsub] at h
      split at h
      · rename_i e' he
        simp only [Except.error.injEq] at h
        rw [← h]
        split at he
        · simp at he
        · exact mixFrames_error sqrtf b d F (ftm + 1) _ _ e' he
      · split at h
        · simp at h
        · exact ih _ _ _ _ (by omega) (by rw [afterPass_sizeInFrames]; exact hsub) h

theorem mixBuffer_error (sqrtf : α → α) (F : Nat) (b : audio_buffer α) (out : Nat → α)
    (e : Fault) (hsz : 2 ≤ b.sizeInFrames)
    (h : mixBuffer sqrtf F b out = Except.error e) : e = Fault.outOfBounds := by
  unfold mixBuffer at h
  split at h
  · simp at h
  · split at h
    · exact mixLoop_error sqrtf F _ F b F out e (Nat.le_refl F) (by omega) h
    · simp at h

theorem mixList_error (sqrtf : α → α) (F : Nat) :
    ∀ (l : List Nat) (mem : Nat → audio_buffer α) (out : Nat → α) (e : Fault),
      (∀ x ∈ l, 2 ≤ (mem x).sizeInFrames) →
      mixList sqrtf F l mem out = Except.error e → e = Fault.outOfBounds := by
  intro l
  induction l with
  | nil => intro mem out e _ h; simp [mixList] at h
  | cons p l ih =>
    intro mem out e hsz h
    simp only [mixList] at h
    cases hb : mixBuffer sqrtf F (mem p) out with
    | error e' =>
      rw [hb] at h
      simp only [Except.error.injEq] at h
      rw [← h]
      exact mixBuffer_error sqrtf F _ _ _ (hsz p (List.mem_cons_self p l)) hb
    | ok r =>
      obtain ⟨b1, o1⟩ := r
      rw [hb] at h
      simp only at h
      refine ih _ _ _ ?_ h
      intro x hx
      by_cases hxp : x = p
      · subst hxp
        rw [Function.update_same, (mixBuffer_sameConfig sqrtf F _ _ _ _ hb).2.2.2.2.2.1]
        exact hsz x (List.mem_cons_self x l)
      · rw [Function.update_noteq hxp]
        exact hsz x (List.mem_cons_of_mem p hx)

/-- C27: on a well-formed registry of `l.length` buffers that all have
`sizeInFrames >= 2`, for every block size `F`: in every segment of every such
buffer the divisor `subBufferSizeFrames` is non-zero and `1 <= framesThisPass
<= framesToMix`, so `framesToMix` strictly decreases; the segment loop of a
buffer ends within `F` iterations and the registry loop within `l.length`
visits, never dividing by zero: the only way for the cycle not to complete is a
read outside `data`, and it does complete when every buffer's data matches its
size. -/
theorem mix_cycle_terminates (sqrtf : α → α) (A : AudioData α) (l : List Nat)
    (fuel F : Nat) (outputBuffer : Nat → α)
    (hwf : WellFormed A l) (hfuel : l.length ≤ fuel)
    (hsz : ∀ x ∈ l, 2 ≤ (A.mem x).sizeInFrames) :
    (∀ x ∈ l, ∀ (b : audio_buffer α) (framesToMix : Nat),
      b.sizeInFrames = (A.mem x).sizeInFrames → 1 ≤ framesToMix →
      b.sizeInFrames / 2 ≠ 0 ∧ 1 ≤ passLength b framesToMix ∧
        passLength b framesToMix ≤ framesToMix ∧
        framesToMix - passLength b framesToMix < framesToMix) ∧
    (∀ x ∈ l, ∀ (b : audio_buffer α) (d : List α) (out : Nat → α),
      b.sizeInFrames = (A.mem x).sizeInFrames →
      mixLoop sqrtf F d F b F out ≠ Except.error Fault.outOfFuel ∧
        mixLoop sqrtf F d F b F out ≠ Except.error Fault.divByZero) ∧
    (∀ e, port_audio_callback sqrtf fuel A outputBuffer F = Except.error e →
      e = Fault.outOfBounds) ∧
    ((∀ x ∈ l, DataFits (A.mem x)) →
      ∃ A1 out, port_audio_callback sqrtf fuel A outputBuffer F = Except.ok (A1, out)) := by
  refine ⟨?_, ?_, ?_, callback_ok sqrtf A l fuel F outputBuffer hwf hfuel⟩
  · intro x hx b ftm hb hftm
    have h2 := hsz x hx
    have hsub : b.sizeInFrames / 2 ≠ 0 := by omega
    have hpos := passLength_pos b ftm hsub (by omega)
    have hle := passLength_le b ftm
    exact ⟨hsub, hpos, hle, by omega⟩
  · intro x hx b d out hb
    have h2 := hsz x hx
    have hsub : b.sizeInFrames / 2 ≠ 0 := by omega
    constructor
    · exact mixLoop_ne_outOfFuel sqrtf F d F b F out (Nat.le_refl F)
    · intro h
      have := mixLoop_error sqrtf F d F b F out _ (Nat.le_refl F) hsub h
      exact Fault.noConfusion this
  · intro e h
    unfold port_audio_callback at h
    simp only at h
    rw [mixAll_eq_mixList sqrtf F l fuel _ _ _ hwf.2.1 hfuel] at h
    split at h
    · rename_i e' he
      simp only [Except.error.injEq] at h
      rw [← h]
      exact mixList_error sqrtf F l _ _ _ hsz he
    · simp at h

/-- C27 at the registry `5 <-> 6` of `exampleMix`, block size 4. -/
theorem mix_cycle_terminates_witness :
    (∀ x ∈ [5, 6], ∀ (b : audio_buffer ℚ) (framesToMix : Nat),
      b.sizeInFrames = (exampleMix.mem x).sizeInFrames → 1 ≤ framesToMix →
      b.sizeInFrames / 2 ≠ 0 ∧ 1 ≤ passLength b framesToMix ∧
        passLength b framesToMix ≤ framesToMix ∧
        framesToMix - passLength b framesToMix < framesToMix) ∧
    (∀ x ∈ [5, 6], ∀ (b : audio_buffer ℚ) (d : List ℚ) (out : Nat → ℚ),
      b.sizeInFrames = (exampleMix.mem x).sizeInFrames →
      mixLoop id 4 d 4 b 4 out ≠ Except.error Fault.outOfFuel ∧
        mixLoop id 4 d 4 b 4 out ≠ Except.error Fault.divByZero) ∧
    (∀ e, port_audio_callback id 2 exampleMix (fun _ => 0) 4 = Except.error e →
      e = Fault.outOfBounds) ∧
    ((∀ x ∈ [5, 6], DataFits (exampleMix.mem x)) →
      ∃ A1 out, port_audio_callback id 2 exampleMix (fun _ => 0) 4 = Except.ok (A1, out)) :=
  mix_cycle_terminates id exampleMix [5, 6] 2 4 (fun _ => 0) (by decide) (by decide)
    (by decide)

end Termination

end Audio
